import Mathlib

/-!
# machine-api: the reconcilers of Machines, Nodes, providers and certificate requests

A shallow embedding of the reconcilers of `criticalstack/machine-api`.

* Go strings are Lean strings, durations are natural numbers of nanoseconds.
* A nil pointer is `none`; dereferencing it is the outcome `panicked`.
* The resource store, the Kubernetes clientset, the drain helper and the PEM
  and X.509 decoders live outside the repository.  Each reconciler takes their
  answers from a `Cluster` record and logs every request it makes in a list of
  `Call`s, in program order, so that "no drain was issued" is a statement
  about that list.
* Log lines and recorded events never influence control flow and are left out.
* An execution of several reconciles runs them one at a time against a
  `Store` of Machines, which answers the listing of a namespace.
-/

namespace MachineAPI

/-! ## Strings -/

/-- Go `strings.HasPrefix`. -/
def hasPrefix (s p : String) : Bool :=
  p.toList.isPrefixOf s.toList

/-- Go `strings.TrimPrefix`. -/
def trimPrefix (s p : String) : String :=
  if hasPrefix s p then String.mk (s.toList.drop p.length) else s

/-! ## errors (`src/errors/errors.go` and `github.com/pkg/errors`) -/

/-- Error values.  Formatted messages are kept as the format string together
with the rendered arguments, so that the values a message names stay visible.

* `status reason message`: an API status error of the resource store;
* `fundamental format args`: `errors.New` and `errors.Errorf`;
* `fundamentalErr format args e`: `errors.Errorf(format, args..., e)`, the
  last argument being the error `e`;
* `sentinel msg`: a package-level `errors.New(msg)` variable, which callers
  compare by identity;
* `requeueAfter d`: `&RequeueAfterError{RequeueAfter: d}`;
* `wrapf cause format args`: `errors.Wrap` and `errors.Wrapf`;
* `wrapText cause e`: `errors.Wrap(cause, e.Error())`;
* `foreign msg`: any other error of a library outside the repository. -/
inductive Error where
  | status (reason : String) (message : String)
  | fundamental (format : String) (args : List String)
  | fundamentalErr (format : String) (args : List String) (textOf : Error)
  | sentinel (msg : String)
  | requeueAfter (d : Nat)
  | wrapf (cause : Error) (format : String) (args : List String)
  | wrapText (cause : Error) (textOf : Error)
  | foreign (msg : String)
  deriving DecidableEq, Repr

/-- One `time.Second`, in nanoseconds. -/
def second : Nat := 1000000000

/-- The function `NewRequeueErrorf`. -/
def NewRequeueErrorf (d : Nat) (msg : String) (args : List String) : Error :=
  .wrapf (.requeueAfter d) msg args

/-- The function `errors.Cause`: strips every wrapping layer. -/
def Cause : Error → Error
  | .wrapf c _ _ => Cause c
  | .wrapText c _ => Cause c
  | e => e

/-- The type assertion `err.(mapierrors.HasRequeueAfterError)` followed by
`GetRequeueAfter()`: only `*RequeueAfterError` has the method. -/
def asRequeueAfter : Error → Option Nat
  | .requeueAfter d => some d
  | _ => none

/-- The function `apierrors.IsNotFound`: inspects the error value itself (the
callers unwrap with `errors.Cause` where they want the cause). -/
def IsNotFound : Error → Bool
  | .status reason _ => reason == "NotFound"
  | _ => false

/-- The function `apierrors.IsAlreadyExists`, on the error value itself. -/
def IsAlreadyExists : Error → Bool
  | .status reason _ => reason == "AlreadyExists"
  | _ => false

/-- The function `IsRequeueAfter`; `none` is the nil error, whose cause is
nil and does not satisfy the interface. -/
def IsRequeueAfter (err : Option Error) : Bool :=
  match err with
  | none => false
  | some e => (asRequeueAfter (Cause e)).isSome

/-- A wrapping layer: `errors.Wrapf(_, format, args...)` (`errors.Wrap` has no
arguments) or `errors.Wrap(_, e.Error())`. -/
inductive Layer where
  | wrapf (format : String) (args : List String)
  | wrapText (textOf : Error)
  deriving DecidableEq, Repr

/-- An error under one more layer. -/
def Layer.around (e : Error) : Layer → Error
  | .wrapf format args => .wrapf e format args
  | .wrapText textOf => .wrapText e textOf

/-- An error under further layers, the innermost first. -/
def wrapLayers (e : Error) (layers : List Layer) : Error :=
  layers.foldl Layer.around e

/-- The struct `ctrl.Result`. -/
structure Result where
  requeue : Bool := false
  requeueAfter : Nat := 0
  deriving DecidableEq, Repr

/-- How a Go call ends: it returns a value or the goroutine panics. -/
inductive Outcome (α : Type) where
  | returned (a : α)
  | panicked
  deriving DecidableEq, Repr

/-! ## API types (`src/api/v1alpha1/machine_types.go`) -/

/-- The struct `corev1.ObjectReference` (the fields the controllers use);
`ns` is the Go field `Namespace`. -/
structure ObjectReference where
  kind : String := ""
  apiVersion : String := ""
  name : String := ""
  ns : String := ""
  deriving DecidableEq, Repr

/-- The struct `MachineAddress`. -/
structure MachineAddress where
  type : String := ""
  address : String := ""
  deriving DecidableEq, Repr

/-- The constant `MachineFinalizer`. -/
def MachineFinalizer : String := "machine.crit.sh"

/-- The constant `MachineControlPlaneLabelName`. -/
def MachineControlPlaneLabelName : String := "node-role.kubernetes.io/master"

/-- The constant `MachinePending`. -/
def MachinePending : String := "Pending"

/-- The constant `MachineRunning`. -/
def MachineRunning : String := "Running"

/-- The constant `MachineTerminating`. -/
def MachineTerminating : String := "Terminating"

/-- The constant `MachineFailed`. -/
def MachineFailed : String := "Failed"

/-- The struct `MachineSpec`. -/
structure MachineSpec where
  configRef : ObjectReference := {}
  infrastructureRef : ObjectReference := {}
  providerID : Option String := none
  failureDomain : Option String := none
  deriving DecidableEq, Repr

/-- The struct `MachineStatus`; `phase` is a `MachinePhase`, a Go string. -/
structure MachineStatus where
  nodeRef : Option ObjectReference := none
  version : Option String := none
  failureReason : Option String := none
  failureMessage : Option String := none
  phase : String := ""
  addresses : List MachineAddress := []
  infrastructureReady : Bool := false
  deriving DecidableEq, Repr

/-- The struct `Machine`, with the object metadata the controllers read.
Labels are a Go map, kept as an association list; `apiVersion` is the field
`APIVersion` of the embedded `TypeMeta`. -/
structure Machine where
  name : String := ""
  ns : String := ""
  labels : List (String × String) := []
  deletionTimestamp : Option Nat := none
  finalizers : List String := []
  spec : MachineSpec := {}
  status : MachineStatus := {}
  apiVersion : String := ""
  deriving DecidableEq, Repr

/-- The struct `corev1.Node` (the fields the controllers use).  Annotations
are a Go map, kept as an association list; `none` is the nil map. -/
structure Node where
  kind : String := ""
  apiVersion : String := ""
  name : String := ""
  ns : String := ""
  annotations : Option (List (String × String)) := none
  providerID : String := ""
  kubeletVersion : String := ""
  deriving DecidableEq, Repr

/-- The method `(*metav1.Time).IsZero`: nil, or the zero instant. -/
def isZero : Option Nat → Bool
  | none => true
  | some t => t == 0

/-! ## Unstructured objects (`k8s.io/apimachinery`, `src/util/util.go`) -/

/-- What `unstructured.NestedString` or `unstructured.NestedBool` finds at a
path of an object: nothing (`found` is false, the value is the zero value), a
value of the expected type, or an accessor error. -/
inductive Nested (α : Type) where
  | absent
  | value (a : α)
  | invalid (err : Error)
  deriving DecidableEq, Repr

/-- What `util.UnstructuredUnmarshalField` meets at a path of an object:
nothing there (or a null), a value that decodes into the target, a path that
`NestedFieldNoCopy` cannot walk, a value `json.Marshal` refuses, or a value
`json.Unmarshal` cannot decode into the target, which then holds `part`. -/
inductive Field (α : Type) where
  | absent
  | value (a : α)
  | unreadable (err : Error)
  | unencodable (err : Error)
  | undecodable (err : Error) (part : α)
  deriving DecidableEq, Repr

/-- An `unstructured.Unstructured` object: its identifying fields, its
deletion timestamp and, for each path the controllers read, what the generic
accessor finds there. -/
structure Unstructured where
  apiVersion : String := ""
  kind : String := ""
  ns : String := ""
  name : String := ""
  deletionTimestamp : Option Nat := none
  statusFailureReason : Nested String := .absent
  statusFailureMessage : Nested String := .absent
  statusReady : Nested Bool := .absent
  specProviderID : Field String := .absent
  statusAddresses : Field (List MachineAddress) := .absent
  specFailureDomain : Field String := .absent
  deriving DecidableEq, Repr

/-- The struct `schema.GroupVersionKind`. -/
structure GroupVersionKind where
  group : String := ""
  version : String := ""
  kind : String := ""
  deriving DecidableEq, Repr

/-- The function `schema.ParseGroupVersion`; `none` is its error (more than
one slash). -/
def ParseGroupVersion (gv : String) : Option (String × String) :=
  let n := gv.toList.count '/'
  if n = 0 then some ("", gv)
  else if n = 1 then
    some (String.mk (gv.toList.takeWhile (fun c => c != '/')),
      String.mk ((gv.toList.dropWhile (fun c => c != '/')).drop 1))
  else none

/-- The method `(*corev1.ObjectReference).GroupVersionKind`, that is
`schema.FromAPIVersionAndKind`. -/
def ObjectReference.GroupVersionKind (ref : ObjectReference) : GroupVersionKind :=
  match ParseGroupVersion ref.apiVersion with
  | some (group, version) => { group := group, version := version, kind := ref.kind }
  | none => { kind := ref.kind }

/-- The method `(*unstructured.Unstructured).GroupVersionKind`. -/
def Unstructured.GroupVersionKind (obj : Unstructured) : GroupVersionKind :=
  match ParseGroupVersion obj.apiVersion with
  | some (group, version) => { group := group, version := version, kind := obj.kind }
  | none => {}

/-- The method `schema.GroupVersionKind.String`. -/
def GroupVersionKind.string (gvk : GroupVersionKind) : String :=
  gvk.group ++ "/" ++ gvk.version ++ ", Kind=" ++ gvk.kind

/-- The method `schema.GroupKind.String` of `gvk.GroupKind()`. -/
def GroupVersionKind.groupKindString (gvk : GroupVersionKind) : String :=
  if gvk.group.length = 0 then gvk.kind else gvk.kind ++ "." ++ gvk.group

/-! ## Message texts (`fmt`, `strings`) -/

/-- The function `fmt.Sprintf` on the characters of the format, for the plain
verbs the repository uses: each verb takes the next argument, `%q` through
`quote` (that is `strconv.Quote`). -/
def sprintfChars (quote : String → String) : List Char → List String → List Char
  | [], _ => []
  | '%' :: '%' :: rest, args => '%' :: sprintfChars quote rest args
  | '%' :: verb :: rest, arg :: args =>
    (if verb = 'q' then quote arg else arg).toList ++ sprintfChars quote rest args
  | '%' :: verb :: rest, [] =>
    "%!".toList ++ verb :: "(MISSING)".toList ++ sprintfChars quote rest []
  | c :: rest, args => c :: sprintfChars quote rest args

/-- The function `fmt.Sprintf`. -/
def Sprintf (quote : String → String) (format : String) (args : List String) : String :=
  String.mk (sprintfChars quote format.toList args)

/-- The method `Error()` of an error value; `duration` renders a
`time.Duration` under `%v`. -/
def Error.text (quote : String → String) (duration : Nat → String) : Error → String
  | .status _ message => message
  | .fundamental format args => Sprintf quote format args
  | .fundamentalErr format args e =>
    Sprintf quote format (args ++ [Error.text quote duration e])
  | .sentinel msg => msg
  | .requeueAfter d => Sprintf quote "requeue in %v" [duration d]
  | .wrapf cause format args =>
    Sprintf quote format args ++ ": " ++ Error.text quote duration cause
  | .wrapText cause e =>
    Error.text quote duration e ++ ": " ++ Error.text quote duration cause
  | .foreign msg => msg

/-- The function `strings.Contains` on characters. -/
def containsChars : List Char → List Char → Bool
  | [], substr => substr.isEmpty
  | c :: s, substr => substr.isPrefixOf (c :: s) || containsChars s substr

/-- The function `strings.Contains`. -/
def stringsContains (s substr : String) : Bool :=
  containsChars s.toList substr.toList

/-! ## External objects (`src/util/external`, `src/util/util.go`) -/

namespace external

/-- A key of the tracker's `sync.Map`: `Watch` stores the group-kind string
and deletes with the watched object itself as the key. -/
inductive Key where
  | groupKind (s : String)
  | object (obj : Unstructured)
  deriving DecidableEq, Repr

/-- The struct `ObjectTracker`: the keys of its map `m`, and whether
`Controller` is set. -/
structure ObjectTracker where
  m : List Key := []
  controller : Bool := true
  deriving DecidableEq, Repr

/-- What a call of `Watch` leaves behind: the tracker, whether the
controller's `Watch` was invoked, and the returned error. -/
structure Watched where
  tracker : ObjectTracker
  registered : Bool
  err : Option Error
  deriving DecidableEq, Repr

/-- The method `ObjectTracker.Watch`; `controllerWatch` is the outcome of
`o.Controller.Watch` for a kind. -/
def ObjectTracker.Watch (o : ObjectTracker) (controllerWatch : GroupVersionKind → Option Error)
    (obj : Unstructured) : Watched :=
  if !o.controller then
    ⟨o, false, some (.fundamental "Watch called on ObjectTracker with no Controller" [])⟩
  else
    let gvk := obj.GroupVersionKind
    -- LoadOrStore
    if o.m.contains (.groupKind gvk.groupKindString) then ⟨o, false, none⟩
    else
      let stored : ObjectTracker := { o with m := o.m ++ [.groupKind gvk.groupKindString] }
      match controllerWatch gvk with
      | some err =>
        ⟨{ stored with m := stored.m.filter (fun k => k != .object obj) }, true,
          some (.wrapf err "failed to add watcher on external object %q" [gvk.string])⟩
      | none => ⟨stored, true, none⟩

/-- The function `FailuresFrom`: the failure reason and message, or an
error. -/
def FailuresFrom (obj : Unstructured) : Except Error (String × String) :=
  match obj.statusFailureReason with
  | .invalid err =>
    .error (.wrapf err "failed to determine failureReason on %v %q"
      [obj.GroupVersionKind.string, obj.name])
  | reason =>
    match obj.statusFailureMessage with
    | .invalid err =>
      .error (.wrapf err "failed to determine failureMessage on %v %q"
        [obj.GroupVersionKind.string, obj.name])
    | message =>
      .ok ((match reason with
          | .value r => r
          | _ => ""),
        (match message with
          | .value t => t
          | _ => ""))

/-- The function `IsReady`: `ready && found`, or an error. -/
def IsReady (obj : Unstructured) : Except Error Bool :=
  match obj.statusReady with
  | .invalid err =>
    .error (.wrapf err "failed to determine %v %q readiness"
      [obj.GroupVersionKind.string, obj.name])
  | .value ready => .ok ready
  | .absent => .ok false

/-- The function `Get`; `get` is `c.Get` for an unstructured object of an
apiVersion and kind, at the key made of a namespace and a name. -/
def Get (get : String → String → String → String → Except Error Unstructured)
    (ref : ObjectReference) (ns : String) : Except Error Unstructured :=
  match get ref.apiVersion ref.kind ns ref.name with
  | .error err =>
    .error (.wrapf err "failed to retrieve %s external object %q/%q" [ref.kind, ns, ref.name])
  | .ok obj => .ok obj

/-- What `scheme.ObjectKinds` objects to in an unstructured object of an
apiVersion and kind, before a client looks anything up: a missing kind, then
a missing version.  Neither error is an API status error. -/
def missingKind (apiVersion kind : String) : Option Error :=
  let gvk := Unstructured.GroupVersionKind { apiVersion := apiVersion, kind := kind }
  if gvk.kind.length = 0 then some (.foreign "unstructured object has no kind")
  else if gvk.version.length = 0 then some (.foreign "unstructured object has no version")
  else none

/-- The answer of a client's `Get` in front of a store holding the objects
`store`, as the fake client of `util_test.go` and the real client give it: an
object without kind or version is refused with the error of `missingKind`;
otherwise the answer is the stored object of that apiVersion, kind, namespace
and name, or the API status error `NotFound`. -/
def storeGet (store : List Unstructured) (apiVersion kind ns name : String) :
    Except Error Unstructured :=
  match missingKind apiVersion kind with
  | some err => .error err
  | none =>
    match store.find? (fun o =>
        o.apiVersion == apiVersion && o.kind == kind && o.ns == ns && o.name == name) with
    | some obj => .ok obj
    | none => .error (.status "NotFound" (kind ++ " " ++ name ++ " not found"))

/-- The group-kind of an object, `gvk.GroupKind()`: group and kind. -/
def groupKind (obj : Unstructured) : String × String :=
  (obj.GroupVersionKind.group, obj.GroupVersionKind.kind)

/-- The tracker after calls of `Watch` made one at a time, for the objects
`objs` in order. -/
def trackAll (controllerWatch : GroupVersionKind → Option Error) :
    ObjectTracker → List Unstructured → ObjectTracker
  | o, [] => o
  | o, obj :: rest => trackAll controllerWatch (o.Watch controllerWatch obj).tracker rest

/-- The kinds for which those calls invoked the controller's `Watch`, in
order. -/
def registrations (controllerWatch : GroupVersionKind → Option Error) :
    ObjectTracker → List Unstructured → List GroupVersionKind
  | _, [] => []
  | o, obj :: rest =>
    (if (o.Watch controllerWatch obj).registered then [obj.GroupVersionKind] else []) ++
      registrations controllerWatch (o.Watch controllerWatch obj).tracker rest

/-- The resource of `TestGetResourceFound`. -/
def greenTemplate : Unstructured :=
  { apiVersion := "green.io/v1", kind := "GreenTemplate", ns := "test", name := "greenTemplate" }

/-- The reference of `TestGetResourceFound`. -/
def greenReference : ObjectReference :=
  { kind := "GreenTemplate", apiVersion := "green.io/v1", name := "greenTemplate", ns := "test" }

/-- The reference of `TestGetResourceFound` without its kind. -/
def kindlessReference : ObjectReference :=
  { greenReference with kind := "" }

/-- The reference of `TestGetResourceNotFound`. -/
def blueReference : ObjectReference :=
  { kind := "BlueTemplate", apiVersion := "blue.io/v1", name := "blueTemplate", ns := "test" }

end external

/-- The variable `util.ErrUnstructuredFieldNotFound`. -/
def ErrUnstructuredFieldNotFound : Error := .sentinel "field not found"

/-- The function `util.UnstructuredUnmarshalField` on what it meets at the
path `fields`: the value it wrote to the target, if any, and its error. -/
def UnstructuredUnmarshalField {α : Type} (obj : Unstructured) (field : Field α)
    (fields : String) : Option α × Option Error :=
  match field with
  | .unreadable err =>
    (none, some (.wrapf err "failed to retrieve field %q from %q"
      [fields, obj.GroupVersionKind.string]))
  | .absent => (none, some ErrUnstructuredFieldNotFound)
  | .unencodable err =>
    (none, some (.wrapf err "failed to json-encode field %q value from %q"
      [fields, obj.GroupVersionKind.string]))
  | .undecodable err part =>
    (some part, some (.wrapf err "failed to json-decode field %q value from %q"
      [fields, obj.GroupVersionKind.string]))
  | .value a => (some a, none)

/-! ## CSR approver (`src/controllers/csrapprover`) -/

namespace csrapprover

/-- The struct `certificatesv1beta1.CertificateSigningRequestCondition`. -/
structure CertificateSigningRequestCondition where
  type : String := ""
  reason : String := ""
  message : String := ""
  deriving DecidableEq, Repr

/-- The constant `certificatesv1beta1.CertificateApproved`. -/
def CertificateApproved : String := "Approved"

/-- The constant `certificatesv1beta1.CertificateDenied`. -/
def CertificateDenied : String := "Denied"

/-- The constant `certificatesv1beta1.UsageDigitalSignature`. -/
def UsageDigitalSignature : String := "digital signature"

/-- The constant `certificatesv1beta1.UsageKeyEncipherment`. -/
def UsageKeyEncipherment : String := "key encipherment"

/-- The constant `certificatesv1beta1.UsageServerAuth`. -/
def UsageServerAuth : String := "server auth"

/-- The constant `certificatesv1beta1.UsageClientAuth`. -/
def UsageClientAuth : String := "client auth"

/-- The struct `certificatesv1beta1.CertificateSigningRequestSpec`; `request`
is the PEM payload, a byte string. -/
structure CertificateSigningRequestSpec where
  request : List Nat := []
  usages : List String := []
  username : String := ""
  uid : String := ""
  groups : List String := []
  extra : List (String × List String) := []
  deriving DecidableEq, Repr

/-- The struct `certificatesv1beta1.CertificateSigningRequestStatus`. -/
structure CertificateSigningRequestStatus where
  conditions : List CertificateSigningRequestCondition := []
  deriving DecidableEq, Repr

/-- The struct `certificatesv1beta1.CertificateSigningRequest`. -/
structure CertificateSigningRequest where
  name : String := ""
  spec : CertificateSigningRequestSpec := {}
  status : CertificateSigningRequestStatus := {}
  deriving DecidableEq, Repr

/-- The struct `x509.CertificateRequest` (the fields read by the validator);
an IP address is its byte string. -/
structure CertificateRequest where
  dnsNames : List String := []
  ipAddresses : List (List Nat) := []
  deriving DecidableEq, Repr

/-- The struct `authorizationv1beta1.ResourceAttributes`. -/
structure ResourceAttributes where
  group : String := ""
  resource : String := ""
  verb : String := ""
  deriving DecidableEq, Repr

/-- The struct `authorizationv1beta1.SubjectAccessReviewSpec`. -/
structure SubjectAccessReviewSpec where
  user : String := ""
  uid : String := ""
  groups : List String := []
  extra : List (String × List String) := []
  resourceAttributes : ResourceAttributes := {}
  deriving DecidableEq, Repr

/-- What the approver receives from the code outside the repository: the
resource store (`r.Get`, `r.List`), the decoders `pem.Decode` (the bytes of
the first block, if any) and `x509.ParseCertificateRequest`, `net.IP.String`,
`kubernetes.NewForConfig(r.config)` (its error, if any), the creation of a
subject access review (its `Status.Allowed`) and `UpdateApproval`. -/
structure Cluster where
  getCSR : String → Except Error CertificateSigningRequest
  getNode : String → Except Error Node
  listMachines : Except Error (List Machine)
  pemDecode : List Nat → Option (List Nat)
  parseCertificateRequest : List Nat → Except Error CertificateRequest
  ipString : List Nat → String
  newForConfig : Option Error
  createSubjectAccessReview : SubjectAccessReviewSpec → Except Error Bool
  updateApproval : CertificateSigningRequest → Option Error

/-- A request made to the code outside the repository. -/
inductive Call where
  | getCSR (name : String)
  | getNode (name : String)
  | listMachines
  | pemDecode (data : List Nat)
  | parseCertificateRequest (block : List Nat)
  | newForConfig
  | createSubjectAccessReview (sar : SubjectAccessReviewSpec)
  | updateApproval (csr : CertificateSigningRequest)
  deriving DecidableEq, Repr

/-- The variable `allowedUsages`. -/
def allowedUsages : List String :=
  [UsageDigitalSignature, UsageKeyEncipherment, UsageServerAuth]

/-- The function `isUsageAllowed`. -/
def isUsageAllowed (usage : String) : Bool :=
  allowedUsages.any (fun usageListItem => usage == usageListItem)

/-- The loop of `getMachine` over `machines.Items`. -/
def getMachineLoop (nodeName : String) : List Machine → Except Error Machine
  | [] => .error (.fundamental "cannot find machine for node %q" [nodeName])
  | m :: rest =>
    match m.status.nodeRef with
    | none => getMachineLoop nodeName rest
    | some nodeRef =>
      if nodeName = nodeRef.name then
        if !m.status.infrastructureReady then
          .error (.fundamental "infrastructure for machine %q is not yet ready" [m.name])
        else .ok m
      else getMachineLoop nodeName rest

/-- The method `getMachine`. -/
def getMachine (w : Cluster) (nodeName : String) : Except Error Machine :=
  match w.listMachines with
  | .error err => .error err
  | .ok machines => getMachineLoop nodeName machines

/-- The call `sets.NewString(groups...).HasAll(items...)`. -/
def hasAll (groups items : List String) : Bool :=
  items.all (fun item => groups.contains item)

/-- The subject access review built by `validateCSR`. -/
def subjectAccessReview (csr : CertificateSigningRequest) : SubjectAccessReviewSpec :=
  { user := csr.spec.username
    uid := csr.spec.uid
    groups := csr.spec.groups
    extra := csr.spec.extra
    resourceAttributes :=
      { group := "certificates.k8s.io", resource := "certificatesigningrequests", verb := "create" } }

/-- The set `addresses` built by `validateCSR`: the bound Node name and every
recorded address of the Machine. -/
def allowedAddresses (nodeRef : ObjectReference) (m : Machine) : List String :=
  nodeRef.name :: m.status.addresses.map (fun address => address.address)

/-- What a run of `validateCSR` leaves behind: the requests it made and the
error it returned (`none` is Go nil). -/
structure Validation where
  calls : List Call
  outcome : Outcome (Option Error)
  deriving DecidableEq, Repr

/-- The method `validateCSR`. -/
def validateCSR (w : Cluster) (csr : CertificateSigningRequest) : Validation :=
  let nodeName := trimPrefix csr.spec.username "system:node:"
  -- check username/groups
  if nodeName.length = 0 then ⟨[], .returned none⟩
  else if !hasAll csr.spec.groups ["system:nodes", "system:authenticated"] then
    ⟨[], .returned none⟩
  else
    -- verify node exists
    let c1 := [Call.getNode nodeName]
    match w.getNode nodeName with
    | .error err => ⟨c1, .returned (some err)⟩
    | .ok _ =>
      -- check if usage is allowed
      match csr.spec.usages.find? (fun usage => !isUsageAllowed usage) with
      | some usage => ⟨c1, .returned (some (.fundamental "usage %q not allowed" [usage]))⟩
      | none =>
        -- validate DNS/IP addresses requested
        let c2 := c1 ++ [Call.listMachines]
        match getMachine w nodeName with
        | .error err => ⟨c2, .returned (some (.wrapText (.requeueAfter (5 * second)) err))⟩
        | .ok m =>
          match m.status.nodeRef with
          | none => ⟨c2, .panicked⟩
          | some nodeRef =>
            let addresses := allowedAddresses nodeRef m
            let c3 := c2 ++ [Call.pemDecode csr.spec.request]
            match w.pemDecode csr.spec.request with
            | none => ⟨c3, .returned none⟩
            | some block =>
              let c4 := c3 ++ [Call.parseCertificateRequest block]
              match w.parseCertificateRequest block with
              | .error err => ⟨c4, .returned (some err)⟩
              | .ok req =>
                match req.dnsNames.find? (fun dns => !addresses.contains dns) with
                | some dns =>
                  ⟨c4, .returned (some (.fundamental
                    "node %q not allowed to specify DNS address %q" [nodeRef.name, dns]))⟩
                | none =>
                  match req.ipAddresses.find? (fun ip => !addresses.contains (w.ipString ip)) with
                  | some ip =>
                    ⟨c4, .returned (some (.fundamental
                      "node %q not allowed to specify IP address %q" [nodeRef.name, w.ipString ip]))⟩
                  | none =>
                    -- perform SAR to verify requesting user has permission to create a CSR
                    let c5 := c4 ++ [Call.newForConfig]
                    match w.newForConfig with
                    | some err => ⟨c5, .returned (some err)⟩
                    | none =>
                      let c6 := c5 ++ [Call.createSubjectAccessReview (subjectAccessReview csr)]
                      match w.createSubjectAccessReview (subjectAccessReview csr) with
                      | .error err => ⟨c6, .returned (some err)⟩
                      | .ok allowed =>
                        if !allowed then
                          ⟨c6, .returned (some (.fundamental "CSR requestor failed SAR" []))⟩
                        else ⟨c6, .returned none⟩

/-- The condition appended on approval. -/
def approvedCondition : CertificateSigningRequestCondition :=
  { type := CertificateApproved, reason := "approved by machine-api controller" }

/-- The request object after `Reconcile` appended the Approved condition. -/
def approve (csr : CertificateSigningRequest) : CertificateSigningRequest :=
  { csr with status := { conditions := csr.status.conditions ++ [approvedCondition] } }

/-- What a run of `Reconcile` leaves behind: the requests it made, the
in-memory request object at the end (`none` when it was never fetched) and
the returned pair. -/
structure Reconciliation where
  calls : List Call
  csr : Option CertificateSigningRequest
  outcome : Outcome (Result × Option Error)
  deriving DecidableEq, Repr

/-- The method `CSRApproverReconciler.Reconcile`; `req` is the name of the
request object. -/
def Reconcile (w : Cluster) (req : String) : Reconciliation :=
  let c0 := [Call.getCSR req]
  match w.getCSR req with
  | .error err =>
    if IsNotFound err then ⟨c0, none, .returned ({}, none)⟩
    else ⟨c0, none, .returned ({}, some err)⟩
  | .ok csr =>
    -- Before continuing, we determine if this is a CSR we handle.
    if !hasPrefix csr.spec.username "system:node:" then ⟨c0, some csr, .returned ({}, none)⟩
    -- check if already approved/denied
    else if csr.status.conditions.any
        (fun condition => condition.type == CertificateApproved
          || condition.type == CertificateDenied) then
      ⟨c0, some csr, .returned ({}, none)⟩
    else
      -- validate CSR
      let v := validateCSR w csr
      match v.outcome with
      | .panicked => ⟨c0 ++ v.calls, some csr, .panicked⟩
      | .returned (some err) =>
        match asRequeueAfter (Cause err) with
        | some d => ⟨c0 ++ v.calls, some csr, .returned ({ requeueAfter := d }, none)⟩
        | none => ⟨c0 ++ v.calls, some csr, .returned ({}, none)⟩
      | .returned none =>
        -- approve CSR
        let approved := approve csr
        let c1 := c0 ++ v.calls ++ [Call.newForConfig]
        match w.newForConfig with
        | some err => ⟨c1, some approved, .returned ({}, some err)⟩
        | none =>
          let c2 := c1 ++ [Call.updateApproval approved]
          match w.updateApproval approved with
          | some err => ⟨c2, some approved, .returned ({}, some err)⟩
          | none => ⟨c2, some approved, .returned ({}, none)⟩

/-- The request object carries an Approved condition. -/
def hasApproved (csr : CertificateSigningRequest) : Bool :=
  csr.status.conditions.any (fun condition => condition.type == CertificateApproved)

/-- The run submitted an approval: it called `UpdateApproval`. -/
def submitsApproval (r : Reconciliation) : Bool :=
  r.calls.any (fun c => match c with
    | .updateApproval _ => true
    | _ => false)

/-- The request is pending: no Approved and no Denied condition yet. -/
def pending (csr : CertificateSigningRequest) : Bool :=
  !csr.status.conditions.any
    (fun condition => condition.type == CertificateApproved
      || condition.type == CertificateDenied)

/-! ### Sample requests -/

/-- The Node `node-a`. -/
def nodeA : Node := { kind := "Node", apiVersion := "v1", name := "node-a" }

/-- A Machine bound to `node-a`, infrastructure ready, one recorded address. -/
def machineA : Machine :=
  { name := "machine-a"
    ns := "default"
    status :=
      { nodeRef := some { kind := "Node", apiVersion := "v1", name := "node-a" }
        phase := MachineRunning
        addresses := [{ type := "InternalIP", address := "10.0.0.1" }]
        infrastructureReady := true } }

/-- A pending serving-certificate request of `system:node:node-a`. -/
def csrA : CertificateSigningRequest :=
  { name := "csr-a"
    spec :=
      { request := [45, 45, 45, 45, 45]
        usages := [UsageDigitalSignature, UsageKeyEncipherment, UsageServerAuth]
        username := "system:node:node-a"
        uid := "uid-a"
        groups := ["system:nodes", "system:authenticated"] } }

/-- A cluster holding the request `csr`, the Node `node-a` and the Machines
`machines`, whose decoders find a PEM block in every non-empty payload and
read the certificate request `parsed` from it, and which allows every subject
access review and accepts every approval. -/
def sampleCluster (csr : CertificateSigningRequest) (machines : List Machine)
    (parsed : CertificateRequest) : Cluster :=
  { getCSR := fun _ => .ok csr
    getNode := fun name =>
      if name = "node-a" then .ok nodeA else .error (.status "NotFound" "node not found")
    listMachines := .ok machines
    pemDecode := fun data => if data = [] then none else some data
    parseCertificateRequest := fun _ => .ok parsed
    ipString := fun ip => ".".intercalate (ip.map toString)
    newForConfig := none
    createSubjectAccessReview := fun _ => .ok true
    updateApproval := fun _ => none }

/-- The request of a requestor `system:node:` with no node name. -/
def csrEmptyNode : CertificateSigningRequest :=
  { csrA with spec := { csrA.spec with username := "system:node:" } }

/-- The request of a requestor outside the group `system:authenticated`. -/
def csrNoGroups : CertificateSigningRequest :=
  { csrA with spec := { csrA.spec with groups := ["system:nodes"] } }

/-- The request with an empty payload, in which no PEM block is found. -/
def csrNoPEM : CertificateSigningRequest :=
  { csrA with spec := { csrA.spec with request := [] } }

/-- The request asking for the usage `client auth`. -/
def csrClientAuth : CertificateSigningRequest :=
  { csrA with spec := { csrA.spec with usages := [UsageDigitalSignature, UsageClientAuth] } }

/-- A Machine bound to `node-b`. -/
def machineB : Machine :=
  { machineA with
    name := "machine-b"
    status := { machineA.status with nodeRef := some { kind := "Node", apiVersion := "v1", name := "node-b" } } }

/-- The Machine bound to `node-a`, before its infrastructure is ready. -/
def machineANotReady : Machine :=
  { machineA with status := { machineA.status with infrastructureReady := false } }

/-- The request of `system:node:node-b`, a Node the sample cluster does not
hold. -/
def csrB : CertificateSigningRequest :=
  { csrA with name := "csr-b", spec := { csrA.spec with username := "system:node:node-b" } }

end csrapprover

/-! ## Machine controller, deletion path (`src/controllers/machine`) -/

namespace machine

/-- What the Machine controller receives from the code outside the
repository: the resource store (`r.Status().Update`, `r.Update`, `r.List` in
a namespace, `c.Get` and `r.Delete` of an unstructured object, `r.Delete` of
a Node at a given attempt of the poll), `kubernetes.NewForConfig(r.config)`
(its error, if any), the clientset's `Nodes().Get`, the drain helper
(`RunCordonOrUncordon`, `RunNodeDrain`) and the number of further attempts
`wait.PollImmediate` grants after the immediate one.  `r.Delete` may be handed
a nil object, which the client is free to answer with a panic.

For the normal path: `r.Get` of the Machine, the package `util/patch`, which
is not part of the sources at hand (`patch.NewHelper` and `Patch`, for the
Machine and for an external object, each given the object as it was when the
helper was made and as it is now), `controllerutil.SetControllerReference`
(the object with its owner set, or an error), the controller's `Watch`,
`r.List` of the Nodes, `semver.Parse` (the rendering of the parsed version,
if it parses), `strconv.Quote`, the rendering of a `time.Duration`, and the
configured `externalReadyWait`. -/
structure Cluster where
  statusUpdate : Machine → Option Error
  update : Machine → Option Error
  listMachines : String → Except Error (List Machine)
  newForConfig : Option Error
  getNode : String → Except Error Node
  cordon : Node → Option Error
  drain : String → Option Error
  getUnstructured : String → String → String → String → Except Error Unstructured
  deleteUnstructured : Option Unstructured → Outcome (Option Error)
  deleteNode : String → Nat → Option Error
  pollTicks : Nat
  getMachine : String → String → Except Error Machine :=
    fun _ _ => .error (.status "NotFound" "machine not found")
  newHelperMachine : Machine → Option Error := fun _ => none
  patchMachine : Machine → Machine → Option Error := fun _ _ => none
  newHelperUnstructured : Unstructured → Option Error := fun _ => none
  patchUnstructured : Unstructured → Unstructured → Option Error := fun _ _ => none
  setControllerReference : Machine → Unstructured → Except Error Unstructured :=
    fun _ obj => .ok obj
  controllerWatch : GroupVersionKind → Option Error := fun _ => none
  listNodes : Except Error (List Node) := .ok []
  semverParse : String → Option String := fun _ => none
  quote : String → String := fun s => "\"" ++ s ++ "\""
  durationString : Nat → String := fun d => toString d ++ "ns"
  externalReadyWait : Nat := 30000000000

/-- A request made to the code outside the repository. -/
inductive Call where
  | statusUpdate (m : Machine)
  | update (m : Machine)
  | listMachines (ns : String)
  | newForConfig
  | getNode (name : String)
  | cordon (name : String)
  | drain (name : String)
  | getUnstructured (apiVersion kind ns name : String)
  | deleteUnstructured (obj : Option Unstructured)
  | deleteNode (name : String)
  | getMachine (ns name : String)
  | patchMachine (m : Machine)
  | patchUnstructured (obj : Unstructured)
  | watch (gvk : GroupVersionKind)
  | listNodes
  deriving DecidableEq, Repr

/-- The requests a function made, with what it returned. -/
structure Run (α : Type) where
  calls : List Call
  value : α
  deriving DecidableEq, Repr

/-- The variable `errNilNodeRef`. -/
def errNilNodeRef : Error := .sentinel "noderef is nil"

/-- The variable `errLastControlPlaneNode`. -/
def errLastControlPlaneNode : Error := .sentinel "last control plane member"

/-- The variable `errNoControlPlaneNodes`. -/
def errNoControlPlaneNodes : Error := .sentinel "no control plane members"

/-- The function `isControlPlaneMachine`: the label key is present. -/
def isControlPlaneMachine (machine : Machine) : Bool :=
  machine.labels.any (fun kv => kv.1 == MachineControlPlaneLabelName)

/-- The method `isDeleteNodeAllowed`. -/
def isDeleteNodeAllowed (w : Cluster) (m : Machine) : Run (Option Error) :=
  -- Cannot delete something that doesn't exist.
  match m.status.nodeRef with
  | none => ⟨[], some errNilNodeRef⟩
  | some _ =>
    -- Get all of the machines that belong to this cluster.
    match w.listMachines m.ns with
    | .error err => ⟨[.listMachines m.ns], some err⟩
    | .ok items =>
      let machines := items.filter isControlPlaneMachine
      if machines.length = 1 && isControlPlaneMachine m then
        ⟨[.listMachines m.ns], some errLastControlPlaneNode⟩
      else ⟨[.listMachines m.ns], none⟩

/-- The method `drainNode`. -/
def drainNode (w : Cluster) (nodeName : String) : Run (Option Error) :=
  match w.newForConfig with
  | some err => ⟨[.newForConfig], some err⟩
  | none =>
    match w.getNode nodeName with
    | .error err =>
      if IsNotFound err then ⟨[.newForConfig, .getNode nodeName], none⟩
      else ⟨[.newForConfig, .getNode nodeName],
        some (.fundamentalErr "unable to get node %q: %v" [nodeName] err)⟩
    | .ok node =>
      match w.cordon node with
      | some err =>
        ⟨[.newForConfig, .getNode nodeName, .cordon node.name],
          some (.fundamentalErr "unable to cordon node %s: %v" [node.name] err)⟩
      | none =>
        match w.drain node.name with
        | some _ =>
          ⟨[.newForConfig, .getNode nodeName, .cordon node.name, .drain node.name],
            some (.requeueAfter (20 * second))⟩
        | none =>
          ⟨[.newForConfig, .getNode nodeName, .cordon node.name, .drain node.name], none⟩

/-- The function `external.Get` (`src/util/external/util.go`). -/
def externalGet (w : Cluster) (ref : ObjectReference) (ns : String) :
    Run (Except Error Unstructured) :=
  match w.getUnstructured ref.apiVersion ref.kind ns ref.name with
  | .error err =>
    ⟨[.getUnstructured ref.apiVersion ref.kind ns ref.name],
      .error (.wrapf err "failed to retrieve %s external object %q/%q" [ref.kind, ns, ref.name])⟩
  | .ok obj => ⟨[.getUnstructured ref.apiVersion ref.kind ns ref.name], .ok obj⟩

/-- The method `reconcileDeleteExternal`.  After a failed fetch `obj` is nil;
`obj.GetName()` on it panics. -/
def reconcileDeleteExternal (w : Cluster) (m : Machine) : Run (Outcome (Option Error)) :=
  let got := externalGet w m.spec.infrastructureRef m.ns
  let failedGet : Option Error :=
    match got.value with
    | .error err => if !IsNotFound (Cause err) then some err else none
    | .ok _ => none
  match failedGet with
  | some err =>
    ⟨got.calls, .returned (some (.wrapf err
      "failed to get InfrastructureRef %q for Machine %q in namespace %q"
      [m.spec.infrastructureRef.name, m.name, m.ns]))⟩
  | none =>
    let obj : Option Unstructured :=
      match got.value with
      | .error _ => none
      | .ok o => some o
    let calls := got.calls ++ [.deleteUnstructured obj]
    match w.deleteUnstructured obj with
    | .panicked => ⟨calls, .panicked⟩
    | .returned none => ⟨calls, .returned none⟩
    | .returned (some err) =>
      if IsNotFound err then ⟨calls, .returned none⟩
      else
        match obj with
        | none => ⟨calls, .panicked⟩
        | some o =>
          ⟨calls, .returned (some (.wrapf err
            "failed to delete InfrastructureRef %q for Machine %q in namespace %q"
            [o.name, m.name, m.ns]))⟩

/-- The method `deleteNode`, at attempt number `attempt` of the poll. -/
def deleteNode (w : Cluster) (name : String) (attempt : Nat) : Option Error :=
  match w.deleteNode name attempt with
  | some err => some (.wrapf err "error deleting node %s" [name])
  | none => none

/-- The call `wait.PollImmediate` of `reconcileDelete` around `deleteNode`:
the condition runs once at once and then once per granted tick until it
reports done.  The value is `true` when the poll timed out. -/
def pollDeleteNode (w : Cluster) (name : String) : Nat → Nat → Run Bool
  | attempt, 0 =>
    match deleteNode w name attempt with
    | some deleteNodeErr => ⟨[.deleteNode name], !IsNotFound deleteNodeErr⟩
    | none => ⟨[.deleteNode name], false⟩
  | attempt, ticks + 1 =>
    match deleteNode w name attempt with
    | some deleteNodeErr =>
      if !IsNotFound deleteNodeErr then
        let later := pollDeleteNode w name (attempt + 1) ticks
        ⟨Call.deleteNode name :: later.calls, later.value⟩
      else ⟨[.deleteNode name], false⟩
    | none => ⟨[.deleteNode name], false⟩

/-- The method `reconcileDelete`. -/
def reconcileDelete (w : Cluster) (m : Machine) : Run (Outcome (Result × Option Error)) :=
  match m.status.nodeRef with
  | none => ⟨[], .returned ({}, none)⟩
  | some nodeRef =>
    let check := isDeleteNodeAllowed w m
    let isAllowed : Bool := check.value.isNone
    let failedCheck : Option Error :=
      match check.value with
      | some err =>
        if err = errNoControlPlaneNodes ∨ err = errLastControlPlaneNode ∨ err = errNilNodeRef
        then none else some err
      | none => none
    match failedCheck with
    | some err =>
      ⟨check.calls, .returned ({}, some (.wrapf err
        "failed to check if Kubernetes Node deletion is allowed" []))⟩
    | none =>
      -- Drain node before deletion.
      let drained : Run (Option Error) :=
        if isAllowed then drainNode w nodeRef.name else ⟨[], none⟩
      match drained.value with
      | some err => ⟨check.calls ++ drained.calls, .returned ({}, some err)⟩
      | none =>
        let ext := reconcileDeleteExternal w m
        match ext.value with
        | .panicked => ⟨check.calls ++ drained.calls ++ ext.calls, .panicked⟩
        | .returned (some err) =>
          -- Return early and don't remove the finalizer
          ⟨check.calls ++ drained.calls ++ ext.calls, .returned ({}, some err)⟩
        | .returned none =>
          -- We only delete the node after the underlying infrastructure is gone.
          let deleted : List Call :=
            if isAllowed then (pollDeleteNode w nodeRef.name 0 w.pollTicks).calls else []
          ⟨check.calls ++ drained.calls ++ ext.calls ++ deleted, .returned ({}, none)⟩

/-- The function `controllerutil.RemoveFinalizer`. -/
def RemoveFinalizer (m : Machine) (finalizer : String) : Machine :=
  { m with finalizers := m.finalizers.filter (fun f => f != finalizer) }

/-- The Machine with phase `Terminating`. -/
def stampTerminating (m : Machine) : Machine :=
  { m with status := { m.status with phase := MachineTerminating } }

/-- What a run of `Reconcile` leaves behind: the requests it made, the
in-memory Machine at the end and the returned pair. -/
structure Reconciliation where
  calls : List Call
  machine : Machine
  outcome : Outcome (Result × Option Error)
  deriving DecidableEq, Repr

/-- Lines 98 to 114 of `MachineReconciler.Reconcile`: the deletion branch,
entered with the fetched Machine `m`; `none` when `m` carries no deletion
timestamp and the branch is not taken. -/
def ReconcileDeletion (w : Cluster) (m : Machine) : Option Reconciliation :=
  if !isZero m.deletionTimestamp then
    let stamped : Run (Machine × Option Error) :=
      if m.status.phase != MachineTerminating then
        ⟨[.statusUpdate (stampTerminating m)],
          (stampTerminating m, w.statusUpdate (stampTerminating m))⟩
      else ⟨[], (m, none)⟩
    let m1 := stamped.value.1
    match stamped.value.2 with
    | some err => some ⟨stamped.calls, m1, .returned ({}, some err)⟩
    | none =>
      let d := reconcileDelete w m1
      match d.value with
      | .panicked => some ⟨stamped.calls ++ d.calls, m1, .panicked⟩
      | .returned (res, some err) => some ⟨stamped.calls ++ d.calls, m1, .returned (res, some err)⟩
      | .returned (_, none) =>
        let m2 := RemoveFinalizer m1 MachineFinalizer
        let calls := stamped.calls ++ d.calls ++ [.update m2]
        match w.update m2 with
        | some err => some ⟨calls, m2, .returned ({}, some err)⟩
        | none => some ⟨calls, m2, .returned ({}, none)⟩
  else none

/-- A request to cordon a Node. -/
def Call.isCordon : Call → Bool
  | .cordon _ => true
  | _ => false

/-- A request to drain a Node. -/
def Call.isDrain : Call → Bool
  | .drain _ => true
  | _ => false

/-- A request to delete a Node. -/
def Call.isDeleteNode : Call → Bool
  | .deleteNode _ => true
  | _ => false

/-- A request of the infrastructure teardown: the fetch or the delete of the
infrastructure reference. -/
def Call.isTeardown : Call → Bool
  | .getUnstructured _ _ _ _ => true
  | .deleteUnstructured _ => true
  | _ => false

/-- A request to persist the Machine with `r.Update`. -/
def Call.isUpdate : Call → Bool
  | .update _ => true
  | _ => false

/-! ### Normal path -/

/-- The constant `mapierrors.InvalidConfigurationMachineError`. -/
def InvalidConfigurationMachineError : String := "InvalidConfiguration"

/-- What `reconcileExternal` returns: the external object, or an error. -/
inductive Fetched where
  | object (obj : Unstructured)
  | failed (err : Error)
  deriving DecidableEq, Repr

/-- What a run of `reconcileExternal` leaves behind: the requests it made,
the Machine, the tracker and what it returned. -/
structure ExternalStep where
  calls : List Call
  machine : Machine
  tracker : external.ObjectTracker
  value : Fetched
  deriving DecidableEq, Repr

/-- What a step of the normal path leaves behind: the requests it made, the
Machine, the tracker and the returned error. -/
structure Step where
  calls : List Call
  machine : Machine
  tracker : external.ObjectTracker
  err : Option Error
  deriving DecidableEq, Repr

/-- The method `reconcileExternal`. -/
def reconcileExternal (w : Cluster) (t : external.ObjectTracker) (m : Machine)
    (ref : ObjectReference) : ExternalStep :=
  let got := externalGet w ref m.ns
  match got.value with
  | .error err =>
    if IsNotFound (Cause err) then
      ⟨got.calls, m, t, .failed (.wrapf (.requeueAfter w.externalReadyWait)
        "could not find %v %q for Machine %q in namespace %q, requeuing"
        [ref.GroupVersionKind.string, ref.name, m.name, m.ns])⟩
    else ⟨got.calls, m, t, .failed err⟩
  | .ok obj =>
    -- Initialize the patch helper.
    match w.newHelperUnstructured obj with
    | some err => ⟨got.calls, m, t, .failed err⟩
    | none =>
      -- Set external object ControllerReference to the Machine.
      match w.setControllerReference m obj with
      | .error err => ⟨got.calls, m, t, .failed err⟩
      | .ok owned =>
        -- Always attempt to Patch the external object.
        let c1 := got.calls ++ [.patchUnstructured owned]
        match w.patchUnstructured obj owned with
        | some err => ⟨c1, m, t, .failed err⟩
        | none =>
          -- Ensure we add a watcher to the external object.
          let watched := t.Watch w.controllerWatch owned
          let c2 := if watched.registered then c1 ++ [.watch owned.GroupVersionKind] else c1
          match watched.err with
          | some err => ⟨c2, m, watched.tracker, .failed err⟩
          | none =>
            -- Set failure reason and message, if any.
            match external.FailuresFrom owned with
            | .error err => ⟨c2, m, watched.tracker, .failed err⟩
            | .ok (failureReason, failureMessage) =>
              let m1 : Machine :=
                if failureReason != "" then
                  { m with status := { m.status with failureReason := some failureReason } }
                else m
              let m2 : Machine :=
                if failureMessage != "" then
                  { m1 with status := { m1.status with failureMessage := some (Sprintf w.quote
                        "Failure detected from referenced resource %v with name %q: %s"
                        [owned.GroupVersionKind.string, owned.name, failureMessage]) } }
                else m1
              ⟨c2, m2, watched.tracker, .object owned⟩

/-- The method `reconcileInfrastructure`.  The test
`m.Spec.InfrastructureRef == nil` is read on the field as `machine_types.go`
declares it, a value: unset is the zero reference. -/
def reconcileInfrastructure (w : Cluster) (t : external.ObjectTracker) (m : Machine) : Step :=
  if m.spec.infrastructureRef = {} then ⟨[], m, t, none⟩
  else
    -- Call generic external reconciler.
    let ext := reconcileExternal w t m m.spec.infrastructureRef
    match ext.value with
    | .failed err =>
      if ext.machine.status.infrastructureReady
          && stringsContains (err.text w.quote w.durationString) "could not find" then
        -- Infra object went missing after the machine was up and running
        ⟨ext.calls,
          { ext.machine with status := { ext.machine.status with
              failureReason := some InvalidConfigurationMachineError
              failureMessage := some (Sprintf w.quote
                "Machine infrastructure resource %v with name %q has been deleted after being ready"
                [m.spec.infrastructureRef.GroupVersionKind.string,
                  m.spec.infrastructureRef.name]) } },
          ext.tracker, some err⟩
      else ⟨ext.calls, ext.machine, ext.tracker, some err⟩
    | .object infraConfig =>
      if !isZero infraConfig.deletionTimestamp then ⟨ext.calls, ext.machine, ext.tracker, none⟩
      else
        -- Determine if the infrastructure provider is ready.
        match external.IsReady infraConfig with
        | .error err => ⟨ext.calls, ext.machine, ext.tracker, some err⟩
        | .ok ready =>
          let m1 : Machine :=
            { ext.machine with status := { ext.machine.status with infrastructureReady := ready } }
          if !ready then
            ⟨ext.calls, m1, ext.tracker, some (.wrapf (.requeueAfter w.externalReadyWait)
              "Infrastructure provider for Machine %q in namespace %q is not ready, requeuing"
              [m.name, m.ns])⟩
          else
            -- Get Spec.ProviderID from the infrastructure provider.
            match UnstructuredUnmarshalField infraConfig infraConfig.specProviderID
                "spec.providerID" with
            | (_, some err) =>
              ⟨ext.calls, m1, ext.tracker, some (.wrapf err
                "failed to retrieve Spec.ProviderID from infrastructure provider for Machine %q in namespace %q"
                [m.name, m.ns])⟩
            | (written, none) =>
              let providerID := written.getD ""
              if providerID = "" then
                ⟨ext.calls, m1, ext.tracker, some (.fundamental
                  "retrieved empty Spec.ProviderID from infrastructure provider for Machine %q in namespace %q"
                  [m.name, m.ns])⟩
              else
                -- Get and set Status.Addresses from the infrastructure provider.
                let addresses := UnstructuredUnmarshalField infraConfig
                  infraConfig.statusAddresses "status.addresses"
                let m2 : Machine :=
                  match addresses.1 with
                  | some a => { m1 with status := { m1.status with addresses := a } }
                  | none => m1
                let addressesFailed : Option Error :=
                  match addresses.2 with
                  | some err => if err != ErrUnstructuredFieldNotFound then some err else none
                  | none => none
                match addressesFailed with
                | some err =>
                  ⟨ext.calls, m2, ext.tracker, some (.wrapf err
                    "failed to retrieve addresses from infrastructure provider for Machine %q in namespace %q"
                    [m.name, m.ns])⟩
                | none =>
                  -- Get and set the failure domain from the infrastructure provider.
                  match UnstructuredUnmarshalField infraConfig infraConfig.specFailureDomain
                      "spec.failureDomain" with
                  | (written, none) =>
                    ⟨ext.calls,
                      { m2 with spec := { m2.spec with
                          failureDomain := some (written.getD "")
                          providerID := some providerID } },
                      ext.tracker, none⟩
                  | (_, some err) =>
                    if err = ErrUnstructuredFieldNotFound then
                      ⟨ext.calls, { m2 with spec := { m2.spec with providerID := some providerID } },
                        ext.tracker, none⟩
                    else
                      ⟨ext.calls, m2, ext.tracker, some (.wrapf err
                        "failed to failure domain from infrastructure provider for Machine %q in namespace %q"
                        [m.name, m.ns])⟩

/-- What `reconcileNodeRef` leaves behind: the requests it made, the Machine
and the returned error. -/
structure NodeRefStep where
  calls : List Call
  machine : Machine
  err : Option Error
  deriving DecidableEq, Repr

/-- The method `reconcileNodeRef`.  A version that `semver.Parse` refuses is
the zero `semver.Version`, whose rendering is `0.0.0`. -/
def reconcileNodeRef (w : Cluster) (m : Machine) : NodeRefStep :=
  match m.status.nodeRef with
  | some _ => ⟨[], m, none⟩
  | none =>
    match m.spec.providerID with
    | none => ⟨[], m, none⟩
    | some providerID =>
      match w.listNodes with
      | .error err => ⟨[.listNodes], m, some err⟩
      | .ok nodes =>
        match nodes.find? (fun node => node.providerID == providerID) with
        | some node =>
          let nodeRef : ObjectReference :=
            { kind := node.kind, apiVersion := node.apiVersion, name := node.name, ns := node.ns }
          let v : String :=
            match w.semverParse (trimPrefix node.kubeletVersion "v") with
            | some v => v
            | none => "0.0.0"
          ⟨[.listNodes],
            { m with status := { m.status with nodeRef := some nodeRef, version := some v } },
            none⟩
        | none =>
          ⟨[.listNodes], m, some (NewRequeueErrorf (1 * second)
            "cannot assign NodeRef to Machine %q in namespace %q, no matching Node"
            [m.name, m.ns])⟩

/-- The method `reconcilePhase`. -/
def reconcilePhase (m : Machine) : Machine :=
  let m1 : Machine :=
    if m.status.phase = "" then { m with status := { m.status with phase := MachinePending } }
    else m
  let m2 : Machine :=
    if m1.status.nodeRef.isSome then
      { m1 with status := { m1.status with phase := MachineRunning } }
    else m1
  -- Set the phase to "failed" if any of Status.FailureReason or Status.FailureMessage is not-nil.
  let m3 : Machine :=
    if m2.status.failureReason.isSome || m2.status.failureMessage.isSome then
      { m2 with status := { m2.status with phase := MachineFailed } }
    else m2
  -- Set the phase to "deleting" if the deletion timestamp is set.
  if !isZero m3.deletionTimestamp then
    { m3 with status := { m3.status with phase := MachineTerminating } }
  else m3

/-- The function `controllerutil.AddFinalizer`. -/
def AddFinalizer (m : Machine) (finalizer : String) : Machine :=
  if m.finalizers.contains finalizer then m
  else { m with finalizers := m.finalizers ++ [finalizer] }

/-- The error `Reconcile` returns: an error value, or the aggregate made by
`kerrors.NewAggregate`. -/
inductive ReconcileError where
  | plain (err : Error)
  | aggregate (errs : List Error)
  deriving DecidableEq, Repr

/-- The function `kerrors.NewAggregate`: nil entries are dropped, and no
entry left gives nil. -/
def NewAggregate (errlist : List (Option Error)) : Option ReconcileError :=
  let errs := errlist.filterMap id
  if errs.isEmpty then none else some (.aggregate errs)

/-- The loop of `Reconcile` over `reconciliationErrors` (lines 139 to 153),
started with the result `res` and the list `errs`. -/
def parseErrors (res : Result) (errs : List (Option Error)) :
    List (Option Error) → Result × List (Option Error)
  | [] => (res, errs)
  | err :: rest =>
    match err.bind (fun e => asRequeueAfter (Cause e)) with
    | some requeueAfter =>
      -- Only record and log the first RequeueAfterError.
      if !res.requeue then
        parseErrors { requeue := true, requeueAfter := requeueAfter } errs rest
      else parseErrors res errs rest
    | none => parseErrors res (errs ++ [err]) rest

/-- The retry-after an outcome carries: the duration of its cause when the
cause is a `RequeueAfterError`, nothing for nil and for any other error. -/
def retryAfterOf (err : Option Error) : Option Nat :=
  err.bind (fun e => asRequeueAfter (Cause e))

/-- The outcomes that go to the aggregate: the non-nil ones that carry no
retry-after. -/
def terminalErrors (outcomes : List (Option Error)) : List Error :=
  (outcomes.filter (fun err => (retryAfterOf err).isNone)).filterMap id

/-- What a run of the normal path leaves behind: the requests it made, the
in-memory Machine at the end, the tracker and the returned pair. -/
structure NormalReconciliation where
  calls : List Call
  machine : Machine
  tracker : external.ObjectTracker
  result : Result
  err : Option ReconcileError
  deriving DecidableEq, Repr

/-- Lines 116 to 155 of `MachineReconciler.Reconcile`: the normal path,
entered with the fetched Machine `m` when it carries no deletion timestamp.
The deferred function runs `reconcilePhase` and patches the Machine against
its state at `patch.NewHelper`. -/
def ReconcileNormal (w : Cluster) (t : external.ObjectTracker) (m : Machine) :
    NormalReconciliation :=
  -- Patch any changes to Machine object on each reconciliation.
  match w.newHelperMachine m with
  | some err => ⟨[], m, t, {}, some (.plain err)⟩
  | none =>
    -- If the Machine doesn't have a finalizer, add one.
    let m1 := AddFinalizer m MachineFinalizer
    -- Call the inner reconciliation methods.
    let infra := reconcileInfrastructure w t m1
    let nodeRef := reconcileNodeRef w infra.machine
    -- Parse the errors, making sure we record if there is a RequeueAfterError.
    let parsed := parseErrors {} [] [infra.err, nodeRef.err]
    let reterr := NewAggregate parsed.2
    -- the deferred function
    let m2 := reconcilePhase nodeRef.machine
    let calls := infra.calls ++ nodeRef.calls ++ [.patchMachine m2]
    match reterr with
    | some err => ⟨calls, m2, infra.tracker, parsed.1, some err⟩
    | none => ⟨calls, m2, infra.tracker, parsed.1, (w.patchMachine m m2).map .plain⟩

/-- What a run of `Reconcile` leaves behind: the requests it made, the
in-memory Machine at the end (`none` when it could not be fetched), the
tracker and the returned pair. -/
structure Pass where
  calls : List Call
  machine : Option Machine
  tracker : external.ObjectTracker
  outcome : Outcome (Result × Option ReconcileError)
  deriving DecidableEq, Repr

/-- The method `MachineReconciler.Reconcile` for the request `ns/name`. -/
def Reconcile (w : Cluster) (t : external.ObjectTracker) (ns name : String) : Pass :=
  match w.getMachine ns name with
  | .error err =>
    if IsNotFound err then ⟨[.getMachine ns name], none, t, .returned ({}, none)⟩
    else ⟨[.getMachine ns name], none, t, .returned ({}, some (.plain err))⟩
  | .ok m =>
    -- Handle deletion reconciliation loop.
    match ReconcileDeletion w m with
    | some r =>
      ⟨.getMachine ns name :: r.calls, some r.machine, t,
        match r.outcome with
        | .panicked => .panicked
        | .returned (res, err) => .returned (res, err.map .plain)⟩
    | none =>
      let r := ReconcileNormal w t m
      ⟨.getMachine ns name :: r.calls, some r.machine, r.tracker, .returned (r.result, r.err)⟩

/-! ### The store under deletion-path reconciles -/

/-- The name of the Node a Machine is bound to, if any. -/
def boundNode (m : Machine) : Option String :=
  m.status.nodeRef.map (fun nodeRef => nodeRef.name)

/-- The Nodes the requests cordon, drain or delete. -/
def touchedNodes (calls : List Call) : List String :=
  calls.filterMap (fun c =>
    match c with
    | .cordon name => some name
    | .drain name => some name
    | .deleteNode name => some name
    | _ => none)

/-- The Nodes the requests delete. -/
def deletedNodes (calls : List Call) : List String :=
  calls.filterMap (fun c =>
    match c with
    | .deleteNode name => some name
    | _ => none)

/-- The key of a Machine in the store: its namespace and name. -/
def storeKey (m : Machine) : String × String := (m.ns, m.name)

/-- The Machines the store holds, and the requests the reconciles have made
so far. -/
structure Store where
  machines : List Machine
  calls : List Call := []
  deriving DecidableEq, Repr

/-- The store after `m` is written over the Machine of the same key. -/
def Store.put (machines : List Machine) (m : Machine) : List Machine :=
  machines.map (fun x => if storeKey x = storeKey m then m else x)

/-- The store after the Machine of key `k` is gone. -/
def Store.remove (machines : List Machine) (k : String × String) : List Machine :=
  machines.filter (fun x => storeKey x != k)

/-- The cluster `w` in front of the store: a listing that `w` lets succeed
returns the Machines the store holds in the namespace. -/
def Store.view (w : Cluster) (machines : List Machine) : Cluster :=
  { w with
    listMachines := fun ns =>
      match w.listMachines ns with
      | .error err => .error err
      | .ok _ => .ok (machines.filter (fun m => m.ns == ns)) }

/-- One deletion-path reconcile of the Machine `ns/name`, run to completion
against the store, every other answer being that of `w`.  The store keeps the
phase stamp when `r.Status().Update` accepted it; after `r.Update` accepted
the Machine without its finalizer, a Machine left with no finalizer is gone
(it carries a deletion timestamp), and one with other finalizers stays as
updated.  A Machine that is not in the store, or carries no deletion
timestamp, is not reconciled on this path. -/
def deletionStep (w : Cluster) (ns name : String) (s : Store) : Store :=
  match s.machines.find? (fun m => m.ns == ns && m.name == name) with
  | none => s
  | some m =>
    let persisted : Machine :=
      if m.status.phase != MachineTerminating
          && (w.statusUpdate (stampTerminating m)).isNone then stampTerminating m
      else m
    let machines := Store.put s.machines persisted
    match ReconcileDeletion (Store.view w machines) m with
    | none => s
    | some r =>
      match r.outcome with
      | .returned (_, none) =>
        if r.machine.finalizers.isEmpty then
          ⟨Store.remove machines (storeKey m), s.calls ++ r.calls⟩
        else ⟨Store.put machines r.machine, s.calls ++ r.calls⟩
      | _ => ⟨machines, s.calls ++ r.calls⟩

/-- An execution: deletion-path reconciles run one at a time to completion,
each with the answers of its own cluster. -/
def execute (s : Store) : List (Cluster × String × String) → Store
  | [] => s
  | (w, ns, name) :: rest => execute (deletionStep w ns name s) rest

/-- What the deletion path reads of a stored Machine and never changes: its
key, whether it carries the control-plane label, and the Node it is bound
to. -/
def Store.entry (m : Machine) : (String × String) × Bool × Option String :=
  (storeKey m, isControlPlaneMachine m, boundNode m)

/-- The invariant of an execution, on the entries of the Machines the store
held at the start (`initial`) and holds now (`current`) and on the Nodes whose
deletion has been requested: keys are unique, no two Machines are bound to one
Node, every control-plane Machine is bound, every Machine was there at the
start, no stored Machine has had its Node deleted, and some control-plane
Machine of the start has a Node that was not deleted and to which only
control-plane Machines are bound. -/
structure Store.Safe (initial current : List ((String × String) × Bool × Option String))
    (deleted : List String) : Prop where
  keys : (current.map (fun a => a.1)).Nodup
  nodes : (current.filterMap (fun a => a.2.2)).Nodup
  bound : ∀ a ∈ current, a.2.1 = true → a.2.2 ≠ none
  known : ∀ a ∈ current, a ∈ initial
  kept : ∀ a ∈ current, ∀ n, a.2.2 = some n → n ∉ deleted
  spared : ∃ a ∈ initial, a.2.1 = true ∧ ∃ n, a.2.2 = some n ∧ n ∉ deleted ∧
    ∀ b ∈ current, b.2.2 = some n → b.2.1 = true

/-! ### Sample Machines -/

/-- A deleting control-plane Machine bound to the Node `node-cp-0`. -/
def controlPlane0 : Machine :=
  { name := "cp-0"
    ns := "default"
    labels := [(MachineControlPlaneLabelName, "")]
    deletionTimestamp := some 1
    finalizers := [MachineFinalizer]
    spec :=
      { infrastructureRef :=
          { kind := "InfraMachine", apiVersion := "infrastructure.crit.sh/v1alpha1",
            name := "cp-0-infra" } }
    status :=
      { nodeRef := some { kind := "Node", apiVersion := "v1", name := "node-cp-0" }
        phase := MachineRunning
        infrastructureReady := true } }

/-- A second control-plane Machine, not deleting. -/
def controlPlane1 : Machine :=
  { controlPlane0 with
    name := "cp-1"
    deletionTimestamp := none
    status := { controlPlane0.status with
      nodeRef := some { kind := "Node", apiVersion := "v1", name := "node-cp-1" } } }

/-- A deleting worker Machine bound to the Node `node-w-0`. -/
def worker0 : Machine :=
  { controlPlane0 with
    name := "w-0"
    labels := []
    spec :=
      { infrastructureRef :=
          { kind := "InfraMachine", apiVersion := "infrastructure.crit.sh/v1alpha1",
            name := "w-0-infra" } }
    status := { controlPlane0.status with
      nodeRef := some { kind := "Node", apiVersion := "v1", name := "node-w-0" } } }

/-- A deleting worker Machine whose Node never joined: no NodeRef. -/
def unbound0 : Machine :=
  { controlPlane0 with
    name := "u-0"
    labels := []
    spec :=
      { infrastructureRef :=
          { kind := "InfraMachine", apiVersion := "infrastructure.crit.sh/v1alpha1",
            name := "u-0-infra" } }
    status := { phase := MachinePending } }

/-- A cluster in which every request succeeds: the Machines of a namespace
are those of `machines`, every Node and every infrastructure object exists. -/
def sampleCluster (machines : List Machine) : Cluster :=
  { statusUpdate := fun _ => none
    update := fun _ => none
    listMachines := fun ns => .ok (machines.filter (fun m => m.ns == ns))
    newForConfig := none
    getNode := fun name => .ok { kind := "Node", apiVersion := "v1", name := name }
    cordon := fun _ => none
    drain := fun _ => none
    getUnstructured := fun apiVersion kind ns name =>
      .ok { apiVersion := apiVersion, kind := kind, ns := ns, name := name }
    deleteUnstructured := fun _ => .returned none
    deleteNode := fun _ _ => none
    pollTicks := 5 }

/-- The infrastructure object the sample cluster holds for a Machine. -/
def infraOf (m : Machine) : Unstructured :=
  { apiVersion := m.spec.infrastructureRef.apiVersion
    kind := m.spec.infrastructureRef.kind
    ns := m.ns
    name := m.spec.infrastructureRef.name }

/-- The same cluster, except that `r.Status().Update` is refused. -/
def stampFailsCluster (machines : List Machine) : Cluster :=
  { sampleCluster machines with
    statusUpdate := fun _ => some (.status "Conflict" "the object has been modified") }

/-- The same cluster, except that listing the Machines of a namespace fails
with a server error. -/
def listFailsCluster (machines : List Machine) : Cluster :=
  { sampleCluster machines with
    listMachines := fun _ => .error (.status "InternalError" "etcd unavailable") }

/-- The same cluster, except that fetching an infrastructure object fails
with a server error. -/
def brokenStoreCluster (machines : List Machine) : Cluster :=
  { sampleCluster machines with
    getUnstructured := fun _ _ _ _ => .error (.status "InternalError" "etcd unavailable") }

/-- A Machine in normal operation: infrastructure ready, bound to `node-w-1`. -/
def running1 : Machine :=
  { name := "w-1"
    ns := "default"
    finalizers := [MachineFinalizer]
    spec :=
      { infrastructureRef :=
          { kind := "InfraMachine", apiVersion := "infrastructure.crit.sh/v1alpha1",
            name := "w-1-infra" }
        providerID := some "provider://w-1" }
    status :=
      { nodeRef := some { kind := "Node", apiVersion := "v1", name := "node-w-1" }
        phase := MachineRunning
        infrastructureReady := true } }

/-- The same Machine before a Node is bound to it. -/
def pending1 : Machine :=
  { running1 with status := { running1.status with nodeRef := none, phase := "" } }

/-- The infrastructure object of `w-1`, reporting ready. -/
def infra1 : Unstructured :=
  { apiVersion := "infrastructure.crit.sh/v1alpha1"
    kind := "InfraMachine"
    ns := "default"
    name := "w-1-infra"
    statusReady := .value true
    specProviderID := .value "provider://w-1" }

/-- The same infrastructure object, reporting not ready. -/
def infra1NotReady : Unstructured :=
  { infra1 with statusReady := .value false }

/-- A cluster for the normal path: the store holds the infrastructure object
`obj`, if any, and no Node; every other request succeeds. -/
def normalCluster (obj : Option Unstructured) : Cluster :=
  { sampleCluster [] with
    getUnstructured := fun _ _ _ _ =>
      match obj with
      | some o => .ok o
      | none => .error (.status "NotFound" "infrastructure object not found") }

/-- The cluster of `machines`, each of which `r.Get` finds by namespace and
name; every request succeeds. -/
def storedCluster (machines : List Machine) : Cluster :=
  { sampleCluster machines with
    getMachine := fun ns name =>
      match machines.find? (fun m => m.ns == ns && m.name == name) with
      | some m => .ok m
      | none => .error (.status "NotFound" "machine not found") }

/-- The same cluster, except that `RunNodeDrain` fails. -/
def drainFailsCluster (machines : List Machine) : Cluster :=
  { storedCluster machines with drain := fun _ => some (.foreign "drain did not complete") }

/-- The same cluster, except that `RunCordonOrUncordon` fails. -/
def cordonFailsCluster (machines : List Machine) : Cluster :=
  { storedCluster machines with cordon := fun _ => some (.foreign "node update refused") }

/-- The same cluster, except that every infrastructure object is gone: the
fetch reports not-found, and `r.Delete` answers the nil object it is handed
with `onNil`. -/
def lostInfraCluster (machines : List Machine) (onNil : Outcome (Option Error)) : Cluster :=
  { storedCluster machines with
    getUnstructured := fun _ _ _ _ =>
      .error (.status "NotFound" "infrastructure object not found")
    deleteUnstructured := fun obj =>
      match obj with
      | none => onNil
      | some _ => .returned none }

/-- The same cluster, except that deleting an infrastructure object reports
not-found. -/
def deleteNotFoundCluster (machines : List Machine) : Cluster :=
  { storedCluster machines with
    deleteUnstructured := fun _ =>
      .returned (some (.status "NotFound" "infrastructure object not found")) }

/-- The Node of `w-1`, whose kubelet reports a version that is no semantic
version. -/
def nodeW1 : Node :=
  { kind := "Node", apiVersion := "v1", name := "node-w-1", providerID := "provider://w-1"
    kubeletVersion := "devel" }

/-- A cluster for the normal path whose store holds the infrastructure
object `obj` and the Node `node-w-1`, and whose `semver.Parse` refuses every
version. -/
def joinedCluster (obj : Unstructured) : Cluster :=
  { normalCluster (some obj) with listNodes := .ok [nodeW1] }

/-- The infrastructure object of `w-1`, ready and reporting a failure. -/
def infra1Failed : Unstructured :=
  { infra1 with statusFailureReason := .value "CreateError" }

/-- The control-plane Machine `cp-1`, deleting as well. -/
def controlPlane1Deleting : Machine :=
  { controlPlane1 with deletionTimestamp := some 2 }

end machine

/-! ## InfrastructureProvider controller (`src/controllers/infraprovider`) -/

namespace infraprovider

/-- The struct `InfrastructureProviderSpec`. -/
structure InfrastructureProviderSpec where
  infrastructureRef : ObjectReference := {}
  deriving DecidableEq, Repr

/-- The struct `InfrastructureProviderStatus`. -/
structure InfrastructureProviderStatus where
  ready : Bool := false
  deriving DecidableEq, Repr

/-- The struct `InfrastructureProvider`. -/
structure InfrastructureProvider where
  name : String := ""
  ns : String := ""
  spec : InfrastructureProviderSpec := {}
  status : InfrastructureProviderStatus := {}
  deriving DecidableEq, Repr

/-- What the controller receives from the code outside the repository: the
resource store (`r.Get` of the provider, `c.Get` of an unstructured object,
`r.Status().Update`), the package `util/patch` (`patch.NewHelper` and `Patch`
for the external object), `controllerutil.SetControllerReference` (the object
with its owner set, or an error), the controller's `Watch`, and the configured
`externalReadyWait`. -/
structure Cluster where
  getProvider : String → String → Except Error InfrastructureProvider
  getUnstructured : String → String → String → String → Except Error Unstructured
  newHelperUnstructured : Unstructured → Option Error := fun _ => none
  setControllerReference : InfrastructureProvider → Unstructured → Except Error Unstructured :=
    fun _ obj => .ok obj
  patchUnstructured : Unstructured → Unstructured → Option Error := fun _ _ => none
  controllerWatch : GroupVersionKind → Option Error := fun _ => none
  statusUpdate : InfrastructureProvider → Option Error := fun _ => none
  externalReadyWait : Nat := 30000000000

/-- A request made to the code outside the repository. -/
inductive Call where
  | getProvider (ns name : String)
  | getUnstructured (apiVersion kind ns name : String)
  | patchUnstructured (obj : Unstructured)
  | watch (gvk : GroupVersionKind)
  | statusUpdate (ip : InfrastructureProvider)
  deriving DecidableEq, Repr

/-- What a run of `reconcileExternal` leaves behind: the requests it made,
the tracker and what it returned. -/
structure ExternalStep where
  calls : List Call
  tracker : external.ObjectTracker
  value : Except Error Unstructured

/-- The method `reconcileExternal`. -/
def reconcileExternal (w : Cluster) (t : external.ObjectTracker) (ip : InfrastructureProvider)
    (ref : ObjectReference) : ExternalStep :=
  let c0 := [Call.getUnstructured ref.apiVersion ref.kind ref.ns ref.name]
  match external.Get w.getUnstructured ref ref.ns with
  | .error err =>
    if IsNotFound (Cause err) then
      ⟨c0, t, .error (.wrapf (.requeueAfter w.externalReadyWait)
        "could not find %v %q for InfrastructureProvider %q in namespace %q, requeuing"
        [ref.GroupVersionKind.string, ref.name, ip.name, ip.ns])⟩
    else ⟨c0, t, .error err⟩
  | .ok obj =>
    -- Initialize the patch helper.
    match w.newHelperUnstructured obj with
    | some err => ⟨c0, t, .error err⟩
    | none =>
      -- Set external object ControllerReference to the Machine.
      match w.setControllerReference ip obj with
      | .error err => ⟨c0, t, .error err⟩
      | .ok owned =>
        -- Always attempt to Patch the external object.
        let c1 := c0 ++ [.patchUnstructured owned]
        match w.patchUnstructured obj owned with
        | some err => ⟨c1, t, .error err⟩
        | none =>
          let watched := t.Watch w.controllerWatch owned
          let c2 := if watched.registered then c1 ++ [.watch owned.GroupVersionKind] else c1
          match watched.err with
          | some err => ⟨c2, watched.tracker, .error err⟩
          | none => ⟨c2, watched.tracker, .ok owned⟩

/-- What a run of `Reconcile` leaves behind: the requests it made, the
in-memory provider at the end (`none` when it could not be fetched), the
tracker and the returned pair. -/
structure Reconciliation where
  calls : List Call
  provider : Option InfrastructureProvider
  tracker : external.ObjectTracker
  result : Result
  err : Option Error
  deriving DecidableEq, Repr

/-- The method `InfrastructureProviderReconciler.Reconcile` for the request
`ns/name`. -/
def Reconcile (w : Cluster) (t : external.ObjectTracker) (ns name : String) : Reconciliation :=
  let c0 := [Call.getProvider ns name]
  match w.getProvider ns name with
  | .error err => ⟨c0, none, t, {}, some err⟩
  | .ok ip =>
    let ext := reconcileExternal w t ip ip.spec.infrastructureRef
    match ext.value with
    | .error err =>
      match asRequeueAfter (Cause err) with
      | some d => ⟨c0 ++ ext.calls, some ip, ext.tracker, { requeueAfter := d }, none⟩
      | none => ⟨c0 ++ ext.calls, some ip, ext.tracker, {}, some err⟩
    | .ok obj =>
      if !isZero obj.deletionTimestamp then ⟨c0 ++ ext.calls, some ip, ext.tracker, {}, none⟩
      else
        match external.IsReady obj with
        | .error err => ⟨c0 ++ ext.calls, some ip, ext.tracker, {}, some err⟩
        | .ok ready =>
          let ip1 : InfrastructureProvider := { ip with status := { ip.status with ready := ready } }
          ⟨c0 ++ ext.calls ++ [.statusUpdate ip1], some ip1, ext.tracker, {},
            w.statusUpdate ip1⟩

/-- A provider referring to the external object `infra/aws`. -/
def provider1 : InfrastructureProvider :=
  { name := "aws"
    spec :=
      { infrastructureRef :=
          { kind := "AWSProvider", apiVersion := "infrastructure.crit.sh/v1alpha1",
            name := "aws", ns := "infra" } } }

/-- The external object `infra/aws`, reporting `ready`. -/
def external1 (ready : Bool) : Unstructured :=
  { apiVersion := "infrastructure.crit.sh/v1alpha1"
    kind := "AWSProvider"
    ns := "infra"
    name := "aws"
    statusReady := .value ready }

/-- A cluster whose store holds the provider `aws` and the external objects
`store`; every other request succeeds. -/
def sampleCluster (store : List Unstructured) : Cluster :=
  { getProvider := fun _ name =>
      if name = "aws" then .ok provider1 else .error (.status "NotFound" "provider not found")
    getUnstructured := external.storeGet store }

end infraprovider

/-! ## Node controller (`src/controllers/node`) -/

namespace node

/-- The constant `NodeOwnerLabelName`. -/
def NodeOwnerLabelName : String := "machine.crit.sh/machine"

/-- The constant `metav1.NamespaceSystem`. -/
def NamespaceSystem : String := "kube-system"

/-- What the controller receives from the code outside the repository: the
resource store (`r.Get` of the Node, `r.List` of the Machines, `r.Create`,
which on success leaves in the object what the store answered),
`json.Marshal` of an object reference, `kubernetes.NewForConfig(r.config)`
(its error, if any) and `nodeutil.PatchNode` for a Node name and a function
on Nodes, which may panic if the function does. -/
structure Cluster where
  getNode : String → Except Error Node
  listMachines : Except Error (List Machine)
  create : Machine → Except Error Machine
  marshal : ObjectReference → Except Error String
  newForConfig : Option Error
  patchNode : String → (Node → Outcome Node) → Outcome (Option Error)

/-- A request made to the code outside the repository; `patchNode name data`
is the call of `PatchNode` for the Node `name` with the function that writes
`data` under the owner annotation. -/
inductive Call where
  | getNode (name : String)
  | listMachines
  | create (m : Machine)
  | newForConfig
  | patchNode (name : String) (data : String)
  deriving DecidableEq, Repr

/-- The requests a function made, with what it returned. -/
structure Run (α : Type) where
  calls : List Call
  value : α
  deriving DecidableEq, Repr

/-- The assignment `annotations[key] = value` on a Go map kept as an
association list. -/
def setEntry (key value : String) : List (String × String) → List (String × String)
  | [] => [(key, value)]
  | (k, v) :: rest => if k = key then (key, value) :: rest else (k, v) :: setEntry key value rest

/-- The function literal `setMachineAnnotation` hands to `PatchNode`: it
assigns into the map `n.GetAnnotations()` returns, which panics on the nil
map. -/
def annotate (data : String) (n : Node) : Outcome Node :=
  match n.annotations with
  | none => .panicked
  | some annotations =>
    .returned { n with annotations := some (setEntry NodeOwnerLabelName data annotations) }

/-- The reference `setMachineAnnotation` builds for a Machine. -/
def machineReference (m : Machine) : ObjectReference :=
  { apiVersion := m.apiVersion, kind := "Machine", name := m.name, ns := m.ns }

/-- The method `setMachineAnnotation`. -/
def setMachineAnnotation (w : Cluster) (m : Machine) (name : String) :
    Run (Outcome (Option Error)) :=
  match w.marshal (machineReference m) with
  | .error err => ⟨[], .returned (some err)⟩
  | .ok data =>
    match w.newForConfig with
    | some err => ⟨[.newForConfig], .returned (some err)⟩
    | none => ⟨[.newForConfig, .patchNode name data], w.patchNode name (annotate data)⟩

/-- The test of the loop of `ensureMachineForNode` on a listed Machine. -/
def hasProviderID (n : Node) (m : Machine) : Bool :=
  match m.spec.providerID with
  | none => false
  | some providerID => providerID != "" && providerID == n.providerID

/-- The Machine `ensureMachineForNode` creates for a Node. -/
def machineFor (n : Node) : Machine :=
  { name := n.name, ns := NamespaceSystem, spec := { providerID := some n.providerID } }

/-- The method `ensureMachineForNode`. -/
def ensureMachineForNode (w : Cluster) (n : Node) : Run (Outcome (Option Error)) :=
  match w.listMachines with
  | .error err => ⟨[.listMachines], .returned (some err)⟩
  | .ok items =>
    match items.find? (hasProviderID n) with
    | some m =>
      let annotated := setMachineAnnotation w m n.name
      ⟨Call.listMachines :: annotated.calls, annotated.value⟩
    | none =>
      let c1 := [Call.listMachines, Call.create (machineFor n)]
      match w.create (machineFor n) with
      | .error err =>
        if !IsAlreadyExists err then ⟨c1, .returned (some err)⟩
        else
          let annotated := setMachineAnnotation w (machineFor n) n.name
          ⟨c1 ++ annotated.calls, annotated.value⟩
      | .ok m =>
        let annotated := setMachineAnnotation w m n.name
        ⟨c1 ++ annotated.calls, annotated.value⟩

/-- The test `_, ok := annotations[NodeOwnerLabelName]` of `Reconcile`. -/
def isOwned (n : Node) : Bool :=
  match n.annotations with
  | none => false
  | some annotations => annotations.any (fun kv => kv.1 == NodeOwnerLabelName)

/-- What a run of `Reconcile` leaves behind: the requests it made and the
returned pair. -/
structure Reconciliation where
  calls : List Call
  outcome : Outcome (Result × Option Error)
  deriving DecidableEq, Repr

/-- The method `NodeReconciler.Reconcile` for the request `name`. -/
def Reconcile (w : Cluster) (name : String) : Reconciliation :=
  match w.getNode name with
  | .error err =>
    if IsNotFound err then ⟨[.getNode name], .returned ({}, none)⟩
    else ⟨[.getNode name], .returned ({}, some err)⟩
  | .ok n =>
    if !isOwned n then
      let ensured := ensureMachineForNode w n
      match ensured.value with
      | .panicked => ⟨Call.getNode name :: ensured.calls, .panicked⟩
      | .returned (some err) => ⟨Call.getNode name :: ensured.calls, .returned ({}, some err)⟩
      | .returned none => ⟨Call.getNode name :: ensured.calls, .returned ({}, none)⟩
    else ⟨[.getNode name], .returned ({}, none)⟩

/-- A cluster whose store holds the Nodes `nodes` and the Machines
`machines`, whose `PatchNode` applies the function to the stored Node of that
name, and in which every request succeeds.  The rendering of a reference
stands for its JSON text: kind, namespace and name, apart by slashes. -/
def sampleCluster (nodes : List Node) (machines : List Machine) : Cluster :=
  { getNode := fun name =>
      match nodes.find? (fun n => n.name == name) with
      | some n => .ok n
      | none => .error (.status "NotFound" "node not found")
    listMachines := .ok machines
    create := fun m => .ok m
    marshal := fun ref => .ok (ref.kind ++ "/" ++ ref.ns ++ "/" ++ ref.name)
    newForConfig := none
    patchNode := fun name f =>
      match nodes.find? (fun n => n.name == name) with
      | some n =>
        match f n with
        | .panicked => .panicked
        | .returned _ => .returned none
      | none => .returned (some (.status "NotFound" "node not found")) }

/-- A Node that joined on its own, with the annotation the kubelet sets. -/
def joined1 : Node :=
  { kind := "Node", apiVersion := "v1", name := "node-1", providerID := "provider://1"
    annotations := some [("volumes.kubernetes.io/controller-managed-attach-detach", "true")] }

/-- The same Node without any annotation: its map is nil. -/
def bare1 : Node :=
  { joined1 with annotations := none }

/-- The Node `node-1` once it carries the owner annotation for the Machine
`kube-system/node-1`. -/
def owned1 : Node :=
  { joined1 with
    annotations := some [("volumes.kubernetes.io/controller-managed-attach-detach", "true"),
      (NodeOwnerLabelName, "Machine/kube-system/node-1")] }

end node

end MachineAPI

/-! ## Theorems: CSR approver -/

namespace MachineAPI
namespace csrapprover

/-- `validateCSR` itself never submits an approval. -/
theorem validateCSR_calls_not_approval (w : Cluster) (csr : CertificateSigningRequest) :
    (validateCSR w csr).calls.any (fun c => match c with
      | .updateApproval _ => true
      | _ => false) = false := by
  unfold validateCSR
  simp only []
  repeat' split
  all_goals simp

/-- A pending node request on which `validateCSR` returns an error is left
as it was: nothing is appended, nothing is submitted, and the result carries
the retry-after of the error's cause, if it has one. -/
theorem Reconcile_of_rejected (w : Cluster) (req : String) (csr : CertificateSigningRequest)
    (err : Error) (hget : w.getCSR req = .ok csr)
    (hnodeid : hasPrefix csr.spec.username "system:node:" = true)
    (hpending : pending csr = true)
    (hv : (validateCSR w csr).outcome = .returned (some err)) :
    (Reconcile w req).csr = some csr ∧
    submitsApproval (Reconcile w req) = false ∧
    (Reconcile w req).calls = Call.getCSR req :: (validateCSR w csr).calls ∧
    (Reconcile w req).outcome =
      .returned ({ requeueAfter := (asRequeueAfter (Cause err)).getD 0 }, none) := by
  have hp : csr.status.conditions.any
        (fun condition => condition.type == CertificateApproved
          || condition.type == CertificateDenied) = false := by
    simpa [pending] using hpending
  have hc := validateCSR_calls_not_approval w csr
  unfold submitsApproval Reconcile
  simp only [hget, hnodeid, hp, hv]
  cases h : asRequeueAfter (Cause err) <;> simp [hc]

/-- A pending node request on which `validateCSR` returns nil is approved. -/
theorem Reconcile_of_valid (w : Cluster) (req : String) (csr : CertificateSigningRequest)
    (hget : w.getCSR req = .ok csr)
    (hnodeid : hasPrefix csr.spec.username "system:node:" = true)
    (hpending : pending csr = true)
    (hv : (validateCSR w csr).outcome = .returned none)
    (hconfig : w.newForConfig = none) :
    (Reconcile w req).csr = some (approve csr) ∧
    (Reconcile w req).calls =
      Call.getCSR req :: (validateCSR w csr).calls ++
        [Call.newForConfig, Call.updateApproval (approve csr)] ∧
    (Reconcile w req).outcome = .returned ({}, w.updateApproval (approve csr)) := by
  have hp : csr.status.conditions.any
        (fun condition => condition.type == CertificateApproved
          || condition.type == CertificateDenied) = false := by
    simpa [pending] using hpending
  unfold Reconcile
  simp only [hget, hnodeid, hp, hv, hconfig]
  cases h : w.updateApproval (approve csr) <;> simp

/-- The Machine `getMachine` returns is bound to the Node asked for and has
ready infrastructure. -/
theorem getMachineLoop_ok (nodeName : String) (machines : List Machine) (m : Machine)
    (h : getMachineLoop nodeName machines = .ok m) :
    m ∈ machines ∧ m.status.infrastructureReady = true ∧
      ∃ nodeRef, m.status.nodeRef = some nodeRef ∧ nodeRef.name = nodeName := by
  induction machines with
  | nil => simp [getMachineLoop] at h
  | cons a rest ih =>
    unfold getMachineLoop at h
    split at h
    · obtain ⟨h1, h2⟩ := ih h
      exact ⟨List.mem_cons_of_mem _ h1, h2⟩
    · rename_i nodeRef href
      split at h
      · rename_i hname
        split at h
        · simp at h
        · rename_i hready
          simp only [Except.ok.injEq] at h
          subst h
          refine ⟨List.mem_cons_self _ _, by simpa using hready, nodeRef, href, hname.symm⟩
      · obtain ⟨h1, h2⟩ := ih h
        exact ⟨List.mem_cons_of_mem _ h1, h2⟩

/-- When no listed Machine is bound to the Node, `getMachine` fails with the
"cannot find machine" error. -/
theorem getMachineLoop_unmatched (nodeName : String) (machines : List Machine)
    (h : ∀ m ∈ machines, ∀ nodeRef, m.status.nodeRef = some nodeRef → nodeRef.name ≠ nodeName) :
    getMachineLoop nodeName machines =
      .error (.fundamental "cannot find machine for node %q" [nodeName]) := by
  induction machines with
  | nil => simp [getMachineLoop]
  | cons a rest ih =>
    have ih2 := ih (fun m hm => h m (List.mem_cons_of_mem _ hm))
    unfold getMachineLoop
    split
    · exact ih2
    · rename_i nodeRef href
      have hne := h a (List.mem_cons_self _ _) nodeRef href
      have hne2 : ¬ nodeName = nodeRef.name := fun e => hne e.symm
      simp only [hne2, if_false]
      exact ih2

/-- When the first listed Machine bound to the Node has infrastructure that is
not ready, `getMachine` fails with the "not yet ready" error. -/
theorem getMachineLoop_not_ready (nodeName : String) (machines : List Machine) (m : Machine)
    (hfirst : machines.find? (fun x => x.status.nodeRef.any (fun r => nodeName == r.name)) = some m)
    (hready : m.status.infrastructureReady = false) :
    getMachineLoop nodeName machines =
      .error (.fundamental "infrastructure for machine %q is not yet ready" [m.name]) := by
  induction machines with
  | nil => simp at hfirst
  | cons a rest ih =>
    unfold getMachineLoop
    rw [List.find?_cons] at hfirst
    split
    · rename_i href
      simp only [href, Option.any_none] at hfirst
      exact ih hfirst
    · rename_i nodeRef href
      simp only [href, Option.any_some] at hfirst
      by_cases hname : nodeName = nodeRef.name
      · have hb : (nodeName == nodeRef.name) = true := by simpa using hname
        simp only [hb, Option.some.injEq] at hfirst
        subst hfirst
        simp [hname, hready]
      · have hb : (nodeName == nodeRef.name) = false := by simpa using hname
        simp only [hb] at hfirst
        simp only [hname, if_false]
        exact ih hfirst

/-- A usage is refused by `isUsageAllowed` exactly when it is outside the
allow-list of the three usages. -/
theorem isUsageAllowed_eq_false (usage : String) :
    isUsageAllowed usage = false ↔
      usage ∉ ["digital signature", "key encipherment", "server auth"] := by
  simp [isUsageAllowed, allowedUsages, UsageDigitalSignature, UsageKeyEncipherment,
    UsageServerAuth]

/-- C1, evaluated on the code: a pending request of the requestor
`system:node:` (empty node name), and a pending request of a requestor that
is not in `system:authenticated`, both get the Approved condition appended and
the approval submitted. -/
theorem Reconcile_approves_invalid_requestor :
    (pending csrEmptyNode = true ∧
      hasPrefix csrEmptyNode.spec.username "system:node:" = true ∧
      (trimPrefix csrEmptyNode.spec.username "system:node:").length = 0 ∧
      (Reconcile (sampleCluster csrEmptyNode [machineA] {}) "csr-a").csr
        = some (approve csrEmptyNode) ∧
      hasApproved (approve csrEmptyNode) = true ∧
      submitsApproval (Reconcile (sampleCluster csrEmptyNode [machineA] {}) "csr-a") = true) ∧
    (pending csrNoGroups = true ∧
      hasPrefix csrNoGroups.spec.username "system:node:" = true ∧
      hasAll csrNoGroups.spec.groups ["system:nodes", "system:authenticated"] = false ∧
      (Reconcile (sampleCluster csrNoGroups [machineA] {}) "csr-a").csr
        = some (approve csrNoGroups) ∧
      hasApproved (approve csrNoGroups) = true ∧
      submitsApproval (Reconcile (sampleCluster csrNoGroups [machineA] {}) "csr-a") = true) := by
  decide

/-- C2: for a pending node request that passes the identity, group, node and
usage checks, whose Machine is found with ready infrastructure and whose PEM
payload decodes and parses: if a requested DNS name or IP address is outside
the allowed set (the bound Node name and the recorded addresses), then
`validateCSR` returns an error naming the first offending value (DNS names are
checked before IP addresses) and `Reconcile` neither appends a condition nor
submits an approval. -/
theorem validateCSR_rejects_unlisted_address
    (w : Cluster) (req : String) (csr : CertificateSigningRequest) (node : Node)
    (m : Machine) (nodeRef : ObjectReference) (block : List Nat) (cr : CertificateRequest)
    (hget : w.getCSR req = .ok csr)
    (hnodeid : hasPrefix csr.spec.username "system:node:" = true)
    (hpending : pending csr = true)
    (hname : (trimPrefix csr.spec.username "system:node:").length ≠ 0)
    (hgroups : hasAll csr.spec.groups ["system:nodes", "system:authenticated"] = true)
    (hnode : w.getNode (trimPrefix csr.spec.username "system:node:") = .ok node)
    (husages : ∀ usage ∈ csr.spec.usages, isUsageAllowed usage = true)
    (hmachine : getMachine w (trimPrefix csr.spec.username "system:node:") = .ok m)
    (href : m.status.nodeRef = some nodeRef)
    (hpem : w.pemDecode csr.spec.request = some block)
    (hparse : w.parseCertificateRequest block = .ok cr)
    (hbad : ∃ v ∈ cr.dnsNames ++ cr.ipAddresses.map w.ipString,
      v ∉ allowedAddresses nodeRef m) :
    ∃ v format,
      (cr.dnsNames ++ cr.ipAddresses.map w.ipString).find?
        (fun a => !(allowedAddresses nodeRef m).contains a) = some v ∧
      v ∉ allowedAddresses nodeRef m ∧
      (format = "node %q not allowed to specify DNS address %q" ∨
        format = "node %q not allowed to specify IP address %q") ∧
      (validateCSR w csr).outcome = .returned (some (.fundamental format [nodeRef.name, v])) ∧
      (Reconcile w req).csr = some csr ∧
      submitsApproval (Reconcile w req) = false ∧
      (Reconcile w req).outcome = .returned ({}, none) := by
  have hu : csr.spec.usages.find? (fun usage => !isUsageAllowed usage) = none := by
    simpa using husages
  cases hd : cr.dnsNames.find? (fun dns => !(allowedAddresses nodeRef m).contains dns) with
  | some dns =>
    have hv : (validateCSR w csr).outcome = .returned (some (.fundamental
        "node %q not allowed to specify DNS address %q" [nodeRef.name, dns])) := by
      simp only [validateCSR, hname, hgroups, hnode, hu, hmachine, href, hpem, hparse, hd,
        ↓reduceIte, Bool.not_true, Bool.false_eq_true]
    have hr := Reconcile_of_rejected w req csr _ hget hnodeid hpending hv
    refine ⟨dns, _, ?_, ?_, Or.inl rfl, hv, hr.1, hr.2.1, ?_⟩
    · rw [List.find?_append, hd]; rfl
    · simpa using List.find?_some hd
    · simpa [Cause, asRequeueAfter] using hr.2.2.2
  | none =>
    have hdns : ∀ x ∈ cr.dnsNames, x ∈ allowedAddresses nodeRef m := by
      simpa using hd
    obtain ⟨v, hvmem, hvbad⟩ := hbad
    have hvip : v ∈ cr.ipAddresses.map w.ipString := by
      rcases List.mem_append.mp hvmem with h | h
      · exact absurd (hdns v h) hvbad
      · exact h
    cases hi : cr.ipAddresses.find?
        (fun ip => !(allowedAddresses nodeRef m).contains (w.ipString ip)) with
    | none =>
      exfalso
      obtain ⟨ip, hip, rfl⟩ := List.mem_map.mp hvip
      have := (List.find?_eq_none.mp hi) ip hip
      simp at this
      exact hvbad this
    | some ip =>
      have hv : (validateCSR w csr).outcome = .returned (some (.fundamental
          "node %q not allowed to specify IP address %q" [nodeRef.name, w.ipString ip])) := by
        simp only [validateCSR, hname, hgroups, hnode, hu, hmachine, href, hpem, hparse, hd, hi,
          ↓reduceIte, Bool.not_true, Bool.false_eq_true]
      have hr := Reconcile_of_rejected w req csr _ hget hnodeid hpending hv
      refine ⟨w.ipString ip, _, ?_, ?_, Or.inr rfl, hv, hr.1, hr.2.1, ?_⟩
      · have hi2 : List.find? ((fun a => !(allowedAddresses nodeRef m).contains a) ∘ w.ipString)
            cr.ipAddresses = some ip := hi
        rw [List.find?_append, hd, List.find?_map, hi2]; rfl
      · simpa using List.find?_some hi
      · simpa [Cause, asRequeueAfter] using hr.2.2.2

/-- Witness of C2: `node-a`, whose Machine records `node-a` and `10.0.0.1`,
requests the DNS name `node-b`. -/
theorem validateCSR_rejects_unlisted_address_witness :
    ∃ v format,
      (["node-b"] ++ ([] : List (List Nat)).map
          (sampleCluster csrA [machineA] { dnsNames := ["node-b"] }).ipString).find?
        (fun a => !(allowedAddresses { kind := "Node", apiVersion := "v1", name := "node-a" }
          machineA).contains a) = some v ∧
      v ∉ allowedAddresses { kind := "Node", apiVersion := "v1", name := "node-a" } machineA ∧
      (format = "node %q not allowed to specify DNS address %q" ∨
        format = "node %q not allowed to specify IP address %q") ∧
      (validateCSR (sampleCluster csrA [machineA] { dnsNames := ["node-b"] }) csrA).outcome
        = .returned (some (.fundamental format ["node-a", v])) ∧
      (Reconcile (sampleCluster csrA [machineA] { dnsNames := ["node-b"] }) "csr-a").csr
        = some csrA ∧
      submitsApproval (Reconcile (sampleCluster csrA [machineA] { dnsNames := ["node-b"] })
        "csr-a") = false ∧
      (Reconcile (sampleCluster csrA [machineA] { dnsNames := ["node-b"] }) "csr-a").outcome
        = .returned ({}, none) :=
  validateCSR_rejects_unlisted_address
    (sampleCluster csrA [machineA] { dnsNames := ["node-b"] }) "csr-a" csrA nodeA machineA
    { kind := "Node", apiVersion := "v1", name := "node-a" } [45, 45, 45, 45, 45]
    { dnsNames := ["node-b"] }
    rfl (by decide) (by decide) (by decide) (by decide) rfl (by decide) rfl
    rfl rfl rfl ⟨"node-b", by decide, by decide⟩

/-- C7: for a pending node request that passes the identity and group checks
and whose Node exists, a requested usage outside the allow-list makes
`validateCSR` return an error naming the first such usage after the Node
lookup alone (no Machine listing, no PEM decoding, no address matching), and
`Reconcile` neither appends a condition nor submits an approval. -/
theorem validateCSR_rejects_unlisted_usage
    (w : Cluster) (req : String) (csr : CertificateSigningRequest) (node : Node)
    (hget : w.getCSR req = .ok csr)
    (hnodeid : hasPrefix csr.spec.username "system:node:" = true)
    (hpending : pending csr = true)
    (hname : (trimPrefix csr.spec.username "system:node:").length ≠ 0)
    (hgroups : hasAll csr.spec.groups ["system:nodes", "system:authenticated"] = true)
    (hnode : w.getNode (trimPrefix csr.spec.username "system:node:") = .ok node)
    (hbad : ∃ usage ∈ csr.spec.usages,
      usage ∉ ["digital signature", "key encipherment", "server auth"]) :
    ∃ usage,
      csr.spec.usages.find?
        (fun u => decide (u ∉ ["digital signature", "key encipherment", "server auth"]))
          = some usage ∧
      usage ∈ csr.spec.usages ∧
      usage ∉ ["digital signature", "key encipherment", "server auth"] ∧
      validateCSR w csr =
        ⟨[Call.getNode (trimPrefix csr.spec.username "system:node:")],
          .returned (some (.fundamental "usage %q not allowed" [usage]))⟩ ∧
      (Reconcile w req).calls =
        [Call.getCSR req, Call.getNode (trimPrefix csr.spec.username "system:node:")] ∧
      (Reconcile w req).csr = some csr ∧
      submitsApproval (Reconcile w req) = false ∧
      (Reconcile w req).outcome = .returned ({}, none) := by
  have hfun : (fun u => decide (u ∉ ["digital signature", "key encipherment", "server auth"]))
      = (fun usage => !isUsageAllowed usage) := by
    funext u
    have h := isUsageAllowed_eq_false u
    cases hu : isUsageAllowed u
    · simpa using h.mp hu
    · have : ¬ (u ∉ ["digital signature", "key encipherment", "server auth"]) := by
        intro hn
        rw [h.mpr hn] at hu
        exact Bool.noConfusion hu
      simpa using this
  cases hf : csr.spec.usages.find? (fun usage => !isUsageAllowed usage) with
  | none =>
    exfalso
    obtain ⟨u, hu, hnot⟩ := hbad
    have := (List.find?_eq_none.mp hf) u hu
    rw [(isUsageAllowed_eq_false u).mpr hnot] at this
    simp at this
  | some usage =>
    have hv : validateCSR w csr =
        ⟨[Call.getNode (trimPrefix csr.spec.username "system:node:")],
          .returned (some (.fundamental "usage %q not allowed" [usage]))⟩ := by
      simp only [validateCSR, hname, hgroups, hnode, hf, ↓reduceIte, Bool.not_true,
        Bool.false_eq_true]
    have hr := Reconcile_of_rejected w req csr _ hget hnodeid hpending (by rw [hv])
    have hp := List.find?_some hf
    have hnot : usage ∉ ["digital signature", "key encipherment", "server auth"] := by
      apply (isUsageAllowed_eq_false usage).mp
      simpa using hp
    refine ⟨usage, ?_, List.mem_of_find?_eq_some hf, hnot, hv, ?_, hr.1, hr.2.1, ?_⟩
    · rw [hfun]; exact hf
    · rw [hr.2.2.1, hv]
    · simpa [Cause, asRequeueAfter] using hr.2.2.2

/-- Witness of C7: `node-a` asks for the usage `client auth`. -/
theorem validateCSR_rejects_unlisted_usage_witness :
    ∃ usage,
      csrClientAuth.spec.usages.find?
        (fun u => decide (u ∉ ["digital signature", "key encipherment", "server auth"]))
          = some usage ∧
      usage ∈ csrClientAuth.spec.usages ∧
      usage ∉ ["digital signature", "key encipherment", "server auth"] ∧
      validateCSR (sampleCluster csrClientAuth [machineA] { dnsNames := ["node-a"] })
          csrClientAuth =
        ⟨[Call.getNode (trimPrefix csrClientAuth.spec.username "system:node:")],
          .returned (some (.fundamental "usage %q not allowed" [usage]))⟩ ∧
      (Reconcile (sampleCluster csrClientAuth [machineA] { dnsNames := ["node-a"] })
          "csr-a").calls =
        [Call.getCSR "csr-a",
          Call.getNode (trimPrefix csrClientAuth.spec.username "system:node:")] ∧
      (Reconcile (sampleCluster csrClientAuth [machineA] { dnsNames := ["node-a"] })
          "csr-a").csr = some csrClientAuth ∧
      submitsApproval (Reconcile (sampleCluster csrClientAuth [machineA]
          { dnsNames := ["node-a"] }) "csr-a") = false ∧
      (Reconcile (sampleCluster csrClientAuth [machineA] { dnsNames := ["node-a"] })
          "csr-a").outcome = .returned ({}, none) :=
  validateCSR_rejects_unlisted_usage
    (sampleCluster csrClientAuth [machineA] { dnsNames := ["node-a"] }) "csr-a" csrClientAuth
    nodeA rfl (by decide) (by decide) (by decide) (by decide) rfl
    ⟨"client auth", by decide, by decide⟩

/-- C8, evaluated on the code: a pending request of `node-a` that passes the
identity, group, node, usage and Machine checks and whose payload holds no PEM
block gets the Approved condition appended and the approval submitted, without
any subject access review. -/
theorem Reconcile_approves_missing_pem :
    pending csrNoPEM = true ∧
    (sampleCluster csrNoPEM [machineA] {}).pemDecode csrNoPEM.spec.request = none ∧
    validateCSR (sampleCluster csrNoPEM [machineA] {}) csrNoPEM =
      ⟨[Call.getNode "node-a", Call.listMachines, Call.pemDecode []], .returned none⟩ ∧
    (Reconcile (sampleCluster csrNoPEM [machineA] {}) "csr-a").csr = some (approve csrNoPEM) ∧
    hasApproved (approve csrNoPEM) = true ∧
    submitsApproval (Reconcile (sampleCluster csrNoPEM [machineA] {}) "csr-a") = true := by
  decide

/-- C9 as stated fails: `node-a` passes the identity, group, node and usage
checks, the only listed Machine is bound to `node-b`, and `Reconcile` asks for
a retry after five seconds. -/
theorem Reconcile_unmatched_node_requeues :
    pending csrA = true ∧
    [machineB].all (fun m => m.status.nodeRef.all (fun r => r.name != "node-a")) = true ∧
    (Reconcile (sampleCluster csrA [machineB] { dnsNames := ["node-a"] }) "csr-a").outcome
      = .returned ({ requeueAfter := 5000000000 }, none) ∧
    ¬ (Reconcile (sampleCluster csrA [machineB] { dnsNames := ["node-a"] }) "csr-a").outcome
      = .returned ({}, none) := by
  decide

/-- C9, amended: for a pending node request that passes the identity, group,
node and usage checks, when the Machine list is read and either the first
listed Machine bound to the Node has infrastructure that is not ready, or no
listed Machine is bound to the Node at all, `Reconcile` returns a retry-after
of five seconds, appends no condition and submits no approval. -/
theorem Reconcile_requeues_unresolved_machine
    (w : Cluster) (req : String) (csr : CertificateSigningRequest) (node : Node)
    (machines : List Machine)
    (hget : w.getCSR req = .ok csr)
    (hnodeid : hasPrefix csr.spec.username "system:node:" = true)
    (hpending : pending csr = true)
    (hname : (trimPrefix csr.spec.username "system:node:").length ≠ 0)
    (hgroups : hasAll csr.spec.groups ["system:nodes", "system:authenticated"] = true)
    (hnode : w.getNode (trimPrefix csr.spec.username "system:node:") = .ok node)
    (husages : ∀ usage ∈ csr.spec.usages, isUsageAllowed usage = true)
    (hlist : w.listMachines = .ok machines)
    (hcase :
      (∃ m, machines.find? (fun x => x.status.nodeRef.any
            (fun r => trimPrefix csr.spec.username "system:node:" == r.name)) = some m ∧
          m.status.infrastructureReady = false) ∨
      (∀ m ∈ machines, ∀ nodeRef, m.status.nodeRef = some nodeRef →
          nodeRef.name ≠ trimPrefix csr.spec.username "system:node:")) :
    (Reconcile w req).outcome = .returned ({ requeueAfter := 5 * second }, none) ∧
    5 * second = 5000000000 ∧
    (Reconcile w req).csr = some csr ∧
    submitsApproval (Reconcile w req) = false := by
  have hu : csr.spec.usages.find? (fun usage => !isUsageAllowed usage) = none := by
    simpa using husages
  have hm : ∃ err, getMachine w (trimPrefix csr.spec.username "system:node:") = .error err := by
    unfold getMachine
    rw [hlist]
    rcases hcase with ⟨m, hfirst, hready⟩ | hnone
    · exact ⟨_, getMachineLoop_not_ready _ _ m hfirst hready⟩
    · exact ⟨_, getMachineLoop_unmatched _ _ hnone⟩
  obtain ⟨err, herr⟩ := hm
  have hv : (validateCSR w csr).outcome =
      .returned (some (.wrapText (.requeueAfter (5 * second)) err)) := by
    simp only [validateCSR, hname, hgroups, hnode, hu, herr, ↓reduceIte, Bool.not_true,
      Bool.false_eq_true]
  have hr := Reconcile_of_rejected w req csr _ hget hnodeid hpending hv
  have hd : ∀ d : Nat, (asRequeueAfter (Cause (.wrapText (.requeueAfter d) err))).getD 0 = d :=
    fun _ => rfl
  refine ⟨?_, by simp [second], hr.1, hr.2.1⟩
  rw [hr.2.2.2, hd]

/-- Witness of the amended C9: the Machine of `node-a` is not ready yet. -/
theorem Reconcile_requeues_unresolved_machine_witness :
    (Reconcile (sampleCluster csrA [machineANotReady] { dnsNames := ["node-a"] })
      "csr-a").outcome = .returned ({ requeueAfter := 5 * second }, none) ∧
    5 * second = 5000000000 ∧
    (Reconcile (sampleCluster csrA [machineANotReady] { dnsNames := ["node-a"] })
      "csr-a").csr = some csrA ∧
    submitsApproval (Reconcile (sampleCluster csrA [machineANotReady]
      { dnsNames := ["node-a"] }) "csr-a") = false :=
  Reconcile_requeues_unresolved_machine
    (sampleCluster csrA [machineANotReady] { dnsNames := ["node-a"] }) "csr-a" csrA nodeA
    [machineANotReady] rfl (by decide) (by decide) (by decide) (by decide) rfl (by decide) rfl
    (Or.inl ⟨machineANotReady, by decide, by decide⟩)

/-- C10: for a pending node request on which every check passes, `Reconcile`
leaves the existing conditions in place, appends the one Approved condition
after them and submits that object to `UpdateApproval`, once. -/
theorem Reconcile_approves_valid_request
    (w : Cluster) (req : String) (csr : CertificateSigningRequest) (node : Node)
    (m : Machine) (nodeRef : ObjectReference) (block : List Nat) (cr : CertificateRequest)
    (hget : w.getCSR req = .ok csr)
    (hnodeid : hasPrefix csr.spec.username "system:node:" = true)
    (hpending : pending csr = true)
    (hname : (trimPrefix csr.spec.username "system:node:").length ≠ 0)
    (hgroups : hasAll csr.spec.groups ["system:nodes", "system:authenticated"] = true)
    (hnode : w.getNode (trimPrefix csr.spec.username "system:node:") = .ok node)
    (husages : ∀ usage ∈ csr.spec.usages, isUsageAllowed usage = true)
    (hmachine : getMachine w (trimPrefix csr.spec.username "system:node:") = .ok m)
    (href : m.status.nodeRef = some nodeRef)
    (hpem : w.pemDecode csr.spec.request = some block)
    (hparse : w.parseCertificateRequest block = .ok cr)
    (hdns : ∀ dns ∈ cr.dnsNames, dns ∈ allowedAddresses nodeRef m)
    (hips : ∀ ip ∈ cr.ipAddresses, w.ipString ip ∈ allowedAddresses nodeRef m)
    (hconfig : w.newForConfig = none)
    (hsar : w.createSubjectAccessReview (subjectAccessReview csr) = .ok true) :
    (validateCSR w csr).outcome = .returned none ∧
    (Reconcile w req).csr =
      some { csr with status := { conditions := csr.status.conditions ++ [approvedCondition] } } ∧
    approvedCondition.type = "Approved" ∧
    ((csr.status.conditions ++ [approvedCondition]).filter
      (fun c => c.type == CertificateApproved)).length = 1 ∧
    (Reconcile w req).calls.filter (fun c => match c with
      | .updateApproval _ => true
      | _ => false) = [Call.updateApproval (approve csr)] ∧
    submitsApproval (Reconcile w req) = true ∧
    (Reconcile w req).outcome = .returned ({}, w.updateApproval (approve csr)) := by
  have hu : csr.spec.usages.find? (fun usage => !isUsageAllowed usage) = none := by
    simpa using husages
  have hd : cr.dnsNames.find? (fun dns => !(allowedAddresses nodeRef m).contains dns) = none := by
    simpa using hdns
  have hi : cr.ipAddresses.find?
      (fun ip => !(allowedAddresses nodeRef m).contains (w.ipString ip)) = none := by
    simpa using hips
  have hv : (validateCSR w csr).outcome = .returned none := by
    simp only [validateCSR, hname, hgroups, hnode, hu, hmachine, href, hpem, hparse, hd, hi,
      hconfig, hsar, ↓reduceIte, Bool.not_true, Bool.false_eq_true]
  have hr := Reconcile_of_valid w req csr hget hnodeid hpending hv hconfig
  have hc := validateCSR_calls_not_approval w csr
  have hfilter : (validateCSR w csr).calls.filter (fun c => match c with
      | .updateApproval _ => true
      | _ => false) = [] := by
    rw [List.filter_eq_nil_iff]
    intro c hcmem
    have := (List.any_eq_false.mp hc) c hcmem
    simpa using this
  have hold : csr.status.conditions.filter (fun c => c.type == CertificateApproved) = [] := by
    rw [List.filter_eq_nil_iff]
    intro c hcmem
    have hp : csr.status.conditions.any
        (fun condition => condition.type == CertificateApproved
          || condition.type == CertificateDenied) = false := by
      simpa [pending] using hpending
    have := (List.any_eq_false.mp hp) c hcmem
    simp only [Bool.or_eq_true, not_or] at this
    exact this.1
  refine ⟨hv, hr.1, rfl, ?_, ?_, ?_, hr.2.2⟩
  · rw [List.filter_append, hold]
    decide
  · rw [hr.2.1, List.filter_append, List.filter_cons, hfilter]
    simp
  · unfold submitsApproval
    rw [hr.2.1]
    simp

/-- Witness of C10: `node-a` requests the DNS name `node-a` and the address
`10.0.0.1` its Machine records. -/
theorem Reconcile_approves_valid_request_witness :
    (Reconcile (sampleCluster csrA [machineA]
        { dnsNames := ["node-a"], ipAddresses := [[10, 0, 0, 1]] }) "csr-a").csr
      = some { csrA with status := { conditions := [approvedCondition] } } ∧
    submitsApproval (Reconcile (sampleCluster csrA [machineA]
        { dnsNames := ["node-a"], ipAddresses := [[10, 0, 0, 1]] }) "csr-a") = true :=
  have h := Reconcile_approves_valid_request
    (sampleCluster csrA [machineA] { dnsNames := ["node-a"], ipAddresses := [[10, 0, 0, 1]] })
    "csr-a" csrA nodeA machineA { kind := "Node", apiVersion := "v1", name := "node-a" }
    [45, 45, 45, 45, 45] { dnsNames := ["node-a"], ipAddresses := [[10, 0, 0, 1]] }
    rfl (by decide) (by decide) (by decide) (by decide) rfl (by decide) rfl rfl rfl rfl
    (by decide) (by decide) rfl rfl
  ⟨h.2.1, h.2.2.2.2.2.1⟩

end csrapprover
end MachineAPI

/-! ## Theorems: Machine controller, deletion path -/

namespace MachineAPI
namespace machine

/-- `isDeleteNodeAllowed` only lists the Machines of the namespace. -/
theorem isDeleteNodeAllowed_calls (w : Cluster) (m : Machine) :
    ∀ c ∈ (isDeleteNodeAllowed w m).calls, c = Call.listMachines m.ns := by
  have h : (isDeleteNodeAllowed w m).calls = [] ∨
      (isDeleteNodeAllowed w m).calls = [Call.listMachines m.ns] := by
    unfold isDeleteNodeAllowed
    simp only []
    repeat' (first | split | split_ifs)
    all_goals simp
  rcases h with h | h <;> simp [h]

/-- `drainNode` neither touches the infrastructure reference, nor deletes a
Node, nor updates the Machine. -/
theorem drainNode_calls (w : Cluster) (nodeName : String) :
    (drainNode w nodeName).calls.all
      (fun c => !c.isTeardown && !c.isDeleteNode && !c.isUpdate) = true := by
  unfold drainNode
  repeat' split
  all_goals rfl

/-- `reconcileDeleteExternal` starts by fetching the infrastructure reference
and makes teardown requests only. -/
theorem reconcileDeleteExternal_calls (w : Cluster) (m : Machine) :
    (reconcileDeleteExternal w m).calls.head? =
      some (Call.getUnstructured m.spec.infrastructureRef.apiVersion
        m.spec.infrastructureRef.kind m.ns m.spec.infrastructureRef.name) ∧
    (reconcileDeleteExternal w m).calls.all
      (fun c => c.isTeardown && !c.isCordon && !c.isDrain && !c.isDeleteNode && !c.isUpdate)
        = true := by
  unfold reconcileDeleteExternal externalGet
  simp only []
  constructor
  · repeat' (first | split | split_ifs)
    all_goals rfl
  · repeat' (first | split | split_ifs)
    all_goals rfl

/-- The poll around `deleteNode` only deletes the Node. -/
theorem pollDeleteNode_calls (w : Cluster) (name : String) (attempt ticks : Nat) :
    (pollDeleteNode w name attempt ticks).calls.all
      (fun c => c.isDeleteNode && !c.isTeardown && !c.isUpdate) = true := by
  induction ticks generalizing attempt with
  | zero =>
    unfold pollDeleteNode
    split <;> rfl
  | succ n ih =>
    unfold pollDeleteNode
    split
    · split
      · simp only [List.all_cons, ih, Bool.and_true]
        rfl
      · rfl
    · rfl

/-- Stamping the phase does not change what `reconcileDelete` does. -/
theorem reconcileDelete_stampTerminating (w : Cluster) (m : Machine) :
    reconcileDelete w (stampTerminating m) = reconcileDelete w m := rfl

/-- Stamping the phase of a Machine that is already `Terminating` changes
nothing. -/
theorem stampTerminating_of_phase (m : Machine) (h : m.status.phase = MachineTerminating) :
    stampTerminating m = m := by
  cases m with
  | mk name ns labels deletionTimestamp finalizers spec status apiVersion =>
    cases status
    simp only [stampTerminating] at *
    simp_all

/-- Control flow of `reconcileDelete` on a Machine with a bound Node: it stops
at a failed eligibility check, or at a failed drain, or it reaches the
teardown of the infrastructure reference; the Node is deleted only after a
teardown that returned nil, and only when deletion is allowed. -/
theorem reconcileDelete_bound (w : Cluster) (m : Machine) (nodeRef : ObjectReference)
    (href : m.status.nodeRef = some nodeRef) :
    (∃ err, (isDeleteNodeAllowed w m).value = some err ∧
        ¬ (err = errNoControlPlaneNodes ∨ err = errLastControlPlaneNode ∨ err = errNilNodeRef) ∧
        reconcileDelete w m = ⟨(isDeleteNodeAllowed w m).calls, .returned ({}, some
          (.wrapf err "failed to check if Kubernetes Node deletion is allowed" []))⟩) ∨
    (∃ err, (isDeleteNodeAllowed w m).value = none ∧
        (drainNode w nodeRef.name).value = some err ∧
        reconcileDelete w m =
          ⟨(isDeleteNodeAllowed w m).calls ++ (drainNode w nodeRef.name).calls,
            .returned ({}, some err)⟩) ∨
    (∃ pre post,
        (((isDeleteNodeAllowed w m).value = none ∧
            pre = (isDeleteNodeAllowed w m).calls ++ (drainNode w nodeRef.name).calls ∧
            post = (pollDeleteNode w nodeRef.name 0 w.pollTicks).calls) ∨
          ((isDeleteNodeAllowed w m).value ≠ none ∧
            pre = (isDeleteNodeAllowed w m).calls ∧ post = [])) ∧
        (((reconcileDeleteExternal w m).value = .panicked ∧
            reconcileDelete w m = ⟨pre ++ (reconcileDeleteExternal w m).calls, .panicked⟩) ∨
          (∃ err, (reconcileDeleteExternal w m).value = .returned (some err) ∧
            reconcileDelete w m =
              ⟨pre ++ (reconcileDeleteExternal w m).calls, .returned ({}, some err)⟩) ∨
          ((reconcileDeleteExternal w m).value = .returned none ∧
            reconcileDelete w m =
              ⟨pre ++ (reconcileDeleteExternal w m).calls ++ post, .returned ({}, none)⟩))) := by
  unfold reconcileDelete
  simp only [href]
  cases hc : (isDeleteNodeAllowed w m).value with
  | some err =>
    by_cases hs : err = errNoControlPlaneNodes ∨ err = errLastControlPlaneNode ∨ err = errNilNodeRef
    · right; right
      refine ⟨_, [], Or.inr ⟨by simp, rfl, rfl⟩, ?_⟩
      simp only [hs, if_true, Option.isNone_some, Bool.false_eq_true, if_false]
      cases he : (reconcileDeleteExternal w m).value with
      | panicked => simp
      | returned e => cases e <;> simp
    · left
      exact ⟨err, rfl, hs, by simp [hs]⟩
  | none =>
    simp only [Option.isNone_none, if_true]
    cases hd : (drainNode w nodeRef.name).value with
    | some err =>
      right; left
      exact ⟨err, trivial, rfl, rfl⟩
    | none =>
      right; right
      refine ⟨_, _, Or.inl ⟨trivial, rfl, rfl⟩, ?_⟩
      cases he : (reconcileDeleteExternal w m).value with
      | panicked => simp
      | returned e => cases e <;> simp

/-- Control flow of the deletion branch of `Reconcile`: the phase stamp, then
`reconcileDelete`, then the removal of the finalizer and the update, each step
reached only when the one before returned no error. -/
theorem ReconcileDeletion_flow (w : Cluster) (m : Machine)
    (hdel : isZero m.deletionTimestamp = false) :
    ∃ r, ReconcileDeletion w m = some r ∧
      ((∃ err, m.status.phase ≠ MachineTerminating ∧
          w.statusUpdate (stampTerminating m) = some err ∧
          r = ⟨[.statusUpdate (stampTerminating m)], stampTerminating m,
            .returned ({}, some err)⟩) ∨
        (∃ c0, (m.status.phase = MachineTerminating ∨
              w.statusUpdate (stampTerminating m) = none) ∧
            c0.all (fun c => !c.isTeardown && !c.isDeleteNode && !c.isUpdate && !c.isCordon
              && !c.isDrain) = true ∧
            (((reconcileDelete w m).value = .panicked ∧
                r = ⟨c0 ++ (reconcileDelete w m).calls, stampTerminating m, .panicked⟩) ∨
              (∃ res err, (reconcileDelete w m).value = .returned (res, some err) ∧
                r = ⟨c0 ++ (reconcileDelete w m).calls, stampTerminating m,
                  .returned (res, some err)⟩) ∨
              (∃ res, (reconcileDelete w m).value = .returned (res, none) ∧
                r = ⟨c0 ++ (reconcileDelete w m).calls ++
                      [.update (RemoveFinalizer (stampTerminating m) MachineFinalizer)],
                    RemoveFinalizer (stampTerminating m) MachineFinalizer,
                    .returned ({}, w.update
                      (RemoveFinalizer (stampTerminating m) MachineFinalizer))⟩)))) := by
  unfold ReconcileDeletion
  simp only [hdel, Bool.not_false, if_true]
  by_cases hp : m.status.phase = MachineTerminating
  · have hs := stampTerminating_of_phase m hp
    have hb : (m.status.phase != MachineTerminating) = false := by simp [hp]
    simp only [hb, Bool.false_eq_true, if_false]
    rw [hs]
    cases hd : (reconcileDelete w m).value with
    | panicked =>
      exact ⟨_, rfl, Or.inr ⟨[], Or.inl hp, rfl, Or.inl ⟨rfl, by simp⟩⟩⟩
    | returned p =>
      obtain ⟨res, e⟩ := p
      cases e with
      | some err =>
        exact ⟨_, rfl, Or.inr ⟨[], Or.inl hp, rfl, Or.inr (Or.inl ⟨res, err, rfl, by simp⟩)⟩⟩
      | none =>
        cases hu : w.update (RemoveFinalizer m MachineFinalizer) with
        | none =>
          exact ⟨_, rfl, Or.inr ⟨[], Or.inl hp, rfl, Or.inr (Or.inr ⟨res, rfl, by simp⟩)⟩⟩
        | some err =>
          exact ⟨_, rfl, Or.inr ⟨[], Or.inl hp, rfl, Or.inr (Or.inr ⟨res, rfl, by simp⟩)⟩⟩
  · have hb : (m.status.phase != MachineTerminating) = true := by simp [hp]
    simp only [hb, if_true]
    cases hsu : w.statusUpdate (stampTerminating m) with
    | some err =>
      exact ⟨_, rfl, Or.inl ⟨err, hp, rfl, rfl⟩⟩
    | none =>
      simp only [reconcileDelete_stampTerminating]
      cases hd : (reconcileDelete w m).value with
      | panicked =>
        exact ⟨_, rfl, Or.inr ⟨[.statusUpdate (stampTerminating m)], Or.inr trivial, rfl,
          Or.inl ⟨rfl, rfl⟩⟩⟩
      | returned p =>
        obtain ⟨res, e⟩ := p
        cases e with
        | some err =>
          exact ⟨_, rfl, Or.inr ⟨[.statusUpdate (stampTerminating m)], Or.inr trivial, rfl,
            Or.inr (Or.inl ⟨res, err, rfl, rfl⟩)⟩⟩
        | none =>
          cases hu : w.update (RemoveFinalizer (stampTerminating m) MachineFinalizer) with
          | none =>
            exact ⟨_, rfl, Or.inr ⟨[.statusUpdate (stampTerminating m)], Or.inr trivial, rfl,
              Or.inr (Or.inr ⟨res, rfl, rfl⟩)⟩⟩
          | some err =>
            exact ⟨_, rfl, Or.inr ⟨[.statusUpdate (stampTerminating m)], Or.inr trivial, rfl,
              Or.inr (Or.inr ⟨res, rfl, rfl⟩)⟩⟩

/-- C4: when the Machines of the namespace are listed, `isDeleteNodeAllowed`
returns nil exactly when the NodeRef is set and it is not the case that the
Machine carries the control-plane label while exactly one listed Machine
carries it; so it returns nil with two or more labelled Machines, and with
none. -/
theorem isDeleteNodeAllowed_iff (w : Cluster) (m : Machine) (items : List Machine)
    (hlist : w.listMachines m.ns = .ok items) :
    ((isDeleteNodeAllowed w m).value = none ↔
      m.status.nodeRef ≠ none ∧
        ¬ (isControlPlaneMachine m = true ∧
          (items.filter isControlPlaneMachine).length = 1)) ∧
    (m.status.nodeRef ≠ none → 2 ≤ (items.filter isControlPlaneMachine).length →
      (isDeleteNodeAllowed w m).value = none) ∧
    (m.status.nodeRef ≠ none → (items.filter isControlPlaneMachine).length = 0 →
      (isDeleteNodeAllowed w m).value = none) := by
  have hiff : (isDeleteNodeAllowed w m).value = none ↔
      m.status.nodeRef ≠ none ∧
        ¬ (isControlPlaneMachine m = true ∧
          (items.filter isControlPlaneMachine).length = 1) := by
    unfold isDeleteNodeAllowed
    cases href : m.status.nodeRef with
    | none => simp [errNilNodeRef]
    | some nodeRef =>
      simp only [hlist]
      by_cases h : (items.filter isControlPlaneMachine).length = 1 ∧
          isControlPlaneMachine m = true
      · simp [h, errLastControlPlaneNode]
      · have h2 : ¬ (isControlPlaneMachine m = true ∧
            (items.filter isControlPlaneMachine).length = 1) := fun ⟨a, b⟩ => h ⟨b, a⟩
        simp [h, h2]
  refine ⟨hiff, ?_, ?_⟩
  · intro href h2
    exact hiff.mpr ⟨href, fun ⟨_, h1⟩ => by omega⟩
  · intro href h0
    exact hiff.mpr ⟨href, fun ⟨_, h1⟩ => by omega⟩

/-- Witness of C4: with two control-plane Machines in the namespace, the Node
of one of them may be deleted. -/
theorem isDeleteNodeAllowed_iff_witness :
    (isDeleteNodeAllowed (sampleCluster [controlPlane0, controlPlane1, worker0])
      controlPlane0).value = none :=
  ((isDeleteNodeAllowed_iff (sampleCluster [controlPlane0, controlPlane1, worker0])
    controlPlane0 [controlPlane0, controlPlane1, worker0] rfl).2.1)
    (by decide) (by decide)

/-- On the last control-plane Machine `isDeleteNodeAllowed` returns
`errLastControlPlaneNode` after listing the namespace. -/
theorem isDeleteNodeAllowed_last (w : Cluster) (m : Machine) (nodeRef : ObjectReference)
    (items : List Machine)
    (href : m.status.nodeRef = some nodeRef)
    (hcp : isControlPlaneMachine m = true)
    (hlist : w.listMachines m.ns = .ok items)
    (hone : (items.filter isControlPlaneMachine).length = 1) :
    isDeleteNodeAllowed w m = ⟨[.listMachines m.ns], some errLastControlPlaneNode⟩ := by
  unfold isDeleteNodeAllowed
  simp [href, hlist, hcp, hone]

/-- The fetch of the infrastructure reference is among the requests of
`reconcileDeleteExternal`. -/
theorem reconcileDeleteExternal_fetches (w : Cluster) (m : Machine) :
    Call.getUnstructured m.spec.infrastructureRef.apiVersion
      m.spec.infrastructureRef.kind m.ns m.spec.infrastructureRef.name
      ∈ (reconcileDeleteExternal w m).calls :=
  List.mem_of_mem_head? (reconcileDeleteExternal_calls w m).1

/-- Unless the fetch fails with an error other than not-found,
`reconcileDeleteExternal` asks the store to delete what it fetched, right
after the fetch, and it returns nil when the store accepts the delete of the
fetched object. -/
theorem reconcileDeleteExternal_deletes (w : Cluster) (m : Machine) :
    (∀ obj, w.getUnstructured m.spec.infrastructureRef.apiVersion
        m.spec.infrastructureRef.kind m.ns m.spec.infrastructureRef.name = .ok obj →
      (reconcileDeleteExternal w m).calls =
        [.getUnstructured m.spec.infrastructureRef.apiVersion m.spec.infrastructureRef.kind
            m.ns m.spec.infrastructureRef.name,
          .deleteUnstructured (some obj)] ∧
      (w.deleteUnstructured (some obj) = .returned none →
        (reconcileDeleteExternal w m).value = .returned none)) ∧
    (∀ err, w.getUnstructured m.spec.infrastructureRef.apiVersion
        m.spec.infrastructureRef.kind m.ns m.spec.infrastructureRef.name = .error err →
      IsNotFound (Cause err) = true →
      (reconcileDeleteExternal w m).calls =
        [.getUnstructured m.spec.infrastructureRef.apiVersion m.spec.infrastructureRef.kind
            m.ns m.spec.infrastructureRef.name,
          .deleteUnstructured none]) := by
  constructor
  · intro obj hget
    unfold reconcileDeleteExternal externalGet
    simp only [hget]
    constructor
    · repeat' (first | split | split_ifs)
      all_goals rfl
    · intro hdelete
      simp only [hdelete]
  · intro err hget hnf
    have hc : IsNotFound (Cause (Error.wrapf err "failed to retrieve %s external object %q/%q"
        [m.spec.infrastructureRef.kind, m.ns, m.spec.infrastructureRef.name])) = true := hnf
    unfold reconcileDeleteExternal externalGet
    simp only [hget, hc, Bool.not_true, Bool.false_eq_true, if_false]
    repeat' (first | split | split_ifs)
    all_goals rfl

/-- Removing the finalizer leaves no occurrence of it. -/
theorem RemoveFinalizer_not_mem (m : Machine) (finalizer : String) :
    finalizer ∉ (RemoveFinalizer m finalizer).finalizers := by
  simp [RemoveFinalizer]

/-- C3 as stated fails: `cp-0` is deleting, bound to a Node, labelled and the
only labelled Machine of its namespace.  In a cluster that refuses
`r.Status().Update`, the deletion branch of `Reconcile` returns that error
after the status update alone; in a cluster whose listing of Machines fails,
it returns the wrapped listing error after the status update and the listing.
Neither run fetches or deletes the infrastructure reference, and the finalizer
stays. -/
theorem ReconcileDeletion_early_return_skips_teardown :
    isZero controlPlane0.deletionTimestamp = false ∧
    controlPlane0.status.nodeRef.isSome = true ∧
    isControlPlaneMachine controlPlane0 = true ∧
    (([controlPlane0, worker0].filter (fun m => m.ns == controlPlane0.ns)).filter
      isControlPlaneMachine) = [controlPlane0] ∧
    ReconcileDeletion (stampFailsCluster [controlPlane0, worker0]) controlPlane0 =
      some ⟨[.statusUpdate (stampTerminating controlPlane0)], stampTerminating controlPlane0,
        .returned ({}, some (.status "Conflict" "the object has been modified"))⟩ ∧
    ReconcileDeletion (listFailsCluster [controlPlane0, worker0]) controlPlane0 =
      some ⟨[.statusUpdate (stampTerminating controlPlane0), .listMachines "default"],
        stampTerminating controlPlane0,
        .returned ({}, some (.wrapf (.status "InternalError" "etcd unavailable")
          "failed to check if Kubernetes Node deletion is allowed" []))⟩ ∧
    MachineFinalizer ∈ (stampTerminating controlPlane0).finalizers :=
  ⟨by decide, by decide, by decide, by decide, by decide, by decide, by decide⟩

/-- C3, amended: for a deleting Machine with a bound NodeRef that carries the
control-plane label and is the only Machine carrying it among those the
listing of its namespace returns, the deletion branch of `Reconcile` issues no
cordon, no drain and no Node delete; once the phase `Terminating` is recorded
(the status update accepted, or the phase already `Terminating`) it attempts
the teardown of the infrastructure reference: it fetches the reference and
asks the store to delete the object it fetched (the nil object after a
not-found fetch), making no other teardown request; the teardown returns nil
when the store accepts the delete, and when the teardown returns nil the
finalizer is removed and the update submitted. -/
theorem ReconcileDeletion_spares_last_control_plane (w : Cluster) (m : Machine)
    (nodeRef : ObjectReference) (items : List Machine)
    (hdel : isZero m.deletionTimestamp = false)
    (href : m.status.nodeRef = some nodeRef)
    (hcp : isControlPlaneMachine m = true)
    (hlist : w.listMachines m.ns = .ok items)
    (hone : (items.filter isControlPlaneMachine).length = 1) :
    ∃ r, ReconcileDeletion w m = some r ∧
      r.calls.all (fun c => !c.isCordon && !c.isDrain && !c.isDeleteNode) = true ∧
      ((m.status.phase = MachineTerminating ∨ w.statusUpdate (stampTerminating m) = none) →
        Call.getUnstructured m.spec.infrastructureRef.apiVersion
          m.spec.infrastructureRef.kind m.ns m.spec.infrastructureRef.name ∈ r.calls ∧
        (∀ obj, w.getUnstructured m.spec.infrastructureRef.apiVersion
            m.spec.infrastructureRef.kind m.ns m.spec.infrastructureRef.name = .ok obj →
          Call.deleteUnstructured (some obj) ∈ r.calls ∧
          r.calls.filter Call.isTeardown =
            [.getUnstructured m.spec.infrastructureRef.apiVersion
                m.spec.infrastructureRef.kind m.ns m.spec.infrastructureRef.name,
              .deleteUnstructured (some obj)] ∧
          (w.deleteUnstructured (some obj) = .returned none →
            (reconcileDeleteExternal w m).value = .returned none)) ∧
        (∀ err, w.getUnstructured m.spec.infrastructureRef.apiVersion
            m.spec.infrastructureRef.kind m.ns m.spec.infrastructureRef.name = .error err →
          IsNotFound (Cause err) = true →
          Call.deleteUnstructured none ∈ r.calls) ∧
        ((reconcileDeleteExternal w m).value = .returned none →
          r.machine = RemoveFinalizer (stampTerminating m) MachineFinalizer ∧
          MachineFinalizer ∉ r.machine.finalizers ∧
          r.calls.getLast? = some (Call.update r.machine) ∧
          r.outcome = .returned ({}, w.update r.machine))) := by
  have hchk := isDeleteNodeAllowed_last w m nodeRef items href hcp hlist hone
  have hext := reconcileDeleteExternal_calls w m
  have hfetch := reconcileDeleteExternal_fetches w m
  have hextq : ∀ c ∈ (reconcileDeleteExternal w m).calls,
      c.isCordon = false ∧ c.isDrain = false ∧ c.isDeleteNode = false := by
    intro c hc
    have := (List.all_eq_true.mp hext.2) c hc
    simp only [Bool.and_eq_true, Bool.not_eq_true'] at this
    exact ⟨this.1.1.1.2, this.1.1.2, this.1.2⟩
  -- what reconcileDelete does here
  have hd : (reconcileDelete w m).calls =
        Call.listMachines m.ns :: (reconcileDeleteExternal w m).calls ∧
      (reconcileDelete w m).value =
        (match (reconcileDeleteExternal w m).value with
          | .panicked => .panicked
          | .returned e => .returned ({}, e)) := by
    rcases reconcileDelete_bound w m nodeRef href with ⟨err, h1, hns, _⟩ | ⟨err, h1, _⟩ | h
    · rw [hchk] at h1
      simp only [Option.some.injEq] at h1
      exact absurd (Or.inr (Or.inl h1.symm)) hns
    · rw [hchk] at h1
      exact absurd h1 (by simp)
    · obtain ⟨pre, post, hpre, hrest⟩ := h
      rcases hpre with ⟨h1, _, _⟩ | ⟨_, hp, hq⟩
      · rw [hchk] at h1
        exact absurd h1 (by simp)
      · subst hp hq
        rw [hchk] at hrest
        rcases hrest with ⟨he, h⟩ | ⟨err, he, h⟩ | ⟨he, h⟩ <;> rw [h, he] <;> simp
  obtain ⟨r, hr, hflow⟩ := ReconcileDeletion_flow w m hdel
  refine ⟨r, hr, ?_, ?_⟩
  · rcases hflow with ⟨err, _, _, rfl⟩ | ⟨c0, _, hc0, h⟩
    · rfl
    · have hc0q : ∀ c ∈ c0, c.isCordon = false ∧ c.isDrain = false ∧ c.isDeleteNode = false := by
        intro c hc
        have := (List.all_eq_true.mp hc0) c hc
        simp only [Bool.and_eq_true, Bool.not_eq_true'] at this
        exact ⟨this.1.2, this.2, this.1.1.1.2⟩
      rw [List.all_eq_true]
      intro c hc
      have key : c ∈ c0 ∨ c = Call.listMachines m.ns ∨ c ∈ (reconcileDeleteExternal w m).calls
          ∨ c.isUpdate = true := by
        rcases h with ⟨_, rfl⟩ | ⟨res, err, _, rfl⟩ | ⟨res, _, rfl⟩
        all_goals
          simp only [hd.1, List.mem_append, List.mem_cons, List.mem_singleton,
            List.not_mem_nil, or_false] at hc
        · tauto
        · tauto
        · rcases hc with (h | h | h) | h
          · exact Or.inl h
          · exact Or.inr (Or.inl h)
          · exact Or.inr (Or.inr (Or.inl h))
          · subst h
            exact Or.inr (Or.inr (Or.inr rfl))
      rcases key with h | h | h | h
      · obtain ⟨a, b, d⟩ := hc0q c h
        simp [a, b, d]
      · subst h
        rfl
      · obtain ⟨a, b, d⟩ := hextq c h
        simp [a, b, d]
      · cases c <;> simp_all [Call.isUpdate, Call.isCordon, Call.isDrain, Call.isDeleteNode]
  · intro hstamp
    rcases hflow with ⟨err, hne, hsu, _⟩ | ⟨c0, _, hc0, h⟩
    · rcases hstamp with h | h
      · exact absurd h hne
      · rw [h] at hsu
        exact absurd hsu (by simp)
    · have hdeletes := reconcileDeleteExternal_deletes w m
      have hsub : ∀ c ∈ (reconcileDeleteExternal w m).calls, c ∈ r.calls := by
        intro c hc
        rcases h with ⟨_, rfl⟩ | ⟨res, err, _, rfl⟩ | ⟨res, _, rfl⟩
        all_goals
          simp only [hd.1, List.mem_append, List.mem_cons]
        · exact Or.inr (Or.inr hc)
        · exact Or.inr (Or.inr hc)
        · exact Or.inl (Or.inr (Or.inr hc))
      have hc0t : c0.filter Call.isTeardown = [] := by
        rw [List.filter_eq_nil_iff]
        intro c hc
        have := (List.all_eq_true.mp hc0) c hc
        simp only [Bool.and_eq_true, Bool.not_eq_true'] at this
        simp [this.1.1.1.1]
      have hextt : (reconcileDeleteExternal w m).calls.filter Call.isTeardown =
          (reconcileDeleteExternal w m).calls := by
        rw [List.filter_eq_self]
        intro c hc
        have := (List.all_eq_true.mp hext.2) c hc
        simp only [Bool.and_eq_true, Bool.not_eq_true'] at this
        exact this.1.1.1.1
      have hteardown : r.calls.filter Call.isTeardown = (reconcileDeleteExternal w m).calls := by
        rcases h with ⟨_, rfl⟩ | ⟨res, err, _, rfl⟩ | ⟨res, _, rfl⟩
        all_goals
          simp only [hd.1, List.filter_append, List.filter_cons, hc0t, hextt, List.nil_append]
        · rfl
        · rfl
        · simp [Call.isTeardown]
      refine ⟨hsub _ hfetch, ?_, ?_, ?_⟩
      · intro obj hget
        obtain ⟨hcalls, hvalue⟩ := hdeletes.1 obj hget
        refine ⟨hsub _ (by rw [hcalls]; simp), ?_, hvalue⟩
        rw [hteardown, hcalls]
      · intro err hget hnf
        exact hsub _ (by rw [hdeletes.2 err hget hnf]; simp)
      · intro hnil
        have hv : (reconcileDelete w m).value = .returned ({}, none) := by
          rw [hd.2, hnil]
        rcases h with ⟨hp, _⟩ | ⟨res, err, hp, _⟩ | ⟨res, _, rfl⟩
        · rw [hv] at hp
          exact absurd hp (by simp)
        · rw [hv] at hp
          simp at hp
        · exact ⟨rfl, RemoveFinalizer_not_mem _ _, by simp, rfl⟩

/-- Witness of the amended C3: `cp-0` is the only control-plane Machine next
to a worker in a cluster that accepts every request;
its Node is left alone, its infrastructure object is fetched and deleted, and
the finalizer is removed. -/
theorem ReconcileDeletion_spares_last_control_plane_witness :
    ∃ r, ReconcileDeletion (sampleCluster [controlPlane0, worker0]) controlPlane0 = some r ∧
      r.calls.all (fun c => !c.isCordon && !c.isDrain && !c.isDeleteNode) = true ∧
      Call.deleteUnstructured (some (infraOf controlPlane0)) ∈ r.calls ∧
      MachineFinalizer ∉ r.machine.finalizers :=
  have h := ReconcileDeletion_spares_last_control_plane (sampleCluster [controlPlane0, worker0])
    controlPlane0 { kind := "Node", apiVersion := "v1", name := "node-cp-0" }
    [controlPlane0, worker0] (by decide) rfl (by decide) rfl (by decide)
  h.elim (fun r hr =>
    ⟨r, hr.1, hr.2.1,
      ((hr.2.2 (Or.inr rfl)).2.1 _ rfl).1,
      ((hr.2.2 (Or.inr rfl)).2.2.2 rfl).2.1⟩)

/-- On a Machine without NodeRef `reconcileDelete` returns at once. -/
theorem reconcileDelete_unbound (w : Cluster) (m : Machine)
    (href : m.status.nodeRef = none) :
    reconcileDelete w m = ⟨[], .returned ({}, none)⟩ := by
  unfold reconcileDelete
  simp only [href]

/-- C5 as stated fails: the deleting Machine `u-0` has no NodeRef, and the
deletion branch of `Reconcile` stamps the phase and removes the finalizer
without any request to fetch or delete the infrastructure reference. -/
theorem ReconcileDeletion_unbound_skips_teardown :
    unbound0.status.nodeRef = none ∧
    isZero unbound0.deletionTimestamp = false ∧
    (ReconcileDeletion (sampleCluster [controlPlane0, unbound0]) unbound0).map
        (fun r => r.calls) =
      some [Call.statusUpdate (stampTerminating unbound0),
        Call.update (RemoveFinalizer (stampTerminating unbound0) MachineFinalizer)] ∧
    (ReconcileDeletion (sampleCluster [controlPlane0, unbound0]) unbound0).map
        (fun r => r.calls.any Call.isTeardown) = some false ∧
    (ReconcileDeletion (sampleCluster [controlPlane0, unbound0]) unbound0).map
        (fun r => r.machine.finalizers) = some [] := by
  decide

/-- C5, amended: for a deleting Machine with no NodeRef the deletion branch of
`Reconcile` issues no cordon, no drain, no Node delete and no fetch or delete
of the infrastructure reference; once the phase is stamped it removes the
finalizer and submits the update. -/
theorem ReconcileDeletion_unbound (w : Cluster) (m : Machine)
    (hdel : isZero m.deletionTimestamp = false)
    (href : m.status.nodeRef = none) :
    ∃ r, ReconcileDeletion w m = some r ∧
      r.calls.all
        (fun c => !c.isCordon && !c.isDrain && !c.isDeleteNode && !c.isTeardown) = true ∧
      ((m.status.phase = MachineTerminating ∨ w.statusUpdate (stampTerminating m) = none) →
        r.machine = RemoveFinalizer (stampTerminating m) MachineFinalizer ∧
        MachineFinalizer ∉ r.machine.finalizers ∧
        r.calls.getLast? = some (Call.update r.machine) ∧
        r.outcome = .returned ({}, w.update r.machine)) := by
  have hd := reconcileDelete_unbound w m href
  obtain ⟨r, hr, hflow⟩ := ReconcileDeletion_flow w m hdel
  refine ⟨r, hr, ?_, ?_⟩
  · rcases hflow with ⟨err, _, _, rfl⟩ | ⟨c0, _, hc0, h⟩
    · rfl
    · have hc0q : c0.all
          (fun c => !c.isCordon && !c.isDrain && !c.isDeleteNode && !c.isTeardown) = true := by
        rw [List.all_eq_true] at hc0 ⊢
        intro c hc
        have := hc0 c hc
        simp only [Bool.and_eq_true, Bool.not_eq_true'] at this ⊢
        tauto
      rcases h with ⟨_, rfl⟩ | ⟨res, err, _, rfl⟩ | ⟨res, _, rfl⟩
      · simpa [hd] using hc0q
      · simpa [hd] using hc0q
      · simp only [hd, List.append_nil, List.all_append, hc0q, Bool.true_and]
        rfl
  · intro hstamp
    rcases hflow with ⟨err, hne, hsu, _⟩ | ⟨c0, _, hc0, h⟩
    · rcases hstamp with h | h
      · exact absurd h hne
      · rw [h] at hsu
        exact absurd hsu (by simp)
    · rcases h with ⟨hp, _⟩ | ⟨res, err, hp, _⟩ | ⟨res, _, rfl⟩
      · rw [hd] at hp
        exact absurd hp (by simp)
      · rw [hd] at hp
        simp at hp
      · exact ⟨rfl, RemoveFinalizer_not_mem _ _, by simp, rfl⟩

/-- Witness of the amended C5: the unbound Machine `u-0`. -/
theorem ReconcileDeletion_unbound_witness :
    ∃ r, ReconcileDeletion (sampleCluster [controlPlane0, unbound0]) unbound0 = some r ∧
      r.calls.all
        (fun c => !c.isCordon && !c.isDrain && !c.isDeleteNode && !c.isTeardown) = true ∧
      ((unbound0.status.phase = MachineTerminating ∨
          (sampleCluster [controlPlane0, unbound0]).statusUpdate
            (stampTerminating unbound0) = none) →
        r.machine = RemoveFinalizer (stampTerminating unbound0) MachineFinalizer ∧
        MachineFinalizer ∉ r.machine.finalizers ∧
        r.calls.getLast? = some (Call.update r.machine) ∧
        r.outcome = .returned ({},
          (sampleCluster [controlPlane0, unbound0]).update r.machine)) :=
  ReconcileDeletion_unbound (sampleCluster [controlPlane0, unbound0]) unbound0
    (by decide) rfl

/-- An error returned by `reconcileDeleteExternal` wraps a cause that is not a
not-found error: the cause of the failed fetch, or the error of the failed
delete. -/
theorem reconcileDeleteExternal_error (w : Cluster) (m : Machine) (err : Error)
    (h : (reconcileDeleteExternal w m).value = .returned (some err)) :
    ∃ cause format args, err = .wrapf cause format args ∧
      (IsNotFound (Cause cause) = false ∨ IsNotFound cause = false) := by
  unfold reconcileDeleteExternal externalGet at h
  simp only [] at h
  split at h
  · rename_i e1 hf
    simp only [Outcome.returned.injEq, Option.some.injEq] at h
    subst h
    refine ⟨e1, _, _, rfl, Or.inl ?_⟩
    split at hf
    · split at hf
      · rename_i hnf
        simp only [Option.some.injEq] at hf
        subst hf
        simpa using hnf
      · simp at hf
    · simp at hf
  · split at h
    · simp at h
    · simp at h
    · split at h
      · simp at h
      · rename_i e2 _ hnf
        split at h
        · simp at h
        · simp only [Outcome.returned.injEq, Option.some.injEq] at h
          subst h
          exact ⟨e2, _, _, rfl, Or.inr (by simpa using hnf)⟩

/-- The deletion branch on a Machine with a bound Node, seen from the teardown
of the infrastructure reference: the run stops before the teardown, or stops
at a teardown that did not return nil, or goes past a teardown that returned
nil and then removes the finalizer. -/
theorem ReconcileDeletion_around_teardown (w : Cluster) (m : Machine)
    (nodeRef : ObjectReference)
    (hdel : isZero m.deletionTimestamp = false)
    (href : m.status.nodeRef = some nodeRef) :
    ∃ r, ReconcileDeletion w m = some r ∧
      ((r.calls.all (fun c => !c.isTeardown && !c.isDeleteNode && !c.isUpdate) = true ∧
          r.machine = stampTerminating m) ∨
        (∃ pre, pre.all (fun c => !c.isTeardown && !c.isDeleteNode && !c.isUpdate) = true ∧
          r.calls = pre ++ (reconcileDeleteExternal w m).calls ∧
          r.machine = stampTerminating m ∧
          (((reconcileDeleteExternal w m).value = .panicked ∧ r.outcome = .panicked) ∨
            ∃ err, (reconcileDeleteExternal w m).value = .returned (some err) ∧
              r.outcome = .returned ({}, some err))) ∨
        (∃ pre post,
          pre.all (fun c => !c.isTeardown && !c.isDeleteNode && !c.isUpdate) = true ∧
          r.calls = pre ++ (reconcileDeleteExternal w m).calls ++ post ∧
          (reconcileDeleteExternal w m).value = .returned none ∧
          r.machine = RemoveFinalizer (stampTerminating m) MachineFinalizer)) := by
  have hchk : (isDeleteNodeAllowed w m).calls.all
      (fun c => !c.isTeardown && !c.isDeleteNode && !c.isUpdate) = true := by
    rw [List.all_eq_true]
    intro c hc
    rw [isDeleteNodeAllowed_calls w m c hc]
    rfl
  have hdrain := drainNode_calls w nodeRef.name
  obtain ⟨r, hr, hflow⟩ := ReconcileDeletion_flow w m hdel
  refine ⟨r, hr, ?_⟩
  rcases hflow with ⟨err, _, _, rfl⟩ | ⟨c0, _, hc0, h⟩
  · exact Or.inl ⟨rfl, rfl⟩
  · have hc0q : c0.all (fun c => !c.isTeardown && !c.isDeleteNode && !c.isUpdate) = true := by
      rw [List.all_eq_true] at hc0 ⊢
      intro c hc
      have := hc0 c hc
      simp only [Bool.and_eq_true, Bool.not_eq_true'] at this ⊢
      tauto
    rcases reconcileDelete_bound w m nodeRef href with
      ⟨err, _, _, hd⟩ | ⟨err, _, _, hd⟩ | ⟨pre, post, hpre, hrest⟩
    · rw [hd] at h
      rcases h with ⟨hp, _⟩ | ⟨res, e, _, rfl⟩ | ⟨res, hp, _⟩
      · simp at hp
      · exact Or.inl ⟨by simp [List.all_append, hc0q, hchk], rfl⟩
      · simp at hp
    · rw [hd] at h
      rcases h with ⟨hp, _⟩ | ⟨res, e, _, rfl⟩ | ⟨res, hp, _⟩
      · simp at hp
      · exact Or.inl ⟨by simp [List.all_append, hc0q, hchk, hdrain], rfl⟩
      · simp at hp
    · have hpreq : pre.all
          (fun c => !c.isTeardown && !c.isDeleteNode && !c.isUpdate) = true := by
        rcases hpre with ⟨_, rfl, _⟩ | ⟨_, rfl, _⟩
        · simp [List.all_append, hchk, hdrain]
        · exact hchk
      have hall : (c0 ++ pre).all
          (fun c => !c.isTeardown && !c.isDeleteNode && !c.isUpdate) = true := by
        simp [List.all_append, hc0q, hpreq]
      rcases hrest with ⟨he, hd⟩ | ⟨err, he, hd⟩ | ⟨he, hd⟩
      · rw [hd] at h
        rcases h with ⟨_, rfl⟩ | ⟨res, e, hp, _⟩ | ⟨res, hp, _⟩
        · exact Or.inr (Or.inl ⟨c0 ++ pre, hall, by simp, rfl, Or.inl ⟨he, rfl⟩⟩)
        · simp at hp
        · simp at hp
      · rw [hd] at h
        rcases h with ⟨hp, _⟩ | ⟨res, e, hp, rfl⟩ | ⟨res, hp, _⟩
        · simp at hp
        · simp only [Outcome.returned.injEq, Prod.mk.injEq, Option.some.injEq] at hp
          obtain ⟨hres, herr⟩ := hp
          subst hres herr
          exact Or.inr (Or.inl ⟨c0 ++ pre, hall, by simp, rfl, Or.inr ⟨err, he, rfl⟩⟩)
        · simp at hp
      · rw [hd] at h
        rcases h with ⟨hp, _⟩ | ⟨res, e, hp, _⟩ | ⟨res, _, rfl⟩
        · simp at hp
        · simp at hp
        · exact Or.inr (Or.inr ⟨c0 ++ pre, post ++ [Call.update
            (RemoveFinalizer (stampTerminating m) MachineFinalizer)], hall, by simp, he, rfl⟩)

/-- C6: in the deletion branch of `Reconcile` on a Machine with a bound
NodeRef, a Node delete, an update of the Machine or a change of its finalizers
happens only after `reconcileDeleteExternal` returned nil in the same run,
with no Node delete and no update requested before the teardown requests; and
when the teardown is reached and returns an error (whose cause is then not a
not-found error), `Reconcile` returns that error, requests no Node delete and
no update, and leaves the finalizers as they were. -/
theorem ReconcileDeletion_teardown_gates (w : Cluster) (m : Machine)
    (nodeRef : ObjectReference)
    (hdel : isZero m.deletionTimestamp = false)
    (href : m.status.nodeRef = some nodeRef) :
    ∃ r, ReconcileDeletion w m = some r ∧
      ((r.calls.any (fun c => c.isDeleteNode || c.isUpdate) = true ∨
          r.machine.finalizers ≠ m.finalizers) →
        (reconcileDeleteExternal w m).value = .returned none ∧
        ∃ pre post, r.calls = pre ++ (reconcileDeleteExternal w m).calls ++ post ∧
          pre.all (fun c => !c.isDeleteNode && !c.isUpdate) = true) ∧
      (∀ err, r.calls.any Call.isTeardown = true →
        (reconcileDeleteExternal w m).value = .returned (some err) →
        r.outcome = .returned ({}, some err) ∧
        r.calls.all (fun c => !c.isDeleteNode && !c.isUpdate) = true ∧
        r.machine.finalizers = m.finalizers ∧
        ∃ cause format args, err = .wrapf cause format args ∧
          (IsNotFound (Cause cause) = false ∨ IsNotFound cause = false)) := by
  have hext := (reconcileDeleteExternal_calls w m).2
  have weaken : ∀ l : List Call,
      l.all (fun c => !c.isTeardown && !c.isDeleteNode && !c.isUpdate) = true →
      l.all (fun c => !c.isDeleteNode && !c.isUpdate) = true ∧
        l.any (fun c => c.isDeleteNode || c.isUpdate) = false ∧
        l.any Call.isTeardown = false := by
    intro l hl
    rw [List.all_eq_true] at hl
    refine ⟨?_, ?_, ?_⟩
    · rw [List.all_eq_true]
      intro c hc
      have := hl c hc
      simp only [Bool.and_eq_true, Bool.not_eq_true'] at this ⊢
      tauto
    · rw [List.any_eq_false]
      intro c hc
      have := hl c hc
      simp only [Bool.and_eq_true, Bool.not_eq_true'] at this
      simp [this.1.2, this.2]
    · rw [List.any_eq_false]
      intro c hc
      have := hl c hc
      simp only [Bool.and_eq_true, Bool.not_eq_true'] at this
      simp [this.1.1]
  have hextq : (reconcileDeleteExternal w m).calls.all
        (fun c => !c.isDeleteNode && !c.isUpdate) = true ∧
      (reconcileDeleteExternal w m).calls.any
        (fun c => c.isDeleteNode || c.isUpdate) = false := by
    rw [List.all_eq_true] at hext
    constructor
    · rw [List.all_eq_true]
      intro c hc
      have := hext c hc
      simp only [Bool.and_eq_true, Bool.not_eq_true'] at this ⊢
      tauto
    · rw [List.any_eq_false]
      intro c hc
      have := hext c hc
      simp only [Bool.and_eq_true, Bool.not_eq_true'] at this
      simp [this.1.2, this.2]
  obtain ⟨r, hr, hcases⟩ := ReconcileDeletion_around_teardown w m nodeRef hdel href
  refine ⟨r, hr, ?_, ?_⟩
  · intro hyp
    rcases hcases with ⟨hq, hm⟩ | ⟨pre, hq, hc, hm, _⟩ | ⟨pre, post, hq, hc, he, _⟩
    · exfalso
      rcases hyp with h | h
      · rw [(weaken _ hq).2.1] at h
        exact Bool.noConfusion h
      · exact h (by rw [hm]; rfl)
    · exfalso
      rcases hyp with h | h
      · rw [hc, List.any_append, (weaken _ hq).2.1, hextq.2] at h
        exact Bool.noConfusion h
      · exact h (by rw [hm]; rfl)
    · exact ⟨he, pre, post, hc, (weaken _ hq).1⟩
  · intro err hreach herr
    rcases hcases with ⟨hq, hm⟩ | ⟨pre, hq, hc, hm, hout⟩ | ⟨pre, post, hq, hc, he, _⟩
    · rw [(weaken _ hq).2.2] at hreach
      exact Bool.noConfusion hreach
    · rcases hout with ⟨he, _⟩ | ⟨e, he, ho⟩
      · rw [he] at herr
        exact Outcome.noConfusion herr
      · rw [he] at herr
        simp only [Outcome.returned.injEq, Option.some.injEq] at herr
        subst herr
        refine ⟨ho, ?_, by rw [hm]; rfl, reconcileDeleteExternal_error w m e he⟩
        rw [hc, List.all_append, (weaken _ hq).1, hextq.1]
        rfl
    · rw [he] at herr
      simp at herr

/-- Witness of C6: the worker `w-0` is deleted while the store cannot fetch
its infrastructure object. -/
theorem ReconcileDeletion_teardown_gates_witness :
    ∃ r, ReconcileDeletion (brokenStoreCluster [controlPlane0, worker0]) worker0 = some r ∧
      ((r.calls.any (fun c => c.isDeleteNode || c.isUpdate) = true ∨
          r.machine.finalizers ≠ worker0.finalizers) →
        (reconcileDeleteExternal (brokenStoreCluster [controlPlane0, worker0])
          worker0).value = .returned none ∧
        ∃ pre post, r.calls = pre ++ (reconcileDeleteExternal
            (brokenStoreCluster [controlPlane0, worker0]) worker0).calls ++ post ∧
          pre.all (fun c => !c.isDeleteNode && !c.isUpdate) = true) ∧
      (∀ err, r.calls.any Call.isTeardown = true →
        (reconcileDeleteExternal (brokenStoreCluster [controlPlane0, worker0])
          worker0).value = .returned (some err) →
        r.outcome = .returned ({}, some err) ∧
        r.calls.all (fun c => !c.isDeleteNode && !c.isUpdate) = true ∧
        r.machine.finalizers = worker0.finalizers ∧
        ∃ cause format args, err = .wrapf cause format args ∧
          (IsNotFound (Cause cause) = false ∨ IsNotFound cause = false)) :=
  ReconcileDeletion_teardown_gates (brokenStoreCluster [controlPlane0, worker0]) worker0
    { kind := "Node", apiVersion := "v1", name := "node-w-0" } (by decide) rfl

end machine
end MachineAPI

/-! ## Theorems: Machine controller, executions of the deletion path -/

namespace MachineAPI
namespace machine

/-- Two members of a list that a function sends to the same value are equal
when the values the function gives on the list are pairwise distinct. -/
theorem eq_of_nodup_filterMap {α β : Type} (f : α → Option β) :
    ∀ (l : List α), (l.filterMap f).Nodup →
      ∀ a ∈ l, ∀ b ∈ l, ∀ n, f a = some n → f b = some n → a = b := by
  intro l
  induction l with
  | nil => intro _ a ha; cases ha
  | cons x xs ih =>
    intro hnd a ha b hb n hfa hfb
    rw [List.filterMap_cons] at hnd
    cases hx : f x with
    | none =>
      rw [hx] at hnd
      have hax : a ∈ xs := by
        rcases List.mem_cons.mp ha with h | h
        · rw [h, hx] at hfa; cases hfa
        · exact h
      have hbx : b ∈ xs := by
        rcases List.mem_cons.mp hb with h | h
        · rw [h, hx] at hfb; cases hfb
        · exact h
      exact ih hnd a hax b hbx n hfa hfb
    | some y =>
      rw [hx] at hnd
      have hnd2 := List.nodup_cons.mp hnd
      rcases List.mem_cons.mp ha with h1 | h1 <;> rcases List.mem_cons.mp hb with h2 | h2
      · rw [h1, h2]
      · exfalso
        rw [h1, hx] at hfa
        cases hfa
        exact hnd2.1 (List.mem_filterMap.mpr ⟨b, h2, hfb⟩)
      · exfalso
        rw [h2, hx] at hfb
        cases hfb
        exact hnd2.1 (List.mem_filterMap.mpr ⟨a, h1, hfa⟩)
      · exact ih hnd2.2 a h1 b h2 n hfa hfb

/-- The invariant survives the removal of the Machine of key `k` together with
the request to delete Nodes `requested`, provided each of them is the Node of
that Machine and, when the Machine is a control-plane one, the store holds
another control-plane Machine. -/
theorem Safe_remove {initial current : List ((String × String) × Bool × Option String)}
    {deleted : List String} (h : Store.Safe initial current deleted)
    (k : String × String) (requested : List String)
    (hreq : requested = [] ∨ ∃ a ∈ current, a.1 = k ∧ ∃ n, a.2.2 = some n ∧
      (∀ x ∈ requested, x = n) ∧
      (a.2.1 = true → ∃ b ∈ current, b.2.1 = true ∧ b.1 ≠ k)) :
    Store.Safe initial (current.filter (fun a => a.1 != k)) (deleted ++ requested) := by
  have hmem : ∀ a, a ∈ current.filter (fun a => a.1 != k) → a ∈ current ∧ a.1 ≠ k := by
    intro a ha
    have := List.mem_filter.mp ha
    exact ⟨this.1, by simpa using this.2⟩
  have hsub : (current.filter (fun a => a.1 != k)).Sublist current := List.filter_sublist current
  have hkeys : ((current.filter (fun a => a.1 != k)).map (fun a => a.1)).Nodup :=
    List.Nodup.sublist (hsub.map (fun a => a.1)) h.keys
  have hnodes : ((current.filter (fun a => a.1 != k)).filterMap (fun a => a.2.2)).Nodup :=
    List.Nodup.sublist (hsub.filterMap (fun a => a.2.2)) h.nodes
  rcases hreq with hnil | ⟨am, ham, hamk, nm, hamn, hall, hother⟩
  · subst hnil
    rw [List.append_nil]
    obtain ⟨a0, ha0, hcp, n, hn, hnd, hb⟩ := h.spared
    exact ⟨hkeys, hnodes, fun a ha => h.bound a (hmem a ha).1, fun a ha => h.known a (hmem a ha).1,
      fun a ha => h.kept a (hmem a ha).1, ⟨a0, ha0, hcp, n, hn, hnd, fun b hb2 => hb b (hmem b hb2).1⟩⟩
  · have hkept : ∀ a ∈ current.filter (fun a => a.1 != k), ∀ n, a.2.2 = some n →
        n ∉ deleted ++ requested := by
      intro a ha n hn hin
      rcases List.mem_append.mp hin with hd | hr
      · exact h.kept a (hmem a ha).1 n hn hd
      · have hnn : n = nm := hall n hr
        subst hnn
        have : a = am :=
          eq_of_nodup_filterMap (fun a => a.2.2) current h.nodes a (hmem a ha).1 am ham n hn hamn
        exact (hmem a ha).2 (this ▸ hamk)
    refine ⟨hkeys, hnodes, fun a ha => h.bound a (hmem a ha).1,
      fun a ha => h.known a (hmem a ha).1, hkept, ?_⟩
    obtain ⟨a0, ha0, hcp, n, hn, hnd, hb⟩ := h.spared
    by_cases hnn : n = nm
    · subst hnn
      obtain ⟨b, hbc, hbcp, hbk⟩ := hother (hb am ham hamn)
      cases hbn : b.2.2 with
      | none => exact absurd hbn (h.bound b hbc hbcp)
      | some nb =>
        have hbin : b ∈ current.filter (fun a => a.1 != k) :=
          List.mem_filter.mpr ⟨hbc, by simpa using hbk⟩
        refine ⟨b, h.known b hbc, hbcp, nb, hbn, hkept b hbin nb hbn, ?_⟩
        intro c hc hcn
        have : c = b :=
          eq_of_nodup_filterMap (fun a => a.2.2) current h.nodes c (hmem c hc).1 b hbc nb hcn hbn
        rw [this]
        exact hbcp
    · refine ⟨a0, ha0, hcp, n, hn, ?_, fun b hb2 => hb b (hmem b hb2).1⟩
      intro hin
      rcases List.mem_append.mp hin with hd | hr
      · exact hnd hd
      · exact hnn (hall n hr)

/-- The Nodes deleted by two runs of requests. -/
theorem deletedNodes_append (a b : List Call) :
    deletedNodes (a ++ b) = deletedNodes a ++ deletedNodes b := by
  unfold deletedNodes
  exact List.filterMap_append a b _

/-- Requests none of which deletes a Node delete no Node. -/
theorem deletedNodes_eq_nil (calls : List Call)
    (h : ∀ c ∈ calls, c.isDeleteNode = false) : deletedNodes calls = [] := by
  unfold deletedNodes
  rw [List.filterMap_eq_nil_iff]
  intro c hc
  have := h c hc
  cases c <;> simp_all [Call.isDeleteNode]

/-- The poll around `deleteNode` deletes no Node but the one it is given. -/
theorem pollDeleteNode_deleted (w : Cluster) (name : String) (attempt ticks : Nat) :
    ∀ x ∈ deletedNodes (pollDeleteNode w name attempt ticks).calls, x = name := by
  induction ticks generalizing attempt with
  | zero =>
    unfold pollDeleteNode
    split <;> simp [deletedNodes]
  | succ n ih =>
    unfold pollDeleteNode
    split
    · split
      · intro x hx
        have hcons : deletedNodes (Call.deleteNode name ::
            (pollDeleteNode w name (attempt + 1) n).calls) =
            name :: deletedNodes (pollDeleteNode w name (attempt + 1) n).calls := rfl
        simp only [] at hx
        rw [hcons] at hx
        rcases List.mem_cons.mp hx with h | h
        · exact h
        · exact ih (attempt + 1) x h
      · simp [deletedNodes]
    · simp [deletedNodes]

/-- `reconcileDelete` deletes no Node but the one the Machine is bound to, and
only when deletion is allowed and it returns nil. -/
theorem reconcileDelete_deleted (w : Cluster) (m : Machine) :
    deletedNodes (reconcileDelete w m).calls = [] ∨
    ∃ n, boundNode m = some n ∧
      (∀ x ∈ deletedNodes (reconcileDelete w m).calls, x = n) ∧
      (isDeleteNodeAllowed w m).value = none ∧
      ∃ res, (reconcileDelete w m).value = .returned (res, none) := by
  cases href : m.status.nodeRef with
  | none =>
    left
    unfold reconcileDelete
    simp only [href]
    rfl
  | some nodeRef =>
    have hA : deletedNodes (isDeleteNodeAllowed w m).calls = [] :=
      deletedNodes_eq_nil _ (fun c hc => by rw [isDeleteNodeAllowed_calls w m c hc]; rfl)
    have hD : deletedNodes (drainNode w nodeRef.name).calls = [] :=
      deletedNodes_eq_nil _ (fun c hc => by
        have := List.all_eq_true.mp (drainNode_calls w nodeRef.name) c hc
        cases hcd : c.isDeleteNode <;> simp_all)
    have hE : deletedNodes (reconcileDeleteExternal w m).calls = [] :=
      deletedNodes_eq_nil _ (fun c hc => by
        have := List.all_eq_true.mp (reconcileDeleteExternal_calls w m).2 c hc
        cases hcd : c.isDeleteNode <;> simp_all)
    rcases reconcileDelete_bound w m nodeRef href with
      ⟨err, _, _, h⟩ | ⟨err, _, _, h⟩ | ⟨pre, post, hpp, h⟩
    · left
      rw [h]
      exact hA
    · left
      rw [h]
      simp only [deletedNodes_append, hA, hD, List.append_nil]
    · have hpre : deletedNodes pre = [] := by
        rcases hpp with ⟨_, hpre, _⟩ | ⟨_, hpre, _⟩
        · rw [hpre, deletedNodes_append, hA, hD]
          rfl
        · rw [hpre, hA]
      rcases h with ⟨_, h⟩ | ⟨err, _, h⟩ | ⟨_, h⟩
      · left
        rw [h]
        simp only [deletedNodes_append, hpre, hE, List.append_nil]
      · left
        rw [h]
        simp only [deletedNodes_append, hpre, hE, List.append_nil]
      · rcases hpp with ⟨hallow, _, hpost⟩ | ⟨_, _, hpost⟩
        · right
          refine ⟨nodeRef.name, by unfold boundNode; rw [href]; rfl, ?_, hallow, {}, ?_⟩
          · intro x hx
            rw [h] at hx
            simp only [deletedNodes_append, hpre, hE, List.append_nil, List.nil_append] at hx
            rw [hpost] at hx
            exact pollDeleteNode_deleted w nodeRef.name 0 w.pollTicks x hx
          · rw [h]
        · left
          rw [h, hpost]
          simp only [deletedNodes_append, hpre, hE, List.append_nil]

/-- The deletion branch of `Reconcile`, with `r.Update` succeeding, deletes no
Node but the one the Machine is bound to, and only when deletion is allowed
and it returns nil, the finalizer being removed. -/
theorem ReconcileDeletion_deleted (w : Cluster) (m : Machine)
    (hdel : isZero m.deletionTimestamp = false) (hupd : ∀ x, w.update x = none) :
    ∃ r, ReconcileDeletion w m = some r ∧
      ((∃ res, r.outcome = .returned (res, none)) →
        r.machine = RemoveFinalizer (stampTerminating m) MachineFinalizer) ∧
      (deletedNodes r.calls = [] ∨
        ∃ n, boundNode m = some n ∧ (∀ x ∈ deletedNodes r.calls, x = n) ∧
          (isDeleteNodeAllowed w m).value = none ∧ r.outcome = .returned ({}, none)) := by
  obtain ⟨r, hr, hcases⟩ := ReconcileDeletion_flow w m hdel
  refine ⟨r, hr, ?_⟩
  rcases hcases with ⟨err, _, _, rfl⟩ | ⟨c0, _, hc0, h⟩
  · refine ⟨?_, Or.inl rfl⟩
    rintro ⟨res, h⟩
    cases h
  · have hc0n : deletedNodes c0 = [] :=
      deletedNodes_eq_nil _ (fun c hc => by
        have := List.all_eq_true.mp hc0 c hc
        cases hcd : c.isDeleteNode <;> simp_all)
    rcases h with ⟨hv, rfl⟩ | ⟨res, err, hv, rfl⟩ | ⟨res, hv, rfl⟩
    · refine ⟨?_, ?_⟩
      · rintro ⟨res, h⟩
        cases h
      · rcases reconcileDelete_deleted w m with h | ⟨n, _, _, _, res, hres⟩
        · left
          simp only [deletedNodes_append, hc0n, h, List.append_nil]
        · rw [hv] at hres
          cases hres
    · refine ⟨?_, ?_⟩
      · rintro ⟨res, h⟩
        cases h
      · rcases reconcileDelete_deleted w m with h | ⟨n, _, _, _, res2, hres⟩
        · left
          simp only [deletedNodes_append, hc0n, h, List.append_nil]
        · rw [hv] at hres
          cases hres
    · refine ⟨fun _ => rfl, ?_⟩
      have hu : deletedNodes [Call.update (RemoveFinalizer (stampTerminating m)
          MachineFinalizer)] = [] := rfl
      rcases reconcileDelete_deleted w m with h | ⟨n, hn, hall, hallow, _⟩
      · left
        simp only [deletedNodes_append, hc0n, h, hu, List.append_nil]
      · right
        refine ⟨n, hn, ?_, hallow, ?_⟩
        · intro x hx
          simp only [deletedNodes_append, hc0n, hu, List.append_nil, List.nil_append] at hx
          exact hall x hx
        · simp only [hupd]

/-- A list whose members all have the same value under a function that is
injective on it has one member, if any. -/
theorem length_eq_one_of_nodup_const {α β : Type} (f : α → β) (k : β) :
    ∀ (l : List α), (l.map f).Nodup → (∀ x ∈ l, f x = k) → l ≠ [] → l.length = 1
  | [], _, _, hne => absurd rfl hne
  | [_], _, _, _ => rfl
  | a :: b :: t, hnd, hall, _ => by
    exfalso
    have ha := hall a (List.mem_cons_self _ _)
    have hb := hall b (List.mem_cons_of_mem _ (List.mem_cons_self _ _))
    simp only [List.map_cons, List.nodup_cons, List.mem_cons] at hnd
    exact hnd.1 (Or.inl (ha.trans hb.symm))

/-- When `isDeleteNodeAllowed` allows the deletion of the Node of a
control-plane Machine that the store holds, the store holds another
control-plane Machine. -/
theorem isDeleteNodeAllowed_other (w : Cluster) (l : List Machine) (m : Machine)
    (hkeys : (l.map storeKey).Nodup)
    (hmem : ∃ p ∈ l, storeKey p = storeKey m ∧ isControlPlaneMachine p = true)
    (hcp : isControlPlaneMachine m = true)
    (hallow : (isDeleteNodeAllowed (Store.view w l) m).value = none) :
    ∃ x ∈ l, isControlPlaneMachine x = true ∧ storeKey x ≠ storeKey m := by
  by_contra hno
  have hno2 : ∀ x ∈ l, isControlPlaneMachine x = true → storeKey x = storeKey m := by
    intro x hx hxcp
    by_contra hk
    exact hno ⟨x, hx, hxcp, hk⟩
  have hsub : ((l.filter (fun x => x.ns == m.ns)).filter isControlPlaneMachine).Sublist l :=
    (List.filter_sublist _).trans (List.filter_sublist _)
  have hnd : (((l.filter (fun x => x.ns == m.ns)).filter isControlPlaneMachine).map
      storeKey).Nodup := List.Nodup.sublist (hsub.map storeKey) hkeys
  have hall : ∀ x ∈ (l.filter (fun x => x.ns == m.ns)).filter isControlPlaneMachine,
      storeKey x = storeKey m := by
    intro x hx
    have h1 := List.mem_filter.mp hx
    exact hno2 x (List.mem_filter.mp h1.1).1 h1.2
  have hne : (l.filter (fun x => x.ns == m.ns)).filter isControlPlaneMachine ≠ [] := by
    obtain ⟨p, hp, hpk, hpcp⟩ := hmem
    have hpns : p.ns = m.ns := congrArg Prod.fst hpk
    have : p ∈ (l.filter (fun x => x.ns == m.ns)).filter isControlPlaneMachine :=
      List.mem_filter.mpr ⟨List.mem_filter.mpr ⟨hp, by simp [hpns]⟩, hpcp⟩
    exact List.ne_nil_of_mem this
  have hlen := length_eq_one_of_nodup_const storeKey (storeKey m) _ hnd hall hne
  unfold isDeleteNodeAllowed at hallow
  cases href : m.status.nodeRef with
  | none => simp [href] at hallow
  | some nodeRef =>
    simp only [href, Store.view] at hallow
    cases hl : w.listMachines m.ns with
    | error err => simp [hl] at hallow
    | ok items =>
      simp only [hl, hlen, hcp, decide_True, Bool.and_self, if_true] at hallow
      cases hallow

/-- Writing a Machine over the one of the same key, with the same entry,
leaves the entries of the store as they were. -/
theorem put_entry (l : List Machine) (m p : Machine)
    (hkeys : (l.map storeKey).Nodup) (hm : m ∈ l)
    (hp : Store.entry p = Store.entry m) :
    (Store.put l p).map Store.entry = l.map Store.entry := by
  unfold Store.put
  rw [List.map_map]
  apply List.map_congr_left
  intro x hx
  simp only [Function.comp]
  split_ifs with hk
  · have hpk : storeKey p = storeKey m := congrArg Prod.fst hp
    have : x = m := List.inj_on_of_nodup_map hkeys hx hm (hk.trans hpk)
    rw [hp, this]
  · rfl

/-- The entries of the store after a Machine is gone. -/
theorem remove_entry (l : List Machine) (k : String × String) :
    (Store.remove l k).map Store.entry = (l.map Store.entry).filter (fun a => a.1 != k) := by
  unfold Store.remove
  rw [List.filter_map]
  rfl

/-- One deletion-path reconcile in which `r.Update` succeeds keeps the
invariant of the store, and leaves no finalizer but the Machine finalizer on
the stored Machines. -/
theorem deletionStep_safe (initial : List ((String × String) × Bool × Option String))
    (w : Cluster) (ns name : String) (s : Store)
    (hupd : ∀ x, w.update x = none)
    (hsafe : Store.Safe initial (s.machines.map Store.entry) (deletedNodes s.calls))
    (hfin : ∀ m ∈ s.machines, ∀ f ∈ m.finalizers, f = MachineFinalizer) :
    Store.Safe initial ((deletionStep w ns name s).machines.map Store.entry)
        (deletedNodes (deletionStep w ns name s).calls) ∧
      ∀ m ∈ (deletionStep w ns name s).machines, ∀ f ∈ m.finalizers, f = MachineFinalizer := by
  unfold deletionStep
  cases hfind : s.machines.find? (fun m => m.ns == ns && m.name == name) with
  | none => exact ⟨hsafe, hfin⟩
  | some m =>
    simp only []
    have hm : m ∈ s.machines := List.mem_of_find?_eq_some hfind
    have hk : (s.machines.map storeKey).Nodup := by
      have := hsafe.keys
      rw [List.map_map] at this
      exact this
    generalize hp : (if (m.status.phase != MachineTerminating
        && (w.statusUpdate (stampTerminating m)).isNone) = true then stampTerminating m
      else m) = p
    have hpe : Store.entry p = Store.entry m ∧ p.finalizers = m.finalizers := by
      subst hp
      split_ifs <;> exact ⟨rfl, rfl⟩
    have hl1 : (Store.put s.machines p).map Store.entry = s.machines.map Store.entry :=
      put_entry s.machines m p hk hm hpe.1
    have hk1 : ((Store.put s.machines p).map storeKey).Nodup := by
      have := hsafe.keys
      rw [← hl1, List.map_map] at this
      exact this
    have hpk : storeKey p = storeKey m := congrArg Prod.fst hpe.1
    have hpin : p ∈ Store.put s.machines p := by
      unfold Store.put
      exact List.mem_map.mpr ⟨m, hm, by simp [hpk]⟩
    have hfin1 : ∀ x ∈ Store.put s.machines p, ∀ f ∈ x.finalizers, f = MachineFinalizer := by
      intro x hx
      unfold Store.put at hx
      obtain ⟨y, hy, hxy⟩ := List.mem_map.mp hx
      split_ifs at hxy
      · rw [← hxy, hpe.2]
        exact hfin m hm
      · rw [← hxy]
        exact hfin y hy
    by_cases hdel : isZero m.deletionTimestamp = true
    · have hnone : ReconcileDeletion (Store.view w (Store.put s.machines p)) m = none := by
        unfold ReconcileDeletion
        simp [hdel]
      rw [hnone]
      exact ⟨hsafe, hfin⟩
    · obtain ⟨r, hr, hmach, hdn⟩ := ReconcileDeletion_deleted
        (Store.view w (Store.put s.machines p)) m (by simpa using hdel) (fun x => hupd x)
      rw [hr]
      simp only []
      split
      · rename_i res heq
        have hrm := hmach ⟨_, heq⟩
        have hempty : r.machine.finalizers.isEmpty = true := by
          rw [hrm]
          unfold RemoveFinalizer
          simp only [stampTerminating, List.isEmpty_iff, List.filter_eq_nil_iff]
          intro f hf
          simp [hfin m hm f hf]
        rw [if_pos hempty]
        refine ⟨?_, fun x hx => hfin1 x (List.mem_of_mem_filter hx)⟩
        simp only []
        rw [remove_entry, hl1, deletedNodes_append]
        apply Safe_remove hsafe
        rcases hdn with h | ⟨n, hbn, hall, hallow, _⟩
        · left
          exact h
        · right
          refine ⟨Store.entry m, List.mem_map_of_mem _ hm, rfl, n, hbn, hall, ?_⟩
          intro hcp
          obtain ⟨x, hx, hxcp, hxk⟩ := isDeleteNodeAllowed_other w (Store.put s.machines p) m hk1
            ⟨p, hpin, hpk, (congrArg (fun a => a.2.1) hpe.1).trans hcp⟩ hcp hallow
          refine ⟨Store.entry x, ?_, hxcp, hxk⟩
          rw [← hl1]
          exact List.mem_map_of_mem _ hx
      · rename_i hne
        have hnil : deletedNodes r.calls = [] := by
          rcases hdn with h | ⟨_, _, _, _, ho⟩
          · exact h
          · exact absurd ho (hne _)
        simp only []
        rw [hl1, deletedNodes_append, hnil, List.append_nil]
        exact ⟨hsafe, hfin1⟩

/-- An execution in which `r.Update` succeeds keeps the invariant of the
store. -/
theorem execute_safe (initial : List ((String × String) × Bool × Option String)) :
    ∀ (steps : List (Cluster × String × String)) (s : Store),
      (∀ step ∈ steps, ∀ x, step.1.update x = none) →
      Store.Safe initial (s.machines.map Store.entry) (deletedNodes s.calls) →
      (∀ m ∈ s.machines, ∀ f ∈ m.finalizers, f = MachineFinalizer) →
      Store.Safe initial ((execute s steps).machines.map Store.entry)
        (deletedNodes (execute s steps).calls)
  | [], _, _, hsafe, _ => hsafe
  | (w, ns, name) :: rest, s, hupd, hsafe, hfin => by
    have hstep := deletionStep_safe initial w ns name s
      (hupd (w, ns, name) (List.mem_cons_self _ _)) hsafe hfin
    exact execute_safe initial rest (deletionStep w ns name s)
      (fun step hs => hupd step (List.mem_cons_of_mem _ hs)) hstep.1 hstep.2

/-- The invariant holds of a store in which keys are unique, no two Machines
are bound to one Node, every control-plane Machine is bound and there is a
control-plane Machine, before any reconcile. -/
theorem Safe_initial (machines : List Machine)
    (hkeys : (machines.map storeKey).Nodup)
    (hnodes : (machines.filterMap boundNode).Nodup)
    (hbound : ∀ m ∈ machines, isControlPlaneMachine m = true → boundNode m ≠ none)
    (hcp : ∃ m ∈ machines, isControlPlaneMachine m = true) :
    Store.Safe (machines.map Store.entry) (machines.map Store.entry) (deletedNodes []) := by
  refine ⟨?_, ?_, ?_, fun a ha => ha, fun _ _ _ _ h => (by cases h), ?_⟩
  · rw [List.map_map]
    exact hkeys
  · rw [List.filterMap_map]
    exact hnodes
  · intro a ha
    obtain ⟨m, hm, rfl⟩ := List.mem_map.mp ha
    exact hbound m hm
  · obtain ⟨m0, hm0, hcp0⟩ := hcp
    cases hn : boundNode m0 with
    | none => exact absurd hn (hbound m0 hm0 hcp0)
    | some n =>
      refine ⟨Store.entry m0, List.mem_map_of_mem _ hm0, hcp0, n, hn, fun h => (by cases h), ?_⟩
      intro b hb hbn
      obtain ⟨m, hm, rfl⟩ := List.mem_map.mp hb
      have : m = m0 := eq_of_nodup_filterMap boundNode machines hnodes m hm m0 hm0 n hbn hn
      rw [this]
      exact hcp0

/-- C11 as stated fails: the namespace holds the control-plane Machines `cp-0`
and `cp-1`, each with a bound Node, both deleting.  The reconcile of `cp-0`
cordons and drains its Node and fails at the infrastructure teardown; the
reconcile of `cp-1` then still counts two labelled Machines, drains and
deletes its Node and completes.  Afterwards the Node of every control-plane
Machine the namespace held has been cordoned and drained, while the
Node of `cp-0` has not been deleted. -/
theorem execute_drains_every_control_plane_node :
    (execute ⟨[controlPlane0, controlPlane1Deleting], []⟩
      [(brokenStoreCluster [], "default", "cp-0"),
        (sampleCluster [], "default", "cp-1")]).machines = [stampTerminating controlPlane0]
    ∧ touchedNodes (execute ⟨[controlPlane0, controlPlane1Deleting], []⟩
      [(brokenStoreCluster [], "default", "cp-0"),
        (sampleCluster [], "default", "cp-1")]).calls
        = ["node-cp-0", "node-cp-0", "node-cp-1", "node-cp-1", "node-cp-1"]
    ∧ boundNode controlPlane0 = some "node-cp-0"
    ∧ boundNode controlPlane1Deleting = some "node-cp-1"
    ∧ deletedNodes (execute ⟨[controlPlane0, controlPlane1Deleting], []⟩
      [(brokenStoreCluster [], "default", "cp-0"),
        (sampleCluster [], "default", "cp-1")]).calls = ["node-cp-1"] := by
  decide

/-- C11, amended: the store holds Machines with unique keys, no two bound to
one Node, every control-plane Machine bound, none with a finalizer other than
the Machine finalizer, and at least one control-plane Machine.  In every
execution made of deletion-path reconciles run one at a time to completion, in
which any request but `r.Update` may fail (so each reconcile may fail at the
drain or at the infrastructure teardown and be retried), there is a
control-plane Machine of the start whose Node has not been deleted by this
path; and no Machine still in the store has had its Node deleted. -/
theorem execute_keeps_control_plane_node (machines : List Machine)
    (steps : List (Cluster × String × String))
    (hkeys : (machines.map storeKey).Nodup)
    (hnodes : (machines.filterMap boundNode).Nodup)
    (hbound : ∀ m ∈ machines, isControlPlaneMachine m = true → boundNode m ≠ none)
    (hfinal : ∀ m ∈ machines, ∀ f ∈ m.finalizers, f = MachineFinalizer)
    (hcp : ∃ m ∈ machines, isControlPlaneMachine m = true)
    (hupdate : ∀ step ∈ steps, ∀ m, step.1.update m = none) :
    (∃ m ∈ machines, isControlPlaneMachine m = true ∧ ∃ n, boundNode m = some n ∧
      n ∉ deletedNodes (execute ⟨machines, []⟩ steps).calls) ∧
    (∀ m ∈ (execute ⟨machines, []⟩ steps).machines, ∀ n, boundNode m = some n →
      n ∉ deletedNodes (execute ⟨machines, []⟩ steps).calls) := by
  have h := execute_safe (machines.map Store.entry) steps ⟨machines, []⟩ hupdate
    (Safe_initial machines hkeys hnodes hbound hcp) hfinal
  constructor
  · obtain ⟨a, ha, hacp, n, hn, hnd, _⟩ := h.spared
    obtain ⟨m, hm, rfl⟩ := List.mem_map.mp ha
    exact ⟨m, hm, hacp, n, hn, hnd⟩
  · intro m hm n hn
    exact h.kept (Store.entry m) (List.mem_map_of_mem _ hm) n hn

/-- Witness of the amended C11: the execution in which the reconcile of `cp-0`
fails at the teardown and the reconcile of `cp-1` completes. -/
theorem execute_keeps_control_plane_node_witness :
    ∃ m ∈ [controlPlane0, controlPlane1Deleting], isControlPlaneMachine m = true ∧
      ∃ n, boundNode m = some n ∧
        n ∉ deletedNodes (execute ⟨[controlPlane0, controlPlane1Deleting], []⟩
          [(brokenStoreCluster [], "default", "cp-0"),
            (sampleCluster [], "default", "cp-1")]).calls :=
  (execute_keeps_control_plane_node [controlPlane0, controlPlane1Deleting]
    [(brokenStoreCluster [], "default", "cp-0"), (sampleCluster [], "default", "cp-1")]
    (by decide) (by decide) (by decide) (by decide) (by decide)
    (fun step hstep m => by
      simp only [List.mem_cons, List.mem_singleton, List.not_mem_nil, or_false] at hstep
      rcases hstep with rfl | rfl <;> rfl)).1

end machine
end MachineAPI

/-! ## Theorems: Machine controller, failures of the deletion path -/

namespace MachineAPI
namespace machine

/-- C12: the worker Machine `w-0` is deleting, its Node may be deleted and
`RunNodeDrain` fails; `Reconcile` returns the empty result together with the
bare `RequeueAfterError` of 20 s as its error, not a result asking for a
requeue after 20 s with a nil error.  When `RunCordonOrUncordon` fails instead,
the returned error is the one made by `errors.Errorf`, which carries no
retry-after. -/
theorem Reconcile_drain_failure_returned_as_error :
    (isDeleteNodeAllowed (drainFailsCluster [worker0]) worker0).value = none ∧
    (Reconcile (drainFailsCluster [worker0]) {} "default" "w-0").outcome
      = .returned ({ requeue := false, requeueAfter := 0 },
          some (.plain (.requeueAfter 20000000000))) ∧
    (Reconcile (cordonFailsCluster [worker0]) {} "default" "w-0").outcome
      = .returned ({ requeue := false, requeueAfter := 0 },
          some (.plain (.fundamentalErr "unable to cordon node %s: %v" ["node-w-0"]
            (.foreign "node update refused")))) ∧
    retryAfterOf (some (.fundamentalErr "unable to cordon node %s: %v" ["node-w-0"]
      (.foreign "node update refused"))) = none := by
  decide

/-- C13: the worker Machine `w-0` is deleting and the fetch of its
infrastructure reference reports not-found; `reconcileDeleteExternal` hands
the nil object to `r.Delete`.  When the client panics on it, or answers with
an error other than not-found (the wrap then calls `obj.GetName()` on nil),
`reconcileDeleteExternal` does not return and `Reconcile` panics.  A not-found
reported by the delete of an object that was fetched is tolerated. -/
theorem reconcileDeleteExternal_nil_object_after_not_found :
    (reconcileDeleteExternal (lostInfraCluster [worker0] .panicked) worker0)
      = ⟨[.getUnstructured "infrastructure.crit.sh/v1alpha1" "InfraMachine" "default" "w-0-infra",
          .deleteUnstructured none], .panicked⟩ ∧
    (reconcileDeleteExternal (lostInfraCluster [worker0]
        (.returned (some (.foreign "nil object")))) worker0).value = .panicked ∧
    (Reconcile (lostInfraCluster [worker0] .panicked) {} "default" "w-0").outcome
      = .panicked ∧
    (reconcileDeleteExternal (deleteNotFoundCluster [worker0]) worker0).value
      = .returned none := by
  decide

end machine
end MachineAPI

/-! ## Theorems: Machine controller, normal path -/

namespace MachineAPI
namespace machine

/-- The phase `reconcilePhase` leaves, by the override order. -/
theorem reconcilePhase_phase (m : Machine) :
    (reconcilePhase m).status.phase =
      if !isZero m.deletionTimestamp then MachineTerminating
      else if m.status.failureReason.isSome || m.status.failureMessage.isSome then MachineFailed
      else if m.status.nodeRef.isSome then MachineRunning
      else if m.status.phase = "" then MachinePending
      else m.status.phase := by
  unfold reconcilePhase
  simp only []
  by_cases h1 : m.status.phase = "" <;> by_cases h2 : m.status.nodeRef.isSome = true <;>
    by_cases h3 : (m.status.failureReason.isSome || m.status.failureMessage.isSome) = true <;>
    by_cases h4 : isZero m.deletionTimestamp = true <;>
    simp [h1, h2, h3, h4]

/-- `reconcilePhase` changes the phase only. -/
theorem reconcilePhase_frame (m : Machine) :
    reconcilePhase m =
      { m with status := { m.status with phase := (reconcilePhase m).status.phase } } := by
  unfold reconcilePhase
  simp only []
  by_cases h1 : m.status.phase = "" <;> by_cases h2 : m.status.nodeRef.isSome = true <;>
    by_cases h3 : (m.status.failureReason.isSome || m.status.failureMessage.isSome) = true <;>
    by_cases h4 : isZero m.deletionTimestamp = true <;>
    simp [h1, h2, h3, h4]

/-- C14 as stated fails: a Machine with no NodeRef, no failure and no deletion
timestamp whose stored phase is `Running` keeps the phase `Running`. -/
theorem reconcilePhase_keeps_stored_phase :
    ({ pending1 with status := { pending1.status with phase := MachineRunning } } :
        Machine).status.nodeRef = none ∧
    (reconcilePhase { pending1 with status := { pending1.status with
        phase := MachineRunning } }).status.phase = MachineRunning ∧
    (reconcilePhase { pending1 with status := { pending1.status with
        phase := MachineRunning } }).status.phase ≠ MachinePending := by
  decide

/-- C14, amended: for a Machine with no NodeRef, no FailureReason, no
FailureMessage and no deletion timestamp, `reconcilePhase` sets the phase to
`Pending` when the stored phase is empty and leaves every other stored phase
as it is; nothing else of the Machine changes. -/
theorem reconcilePhase_unbound (m : Machine)
    (href : m.status.nodeRef = none)
    (hreason : m.status.failureReason = none)
    (hmessage : m.status.failureMessage = none)
    (hdel : isZero m.deletionTimestamp = true) :
    (m.status.phase = "" → (reconcilePhase m).status.phase = MachinePending) ∧
    (m.status.phase ≠ "" → (reconcilePhase m).status.phase = m.status.phase) ∧
    reconcilePhase m =
      { m with status := { m.status with phase := (reconcilePhase m).status.phase } } := by
  refine ⟨?_, ?_, reconcilePhase_frame m⟩
  · intro h
    rw [reconcilePhase_phase]
    simp [href, hreason, hmessage, hdel, h]
  · intro h
    rw [reconcilePhase_phase]
    simp [href, hreason, hmessage, hdel, h]

/-- Witness of the amended C14: the unbound Machine `w-1` with an empty
phase. -/
theorem reconcilePhase_unbound_witness :
    (pending1.status.phase = "" → (reconcilePhase pending1).status.phase = MachinePending) ∧
    (pending1.status.phase ≠ "" →
      (reconcilePhase pending1).status.phase = pending1.status.phase) ∧
    reconcilePhase pending1 =
      { pending1 with status := { pending1.status with
          phase := (reconcilePhase pending1).status.phase } } :=
  reconcilePhase_unbound pending1 rfl rfl rfl rfl

/-- C15: for every Machine and every stored phase, `reconcilePhase` yields
`Terminating` when a deletion timestamp is present; otherwise `Failed` when
FailureReason or FailureMessage is set, a bound NodeRef notwithstanding;
otherwise `Running` when NodeRef is set. -/
theorem reconcilePhase_override_order (m : Machine) :
    (isZero m.deletionTimestamp = false →
      (reconcilePhase m).status.phase = MachineTerminating) ∧
    (isZero m.deletionTimestamp = true →
      (m.status.failureReason ≠ none ∨ m.status.failureMessage ≠ none) →
      (reconcilePhase m).status.phase = MachineFailed) ∧
    (isZero m.deletionTimestamp = true →
      m.status.failureReason = none → m.status.failureMessage = none →
      m.status.nodeRef ≠ none →
      (reconcilePhase m).status.phase = MachineRunning) := by
  refine ⟨?_, ?_, ?_⟩
  · intro h
    rw [reconcilePhase_phase]
    simp [h]
  · intro h hf
    rw [reconcilePhase_phase]
    have : (m.status.failureReason.isSome || m.status.failureMessage.isSome) = true := by
      rcases hf with hf | hf
      · simp [Option.isSome_iff_ne_none.mpr hf]
      · simp [Option.isSome_iff_ne_none.mpr hf]
    simp [h, this]
  · intro h hr hm hn
    rw [reconcilePhase_phase]
    simp [h, hr, hm, Option.isSome_iff_ne_none.mpr hn]

/-- Witness of C15: the deleting Machine `cp-0`, the bound Machine `w-1` with a
failure recorded, and `w-1` as it is. -/
theorem reconcilePhase_override_order_witness :
    (reconcilePhase controlPlane0).status.phase = MachineTerminating ∧
    (reconcilePhase { running1 with status := { running1.status with
      failureReason := some InvalidConfigurationMachineError } }).status.phase = MachineFailed ∧
    (reconcilePhase running1).status.phase = MachineRunning :=
  ⟨(reconcilePhase_override_order controlPlane0).1 rfl,
    (reconcilePhase_override_order { running1 with status := { running1.status with
      failureReason := some InvalidConfigurationMachineError } }).2.1 rfl (Or.inl (by decide)),
    (reconcilePhase_override_order running1).2.2 rfl rfl rfl (by decide)⟩

/-- The loop over two outcomes, case by case. -/
theorem parseErrors_pair (e1 e2 : Option Error) :
    parseErrors {} [] [e1, e2] =
      (match retryAfterOf e1, retryAfterOf e2 with
        | some d, _ => { requeue := true, requeueAfter := d }
        | none, some d => { requeue := true, requeueAfter := d }
        | none, none => {},
        [e1, e2].filter (fun err => (retryAfterOf err).isNone)) := by
  unfold retryAfterOf
  cases h1 : e1.bind (fun e => asRequeueAfter (Cause e)) <;>
    cases h2 : e2.bind (fun e => asRequeueAfter (Cause e)) <;>
    simp [parseErrors, h1, h2]

/-- C16: for every pair of outcomes of `reconcileInfrastructure` and
`reconcileNodeRef`, the loop of `Reconcile` takes the requeue delay from the
first outcome whose cause is a retry-after error and ignores a later one,
whatever its duration, and `NewAggregate` returns the aggregate of exactly the
non-nil outcomes without retry-after, nil when there are none; the normal
path returns this result, and this error unless it is nil and the deferred
patch fails. -/
theorem Reconcile_first_retry_after_wins (e1 e2 : Option Error) :
    (∀ d1, retryAfterOf e1 = some d1 →
      (parseErrors {} [] [e1, e2]).1 = { requeue := true, requeueAfter := d1 }) ∧
    (∀ d2, retryAfterOf e1 = none → retryAfterOf e2 = some d2 →
      (parseErrors {} [] [e1, e2]).1 = { requeue := true, requeueAfter := d2 }) ∧
    (retryAfterOf e1 = none → retryAfterOf e2 = none →
      (parseErrors {} [] [e1, e2]).1 = {}) ∧
    (terminalErrors [e1, e2] = [] → NewAggregate (parseErrors {} [] [e1, e2]).2 = none) ∧
    (terminalErrors [e1, e2] ≠ [] →
      NewAggregate (parseErrors {} [] [e1, e2]).2
        = some (.aggregate (terminalErrors [e1, e2]))) ∧
    (∀ (w : Cluster) (t : external.ObjectTracker) (m : Machine),
      w.newHelperMachine m = none →
      e1 = (reconcileInfrastructure w t (AddFinalizer m MachineFinalizer)).err →
      e2 = (reconcileNodeRef w
        (reconcileInfrastructure w t (AddFinalizer m MachineFinalizer)).machine).err →
      (ReconcileNormal w t m).result = (parseErrors {} [] [e1, e2]).1 ∧
      (terminalErrors [e1, e2] ≠ [] →
        (ReconcileNormal w t m).err = some (.aggregate (terminalErrors [e1, e2]))) ∧
      (terminalErrors [e1, e2] = [] →
        (ReconcileNormal w t m).err =
          (w.patchMachine m (ReconcileNormal w t m).machine).map .plain)) := by
  have hp := parseErrors_pair e1 e2
  have hagg : NewAggregate (parseErrors {} [] [e1, e2]).2 =
      if (terminalErrors [e1, e2]).isEmpty then none
      else some (.aggregate (terminalErrors [e1, e2])) := by
    rw [hp]
    rfl
  refine ⟨?_, ?_, ?_, ?_, ?_, ?_⟩
  · intro d1 h1
    rw [hp, h1]
  · intro d2 h1 h2
    rw [hp, h1, h2]
  · intro h1 h2
    rw [hp, h1, h2]
  · intro h
    rw [hagg, h]
    rfl
  · intro h
    rw [hagg]
    have : (terminalErrors [e1, e2]).isEmpty = false := by
      cases hl : terminalErrors [e1, e2] with
      | nil => exact absurd hl h
      | cons a l => rfl
    rw [this]
    rfl
  · intro w t m hh he1 he2
    subst he1 he2
    unfold ReconcileNormal
    simp only [hh]
    refine ⟨?_, ?_, ?_⟩
    · split <;> rfl
    · intro h
      have : (terminalErrors [(reconcileInfrastructure w t (AddFinalizer m MachineFinalizer)).err,
          (reconcileNodeRef w (reconcileInfrastructure w t
            (AddFinalizer m MachineFinalizer)).machine).err]).isEmpty = false := by
        cases hl : terminalErrors [(reconcileInfrastructure w t
            (AddFinalizer m MachineFinalizer)).err,
          (reconcileNodeRef w (reconcileInfrastructure w t
            (AddFinalizer m MachineFinalizer)).machine).err] with
        | nil => exact absurd hl h
        | cons a l => rfl
      rw [hagg, this]
      rfl
    · intro h
      rw [hagg, h]
      rfl

/-- Witness of C16: a retry-after of five seconds followed by one of one
second gives a requeue after five seconds and no error. -/
theorem Reconcile_first_retry_after_wins_witness :
    (parseErrors {} []
      [some (NewRequeueErrorf 5000000000 "infrastructure not ready" []),
        some (NewRequeueErrorf 1000000000 "no matching Node" [])]).1
      = { requeue := true, requeueAfter := 5000000000 } :=
  (Reconcile_first_retry_after_wins
    (some (NewRequeueErrorf 5000000000 "infrastructure not ready" []))
    (some (NewRequeueErrorf 1000000000 "no matching Node" []))).1 5000000000 rfl

/-- The text of the not-found error of `reconcileExternal` contains
`could not find`, whatever its arguments are. -/
theorem could_not_find_text (quote : String → String) (duration : Nat → String) (d : Nat)
    (args : List String) :
    stringsContains
      ((Error.wrapf (.requeueAfter d)
        "could not find %v %q for Machine %q in namespace %q, requeuing" args).text
          quote duration) "could not find" = true := by
  rfl

/-- What `reconcileInfrastructure` does when the infrastructure reference is
set and its fetch reports not-found: it returns the retry-after error of
`reconcileExternal`, and marks the Machine failed when its infrastructure was
ready. -/
theorem reconcileInfrastructure_of_not_found (w : Cluster) (t : external.ObjectTracker)
    (m : Machine) (err : Error)
    (hset : m.spec.infrastructureRef ≠ {})
    (hget : w.getUnstructured m.spec.infrastructureRef.apiVersion
      m.spec.infrastructureRef.kind m.ns m.spec.infrastructureRef.name = .error err)
    (hnf : IsNotFound (Cause err) = true) :
    reconcileInfrastructure w t m =
      ⟨[.getUnstructured m.spec.infrastructureRef.apiVersion m.spec.infrastructureRef.kind
          m.ns m.spec.infrastructureRef.name],
        if m.status.infrastructureReady then
          { m with status := { m.status with
              failureReason := some InvalidConfigurationMachineError
              failureMessage := some (Sprintf w.quote
                "Machine infrastructure resource %v with name %q has been deleted after being ready"
                [m.spec.infrastructureRef.GroupVersionKind.string,
                  m.spec.infrastructureRef.name]) } }
        else m,
        t,
        some (.wrapf (.requeueAfter w.externalReadyWait)
          "could not find %v %q for Machine %q in namespace %q, requeuing"
          [m.spec.infrastructureRef.GroupVersionKind.string, m.spec.infrastructureRef.name,
            m.name, m.ns])⟩ := by
  have hc : IsNotFound (Cause (Error.wrapf err "failed to retrieve %s external object %q/%q"
      [m.spec.infrastructureRef.kind, m.ns, m.spec.infrastructureRef.name])) = true := by
    simpa [Cause] using hnf
  unfold reconcileInfrastructure reconcileExternal externalGet
  simp only [hset, hget, hc, if_true, if_false, could_not_find_text, Bool.and_true]
  cases m.status.infrastructureReady <;> simp

/-- C17: for every Machine with InfrastructureReady = true whose
infrastructure reference is set and is reported not-found when fetched,
`reconcileInfrastructure` sets FailureReason to `InvalidConfiguration` and
FailureMessage to the "deleted after being ready" text, leaves
InfrastructureReady true and every other field as it was, and a second run in
the same situation gives the same Machine again. -/
theorem reconcileInfrastructure_marks_invalid_configuration (w : Cluster)
    (t : external.ObjectTracker) (m : Machine) (err : Error)
    (hset : m.spec.infrastructureRef ≠ {})
    (hready : m.status.infrastructureReady = true)
    (hget : w.getUnstructured m.spec.infrastructureRef.apiVersion
      m.spec.infrastructureRef.kind m.ns m.spec.infrastructureRef.name = .error err)
    (hnf : IsNotFound (Cause err) = true) :
    (reconcileInfrastructure w t m).machine =
      { m with status := { m.status with
          failureReason := some InvalidConfigurationMachineError
          failureMessage := some (Sprintf w.quote
            "Machine infrastructure resource %v with name %q has been deleted after being ready"
            [m.spec.infrastructureRef.GroupVersionKind.string,
              m.spec.infrastructureRef.name]) } } ∧
    (reconcileInfrastructure w t m).machine.status.failureReason = some "InvalidConfiguration" ∧
    (reconcileInfrastructure w t m).machine.status.failureMessage ≠ none ∧
    (reconcileInfrastructure w t m).machine.status.infrastructureReady = true ∧
    (reconcileInfrastructure w (reconcileInfrastructure w t m).tracker
        (reconcileInfrastructure w t m).machine).machine
      = (reconcileInfrastructure w t m).machine := by
  have h1 := reconcileInfrastructure_of_not_found w t m err hset hget hnf
  rw [if_pos hready] at h1
  have h2 := reconcileInfrastructure_of_not_found w t
    { m with status := { m.status with
        failureReason := some InvalidConfigurationMachineError
        failureMessage := some (Sprintf w.quote
          "Machine infrastructure resource %v with name %q has been deleted after being ready"
          [m.spec.infrastructureRef.GroupVersionKind.string,
            m.spec.infrastructureRef.name]) } } err hset hget hnf
  rw [if_pos (by exact hready)] at h2
  rw [h1]
  refine ⟨rfl, rfl, by simp, hready, ?_⟩
  simp only []
  rw [h2]

/-- Witness of C17: the ready Machine `w-1`, whose infrastructure object is
gone. -/
theorem reconcileInfrastructure_marks_invalid_configuration_witness :
    (reconcileInfrastructure (normalCluster none) {} running1).machine.status.failureReason
      = some "InvalidConfiguration" ∧
    (reconcileInfrastructure (normalCluster none) {} running1).machine.status.infrastructureReady
      = true :=
  have h := reconcileInfrastructure_marks_invalid_configuration (normalCluster none) {}
    running1 (.status "NotFound" "infrastructure object not found")
    (by decide) rfl rfl rfl
  ⟨h.2.1, h.2.2.2.1⟩

/-- `reconcileExternal` changes nothing of the Machine but its failure
fields, and only when it returns the object. -/
theorem reconcileExternal_frame (w : Cluster) (t : external.ObjectTracker) (m : Machine)
    (ref : ObjectReference) :
    (∃ reason message, (reconcileExternal w t m ref).machine =
      { m with status := { m.status with failureReason := reason, failureMessage := message } } ∧
      (m.status.failureReason ≠ none → reason ≠ none) ∧
      (m.status.failureMessage ≠ none → message ≠ none)) ∧
    (∀ err, (reconcileExternal w t m ref).value = .failed err →
      (reconcileExternal w t m ref).machine = m) := by
  unfold reconcileExternal
  simp only []
  constructor
  · repeat' (first | split | split_ifs)
    all_goals first
      | exact ⟨_, _, rfl, id, id⟩
      | exact ⟨_, _, rfl, fun _ => by simp, id⟩
      | exact ⟨_, _, rfl, id, fun _ => by simp⟩
      | exact ⟨_, _, rfl, fun _ => by simp, fun _ => by simp⟩
  · repeat' (first | split | split_ifs)
    all_goals simp

/-- `reconcileInfrastructure` changes nothing of the Machine but the provider
id and the failure domain of its spec and the failure fields, the addresses
and the readiness flag of its status; a failure field that is set stays
set. -/
theorem reconcileInfrastructure_frame (w : Cluster) (t : external.ObjectTracker)
    (m : Machine) :
    ∃ providerID failureDomain reason message addresses ready,
      (reconcileInfrastructure w t m).machine =
        { m with
          spec := { m.spec with providerID := providerID, failureDomain := failureDomain }
          status := { m.status with
            failureReason := reason, failureMessage := message, addresses := addresses,
            infrastructureReady := ready } } ∧
      (m.status.failureReason ≠ none → reason ≠ none) ∧
      (m.status.failureMessage ≠ none → message ≠ none) := by
  obtain ⟨⟨fr, fm, hext, h1, h2⟩, _⟩ :=
    reconcileExternal_frame w t m m.spec.infrastructureRef
  unfold reconcileInfrastructure
  simp only [hext]
  repeat' (first | split | split_ifs)
  all_goals first
    | exact ⟨_, _, _, _, _, _, rfl, id, id⟩
    | exact ⟨_, _, _, _, _, _, rfl, h1, h2⟩
    | exact ⟨_, _, _, _, _, _, rfl, fun _ => by simp, fun _ => by simp⟩

/-- `reconcileNodeRef` changes nothing of the Machine but its NodeRef and
version, and leaves a NodeRef that is set as it is. -/
theorem reconcileNodeRef_frame (w : Cluster) (m : Machine) :
    (∃ nodeRef version, (reconcileNodeRef w m).machine =
      { m with status := { m.status with nodeRef := nodeRef, version := version } }) ∧
    (m.status.nodeRef ≠ none → reconcileNodeRef w m = ⟨[], m, none⟩) := by
  unfold reconcileNodeRef
  simp only []
  constructor
  · repeat' (first | split | split_ifs)
    all_goals exact ⟨_, _, rfl⟩
  · intro h
    split
    · rfl
    · rename_i h2
      exact absurd h2 h

/-- `AddFinalizer` changes the finalizers only. -/
theorem AddFinalizer_frame (m : Machine) (finalizer : String) :
    ∃ finalizers, AddFinalizer m finalizer = { m with finalizers := finalizers } := by
  unfold AddFinalizer
  split
  · exact ⟨_, rfl⟩
  · exact ⟨_, rfl⟩

/-- The normal path before the deferred function: the Machine after
`AddFinalizer`, `reconcileInfrastructure` and `reconcileNodeRef`. -/
theorem ReconcileNormal_machine (w : Cluster) (t : external.ObjectTracker) (m : Machine)
    (hhelper : w.newHelperMachine m = none) :
    (ReconcileNormal w t m).machine =
      reconcilePhase (reconcileNodeRef w
        (reconcileInfrastructure w t (AddFinalizer m MachineFinalizer)).machine).machine := by
  unfold ReconcileNormal
  simp only [hhelper]
  split <;> rfl

/-- C19: for every Machine whose NodeRef is set and every content of the
store, `reconcileInfrastructure`, `reconcileNodeRef`, `reconcilePhase` and the
whole normal path of `Reconcile` leave the NodeRef as it was. -/
theorem ReconcileNormal_keeps_nodeRef (w : Cluster) (t : external.ObjectTracker)
    (m : Machine) (href : m.status.nodeRef ≠ none) :
    (reconcileInfrastructure w t m).machine.status.nodeRef = m.status.nodeRef ∧
    (reconcileNodeRef w m).machine.status.nodeRef = m.status.nodeRef ∧
    (reconcilePhase m).status.nodeRef = m.status.nodeRef ∧
    (ReconcileNormal w t m).machine.status.nodeRef = m.status.nodeRef := by
  have hinfra : ∀ x : Machine,
      (reconcileInfrastructure w t x).machine.status.nodeRef = x.status.nodeRef := by
    intro x
    obtain ⟨_, _, _, _, _, _, h, _⟩ := reconcileInfrastructure_frame w t x
    rw [h]
  have hphase : ∀ x : Machine, (reconcilePhase x).status.nodeRef = x.status.nodeRef := by
    intro x
    rw [reconcilePhase_frame x]
  refine ⟨hinfra m, ?_, hphase m, ?_⟩
  · rw [(reconcileNodeRef_frame w m).2 href]
  · cases hh : w.newHelperMachine m with
    | some err =>
      unfold ReconcileNormal
      simp only [hh]
    | none =>
      rw [ReconcileNormal_machine w t m hh, hphase]
      obtain ⟨fs, hfs⟩ := AddFinalizer_frame m MachineFinalizer
      have h1 : (reconcileInfrastructure w t (AddFinalizer m MachineFinalizer)).machine.status.nodeRef
          = m.status.nodeRef := by
        rw [hinfra, hfs]
      have h2 : (reconcileInfrastructure w t
          (AddFinalizer m MachineFinalizer)).machine.status.nodeRef ≠ none := by
        rw [h1]
        exact href
      rw [(reconcileNodeRef_frame w _).2 h2]
      exact h1

/-- Witness of C19: the bound Machine `w-1`, whose infrastructure object is
gone. -/
theorem ReconcileNormal_keeps_nodeRef_witness :
    (ReconcileNormal (normalCluster none) {} running1).machine.status.nodeRef
      = running1.status.nodeRef :=
  (ReconcileNormal_keeps_nodeRef (normalCluster none) {} running1 (by decide)).2.2.2

/-- C18 as stated fails: `w-1` was ready and its infrastructure object is
gone; the error of `reconcileInfrastructure` carries a retry-after, and
`Reconcile` returns no error and asks for a requeue after
`externalReadyWait`. -/
theorem Reconcile_lost_infrastructure_is_retried :
    running1.status.infrastructureReady = true ∧
    retryAfterOf (reconcileInfrastructure (normalCluster none) {} running1).err
      = some 30000000000 ∧
    (ReconcileNormal (normalCluster none) {} running1).err = none ∧
    (ReconcileNormal (normalCluster none) {} running1).result
      = { requeue := true, requeueAfter := 30000000000 } := by
  decide

/-- C18, amended: when the infrastructure was ready and the infrastructure
reference is now reported not-found, `reconcileInfrastructure` propagates the
error of `reconcileExternal`, whose cause is a retry-after of
`externalReadyWait`; the normal path of `Reconcile` keeps it out of the
returned error, asks for a requeue after `externalReadyWait`, and the failure
shows in FailureReason and in the phase `Failed`. -/
theorem Reconcile_requeues_lost_infrastructure (w : Cluster) (t : external.ObjectTracker)
    (m : Machine) (err : Error)
    (hhelper : w.newHelperMachine m = none)
    (hdel : isZero m.deletionTimestamp = true)
    (hset : m.spec.infrastructureRef ≠ {})
    (hready : m.status.infrastructureReady = true)
    (hget : w.getUnstructured m.spec.infrastructureRef.apiVersion
      m.spec.infrastructureRef.kind m.ns m.spec.infrastructureRef.name = .error err)
    (hnf : IsNotFound (Cause err) = true) :
    (reconcileInfrastructure w t (AddFinalizer m MachineFinalizer)).err =
      some (.wrapf (.requeueAfter w.externalReadyWait)
        "could not find %v %q for Machine %q in namespace %q, requeuing"
        [m.spec.infrastructureRef.GroupVersionKind.string, m.spec.infrastructureRef.name,
          m.name, m.ns]) ∧
    retryAfterOf (reconcileInfrastructure w t (AddFinalizer m MachineFinalizer)).err
      = some w.externalReadyWait ∧
    (ReconcileNormal w t m).result
      = { requeue := true, requeueAfter := w.externalReadyWait } ∧
    (∀ errs, (ReconcileNormal w t m).err = some (.aggregate errs) →
      errs = terminalErrors [(reconcileNodeRef w
        (reconcileInfrastructure w t (AddFinalizer m MachineFinalizer)).machine).err]) ∧
    (ReconcileNormal w t m).machine.status.failureReason = some "InvalidConfiguration" ∧
    (ReconcileNormal w t m).machine.status.phase = MachineFailed := by
  obtain ⟨fs, hfs⟩ := AddFinalizer_frame m MachineFinalizer
  have hi := reconcileInfrastructure_of_not_found w t (AddFinalizer m MachineFinalizer) err
    (by rw [hfs]; exact hset) (by rw [hfs]; exact hget) hnf
  rw [if_pos (by rw [hfs]; exact hready)] at hi
  have herr : (reconcileInfrastructure w t (AddFinalizer m MachineFinalizer)).err =
      some (.wrapf (.requeueAfter w.externalReadyWait)
        "could not find %v %q for Machine %q in namespace %q, requeuing"
        [m.spec.infrastructureRef.GroupVersionKind.string, m.spec.infrastructureRef.name,
          m.name, m.ns]) := by
    rw [hi, hfs]
  have hretry : retryAfterOf (reconcileInfrastructure w t (AddFinalizer m MachineFinalizer)).err
      = some w.externalReadyWait := by
    rw [herr]
    rfl
  have hpair := parseErrors_pair
    (reconcileInfrastructure w t (AddFinalizer m MachineFinalizer)).err
    (reconcileNodeRef w (reconcileInfrastructure w t
      (AddFinalizer m MachineFinalizer)).machine).err
  rw [hretry] at hpair
  have hmach := ReconcileNormal_machine w t m hhelper
  obtain ⟨⟨nr, v, hnode⟩, _⟩ := reconcileNodeRef_frame w
    (reconcileInfrastructure w t (AddFinalizer m MachineFinalizer)).machine
  have hreason : (reconcileNodeRef w (reconcileInfrastructure w t
      (AddFinalizer m MachineFinalizer)).machine).machine.status.failureReason
        = some InvalidConfigurationMachineError := by
    rw [hnode, hi]
  have hdel2 : isZero (reconcileNodeRef w (reconcileInfrastructure w t
      (AddFinalizer m MachineFinalizer)).machine).machine.deletionTimestamp = true := by
    rw [hnode, hi, hfs]
    exact hdel
  refine ⟨herr, hretry, ?_, ?_, ?_, ?_⟩
  · unfold ReconcileNormal
    simp only [hhelper, hpair]
    split <;> rfl
  · intro errs he
    unfold ReconcileNormal at he
    simp only [hhelper, hpair] at he
    have hagg : NewAggregate (List.filter (fun err => (retryAfterOf err).isNone)
        [(reconcileInfrastructure w t (AddFinalizer m MachineFinalizer)).err,
          (reconcileNodeRef w (reconcileInfrastructure w t
            (AddFinalizer m MachineFinalizer)).machine).err]) =
        if (terminalErrors [(reconcileNodeRef w (reconcileInfrastructure w t
            (AddFinalizer m MachineFinalizer)).machine).err]).isEmpty then none
        else some (.aggregate (terminalErrors [(reconcileNodeRef w (reconcileInfrastructure w t
            (AddFinalizer m MachineFinalizer)).machine).err])) := by
      unfold NewAggregate terminalErrors
      simp only [List.filter_cons, hretry, Option.isNone_some, Bool.false_eq_true, if_false]
    rw [hagg] at he
    split at he
    · rename_i e heq
      split at heq
      · exact Option.noConfusion heq
      · simp only [Option.some.injEq] at heq he
        subst heq
        simp only [Option.some.injEq, ReconcileError.aggregate.injEq] at he
        exact he.symm
    · cases hpm : w.patchMachine m (reconcilePhase (reconcileNodeRef w
        (reconcileInfrastructure w t (AddFinalizer m MachineFinalizer)).machine).machine) with
      | none => simp [hpm] at he
      | some e => simp [hpm] at he
  · rw [hmach, reconcilePhase_frame]
    exact hreason
  · rw [hmach, reconcilePhase_phase]
    simp [hdel2, hreason]

/-- Witness of the amended C18: the ready Machine `w-1`, whose infrastructure
object is gone. -/
theorem Reconcile_requeues_lost_infrastructure_witness :
    (ReconcileNormal (normalCluster none) {} running1).result
      = { requeue := true,
          requeueAfter := (normalCluster none).externalReadyWait } ∧
    (ReconcileNormal (normalCluster none) {} running1).machine.status.phase = MachineFailed :=
  have h := Reconcile_requeues_lost_infrastructure (normalCluster none) {} running1
    (.status "NotFound" "infrastructure object not found") rfl rfl (by decide) rfl rfl rfl
  ⟨h.2.2.1, h.2.2.2.2.2⟩

/-- C20 as stated fails: `w-1` was ready, its infrastructure object reports
`status.ready: false`, and `reconcileInfrastructure` writes `false` to
`InfrastructureReady`. -/
theorem reconcileInfrastructure_resets_ready :
    running1.status.infrastructureReady = true ∧
    (reconcileInfrastructure (normalCluster (some infra1NotReady)) {}
      running1).machine.status.infrastructureReady = false := by
  decide

/-- C20, amended: for every Machine with `InfrastructureReady = true`,
`reconcileInfrastructure` sets `InfrastructureReady` back to `false` exactly
when the infrastructure reference is set and the object `reconcileExternal`
returned carries no deletion timestamp and `IsReady` reports it not ready; it
then returns an error whose cause is a retry-after of `externalReadyWait`.  In
every other state of the infrastructure resource the flag stays `true`. -/
theorem reconcileInfrastructure_ready_unless_reported_not_ready (w : Cluster)
    (t : external.ObjectTracker) (m : Machine)
    (hready : m.status.infrastructureReady = true) :
    ((reconcileInfrastructure w t m).machine.status.infrastructureReady = false ↔
      (m.spec.infrastructureRef ≠ {} ∧
        ∃ obj, (reconcileExternal w t m m.spec.infrastructureRef).value = .object obj ∧
          isZero obj.deletionTimestamp = true ∧ external.IsReady obj = .ok false)) ∧
    ((reconcileInfrastructure w t m).machine.status.infrastructureReady = false →
      retryAfterOf (reconcileInfrastructure w t m).err = some w.externalReadyWait) := by
  obtain ⟨⟨fr, fm, hext, _, _⟩, _⟩ :=
    reconcileExternal_frame w t m m.spec.infrastructureRef
  have hflag : (reconcileExternal w t m m.spec.infrastructureRef).machine.status.infrastructureReady
      = true := by
    rw [hext]
    exact hready
  by_cases hset : m.spec.infrastructureRef = {}
  · have hrun : reconcileInfrastructure w t m = ⟨[], m, t, none⟩ := by
      unfold reconcileInfrastructure
      rw [if_pos hset]
    rw [hrun]
    simp only [hready, Bool.true_eq_false, false_iff, false_implies, and_true]
    exact fun h => h.1 hset
  · unfold reconcileInfrastructure
    rw [if_neg hset]
    simp only []
    cases hv : (reconcileExternal w t m m.spec.infrastructureRef).value with
    | failed err =>
      simp only [hflag]
      constructor
      · split_ifs <;> simp [hflag]
      · split_ifs <;> simp [hflag]
    | object obj =>
      simp only []
      have hrhs : (m.spec.infrastructureRef ≠ {} ∧
          ∃ o, Fetched.object obj = .object o ∧
            isZero o.deletionTimestamp = true ∧ external.IsReady o = .ok false) ↔
          (isZero obj.deletionTimestamp = true ∧ external.IsReady obj = .ok false) := by
        constructor
        · rintro ⟨_, o, ho, h1, h2⟩
          cases ho
          exact ⟨h1, h2⟩
        · rintro ⟨h1, h2⟩
          exact ⟨hset, obj, rfl, h1, h2⟩
      rw [hrhs]
      by_cases hz : isZero obj.deletionTimestamp = true
      · rw [if_neg (by simp [hz])]
        cases hr : external.IsReady obj with
        | error err => simp [hflag]
        | ok ready =>
          cases ready with
          | false =>
            simp only [Bool.not_false, if_true]
            refine ⟨⟨fun _ => ?_, fun _ => ?_⟩, fun _ => ?_⟩
            all_goals first | rfl | trivial
          | true =>
            simp only [Bool.not_true, Bool.false_eq_true, if_false]
            constructor
            · repeat' (first | split | split_ifs)
              all_goals simp
            · repeat' (first | split | split_ifs)
              all_goals simp
      · rw [if_pos (by simp [hz])]
        simp [hz, hflag]

/-- Witness of the amended C20: the infrastructure object of `w-1` is being
deleted and reports not ready; the flag stays `true`. -/
theorem reconcileInfrastructure_ready_unless_reported_not_ready_witness :
    running1.status.infrastructureReady = true ∧
    ((reconcileInfrastructure (normalCluster (some { infra1NotReady with
        deletionTimestamp := some 7 })) {} running1).machine.status.infrastructureReady = false ↔
      (running1.spec.infrastructureRef ≠ {} ∧
        ∃ obj, (reconcileExternal (normalCluster (some { infra1NotReady with
            deletionTimestamp := some 7 })) {} running1
              running1.spec.infrastructureRef).value = .object obj ∧
          isZero obj.deletionTimestamp = true ∧ external.IsReady obj = .ok false)) :=
  ⟨rfl, (reconcileInfrastructure_ready_unless_reported_not_ready (normalCluster
    (some { infra1NotReady with deletionTimestamp := some 7 })) {} running1 rfl).1⟩

end machine
end MachineAPI

/-! ## Theorems: errors -/

namespace MachineAPI

/-- Further layers do not change the cause of an error. -/
theorem Cause_wrapLayers (e : Error) (layers : List Layer) :
    Cause (wrapLayers e layers) = Cause e := by
  unfold wrapLayers
  induction layers generalizing e with
  | nil => rfl
  | cons l rest ih =>
    rw [List.foldl_cons, ih]
    cases l <;> rfl

/-- C25: for every duration, message and further wrapping layers,
`IsRequeueAfter` is true of `NewRequeueErrorf(d, msg)` under those layers and
the cause's `GetRequeueAfter()` is `d`; `IsRequeueAfter` is false for nil and
for every error, under any layers, whose cause is not a retry-after error,
even when its text is the text of a retry-after error. -/
theorem IsRequeueAfter_by_cause (d : Nat) (msg : String) (args : List String)
    (layers : List Layer) :
    IsRequeueAfter (some (wrapLayers (NewRequeueErrorf d msg args) layers)) = true ∧
    asRequeueAfter (Cause (wrapLayers (NewRequeueErrorf d msg args) layers)) = some d ∧
    IsRequeueAfter none = false ∧
    (∀ e : Error, (∀ d2, Cause e ≠ .requeueAfter d2) →
      IsRequeueAfter (some (wrapLayers e layers)) = false) ∧
    (∀ (quote : String → String) (duration : Nat → String),
      (Error.foreign ((Error.requeueAfter d).text quote duration)).text quote duration
        = (Error.requeueAfter d).text quote duration ∧
      IsRequeueAfter
        (some (wrapLayers (.foreign ((Error.requeueAfter d).text quote duration)) layers))
          = false) := by
  have hcause : Cause (wrapLayers (NewRequeueErrorf d msg args) layers) = .requeueAfter d := by
    rw [Cause_wrapLayers]
    rfl
  have hnot : ∀ e : Error, (∀ d2, Cause e ≠ .requeueAfter d2) →
      IsRequeueAfter (some (wrapLayers e layers)) = false := by
    intro e he
    unfold IsRequeueAfter
    simp only [Cause_wrapLayers]
    cases hc : Cause e with
    | requeueAfter d2 => exact absurd hc (he d2)
    | _ => rfl
  refine ⟨?_, ?_, rfl, hnot, ?_⟩
  · unfold IsRequeueAfter
    simp only [hcause]
    rfl
  · rw [hcause]
    rfl
  · intro quote duration
    refine ⟨rfl, hnot _ ?_⟩
    intro d2 h
    cases h

/-- Witness of C25: a retry-after of one second under two more layers, and a
plain error under the same layers. -/
theorem IsRequeueAfter_by_cause_witness :
    IsRequeueAfter (some (wrapLayers (NewRequeueErrorf 1000000000 "no matching Node" [])
      [.wrapf "reconcile failed" [], .wrapText (.foreign "requeue in 1s")])) = true ∧
    IsRequeueAfter (some (wrapLayers (.foreign "requeue in 1s")
      [.wrapf "reconcile failed" [], .wrapText (.foreign "requeue in 1s")])) = false :=
  ⟨(IsRequeueAfter_by_cause 1000000000 "no matching Node" []
      [.wrapf "reconcile failed" [], .wrapText (.foreign "requeue in 1s")]).1,
    (IsRequeueAfter_by_cause 1000000000 "no matching Node" []
      [.wrapf "reconcile failed" [], .wrapText (.foreign "requeue in 1s")]).2.2.2.1
        (.foreign "requeue in 1s") (fun d2 h => by cases h)⟩

end MachineAPI

/-! ## Theorems: external objects -/

namespace MachineAPI
namespace external

/-- C24 as stated fails: the reference of `TestGetResourceFound` without its
kind names no stored resource, and `Get` returns the client's missing-kind
error under its own message; the cause of that error is not a not-found API
error. -/
theorem Get_without_kind_is_not_not_found :
    ([greenTemplate].all (fun o => !(o.apiVersion == kindlessReference.apiVersion &&
      o.kind == kindlessReference.kind && o.ns == "test" &&
      o.name == kindlessReference.name))) = true ∧
    Get (storeGet [greenTemplate]) kindlessReference "test"
      = .error (.wrapf (.foreign "unstructured object has no kind")
          "failed to retrieve %s external object %q/%q" ["", "test", "greenTemplate"]) ∧
    IsNotFound (Cause (.wrapf (.foreign "unstructured object has no kind")
      "failed to retrieve %s external object %q/%q" ["", "test", "greenTemplate"])) = false :=
  ⟨by decide, rfl, rfl⟩

/-- C24, amended: for every store and namespace and every object reference
that has a kind and a version, `Get` in front of the store returns a stored
object of the reference's apiVersion, kind and name in that namespace when
there is one, that very object when the store holds no other under the same
key, and otherwise an error whose cause is a not-found API error.  For a
reference without kind or version it returns the client's missing-kind or
missing-version error under its own message, whose cause is not a not-found
API error. -/
theorem Get_of_store (store : List Unstructured) (ref : ObjectReference) (ns : String) :
    (missingKind ref.apiVersion ref.kind = none →
      ((∃ obj ∈ store, obj.apiVersion = ref.apiVersion ∧ obj.kind = ref.kind ∧ obj.ns = ns ∧
          obj.name = ref.name) →
        ∃ o ∈ store, o.apiVersion = ref.apiVersion ∧ o.kind = ref.kind ∧ o.ns = ns ∧
          o.name = ref.name ∧ Get (storeGet store) ref ns = .ok o) ∧
      (∀ obj ∈ store, obj.apiVersion = ref.apiVersion → obj.kind = ref.kind → obj.ns = ns →
        obj.name = ref.name →
        (∀ o ∈ store, o.apiVersion = ref.apiVersion → o.kind = ref.kind → o.ns = ns →
          o.name = ref.name → o = obj) →
        Get (storeGet store) ref ns = .ok obj) ∧
      ((∀ obj ∈ store, ¬ (obj.apiVersion = ref.apiVersion ∧ obj.kind = ref.kind ∧
          obj.ns = ns ∧ obj.name = ref.name)) →
        ∃ err, Get (storeGet store) ref ns = .error err ∧ IsNotFound (Cause err) = true)) ∧
    (∀ err, missingKind ref.apiVersion ref.kind = some err →
      Get (storeGet store) ref ns =
        .error (.wrapf err "failed to retrieve %s external object %q/%q"
          [ref.kind, ns, ref.name]) ∧
      IsNotFound (Cause (.wrapf err "failed to retrieve %s external object %q/%q"
        [ref.kind, ns, ref.name])) = false) := by
  constructor
  · intro hkind
    have hfound : ∀ o, store.find? (fun o => o.apiVersion == ref.apiVersion
        && o.kind == ref.kind && o.ns == ns && o.name == ref.name) = some o →
        o ∈ store ∧ o.apiVersion = ref.apiVersion ∧ o.kind = ref.kind ∧ o.ns = ns ∧
          o.name = ref.name ∧ Get (storeGet store) ref ns = .ok o := by
      intro o ho
      have hp := List.find?_some ho
      simp only [Bool.and_eq_true, beq_iff_eq] at hp
      refine ⟨List.mem_of_find?_eq_some ho, hp.1.1.1, hp.1.1.2, hp.1.2, hp.2, ?_⟩
      unfold Get storeGet
      simp only [hkind, ho]
    have hsome : (∃ obj ∈ store, obj.apiVersion = ref.apiVersion ∧ obj.kind = ref.kind ∧
        obj.ns = ns ∧ obj.name = ref.name) →
        ∃ o, store.find? (fun o => o.apiVersion == ref.apiVersion && o.kind == ref.kind
          && o.ns == ns && o.name == ref.name) = some o := by
      rintro ⟨obj, hmem, h1, h2, h3, h4⟩
      cases hf : store.find? (fun o => o.apiVersion == ref.apiVersion && o.kind == ref.kind
          && o.ns == ns && o.name == ref.name) with
      | some o => exact ⟨o, rfl⟩
      | none =>
        have := List.find?_eq_none.mp hf obj hmem
        simp [h1, h2, h3, h4] at this
    refine ⟨?_, ?_, ?_⟩
    · intro h
      obtain ⟨o, ho⟩ := hsome h
      exact ⟨o, (hfound o ho).1, (hfound o ho).2⟩
    · intro obj hmem h1 h2 h3 h4 huniq
      obtain ⟨o, ho⟩ := hsome ⟨obj, hmem, h1, h2, h3, h4⟩
      obtain ⟨hm, g1, g2, g3, g4, hget⟩ := hfound o ho
      rw [← huniq o hm g1 g2 g3 g4]
      exact hget
    · intro hnone
      cases hf : store.find? (fun o => o.apiVersion == ref.apiVersion && o.kind == ref.kind
          && o.ns == ns && o.name == ref.name) with
      | some o =>
        obtain ⟨hm, g1, g2, g3, g4, _⟩ := hfound o hf
        exact absurd ⟨g1, g2, g3, g4⟩ (hnone o hm)
      | none =>
        refine ⟨.wrapf (.status "NotFound" (ref.kind ++ " " ++ ref.name ++ " not found"))
          "failed to retrieve %s external object %q/%q" [ref.kind, ns, ref.name], ?_, rfl⟩
        unfold Get storeGet
        simp only [hkind, hf]
  · intro err herr
    constructor
    · unfold Get storeGet
      simp only [herr]
    · unfold missingKind at herr
      simp only [] at herr
      split_ifs at herr
      · cases herr
        rfl
      · cases herr
        rfl

/-- Witness of the amended C24: the resources of `TestGetResourceFound` and
`TestGetResourceNotFound`. -/
theorem Get_of_store_witness :
    Get (storeGet [greenTemplate]) greenReference "test" = .ok greenTemplate ∧
    ∃ err, Get (storeGet []) blueReference "test" = .error err ∧
      IsNotFound (Cause err) = true :=
  ⟨((Get_of_store [greenTemplate] greenReference "test").1 (by decide)).2.1 greenTemplate
      (List.mem_singleton.mpr rfl) rfl rfl rfl rfl
      (fun o ho _ _ _ _ => List.mem_singleton.mp ho),
    ((Get_of_store [] blueReference "test").1 (by decide)).2.2 (fun _ h => by cases h)⟩

end external
end MachineAPI

/-! ## Theorems: external objects, tracker -/

namespace MachineAPI
namespace external

/-- A call of `Watch` on a tracker whose Controller is set, when the
registration succeeds: a kind already stored is left alone, a new kind is
stored and registered. -/
theorem Watch_of_success (cw : GroupVersionKind → Option Error) (hcw : ∀ gvk, cw gvk = none)
    (t : ObjectTracker) (ht : t.controller = true) (obj : Unstructured) :
    t.Watch cw obj =
      if t.m.contains (.groupKind obj.GroupVersionKind.groupKindString) then ⟨t, false, none⟩
      else ⟨{ t with m := t.m ++ [.groupKind obj.GroupVersionKind.groupKindString] },
        true, none⟩ := by
  unfold ObjectTracker.Watch
  simp only [ht, hcw, Bool.not_true, Bool.false_eq_true, if_false]

/-- The keys stored after calls of `Watch` that all succeed: those stored
before and the kinds of the objects; the Controller stays set. -/
theorem trackAll_of_success (cw : GroupVersionKind → Option Error)
    (hcw : ∀ gvk, cw gvk = none) :
    ∀ (objs : List Unstructured) (t : ObjectTracker), t.controller = true →
      (trackAll cw t objs).controller = true ∧
      ∀ k, (trackAll cw t objs).m.contains (.groupKind k) =
        (t.m.contains (.groupKind k) ||
          objs.any (fun obj => obj.GroupVersionKind.groupKindString == k))
  | [], t, ht => ⟨ht, fun k => by simp [trackAll]⟩
  | obj :: rest, t, ht => by
    have hw := Watch_of_success cw hcw t ht obj
    unfold trackAll
    by_cases hc : t.m.contains (.groupKind obj.GroupVersionKind.groupKindString) = true
    · rw [if_pos hc] at hw
      rw [hw]
      obtain ⟨h1, h2⟩ := trackAll_of_success cw hcw rest t ht
      refine ⟨h1, fun k => ?_⟩
      rw [h2 k, List.any_cons]
      by_cases hk : obj.GroupVersionKind.groupKindString = k
      · subst hk
        rw [hc]
        rfl
      · have hb : (obj.GroupVersionKind.groupKindString == k) = false := by simp [hk]
        rw [hb, Bool.false_or]
    · rw [if_neg hc] at hw
      rw [hw]
      obtain ⟨h1, h2⟩ := trackAll_of_success cw hcw rest
        { t with m := t.m ++ [.groupKind obj.GroupVersionKind.groupKindString] } ht
      refine ⟨h1, fun k => ?_⟩
      rw [h2 k, List.any_cons]
      by_cases hk : obj.GroupVersionKind.groupKindString = k
      · subst hk
        simp
      · have hb : (obj.GroupVersionKind.groupKindString == k) = false := by simp [hk]
        have hk2 : ¬ k = obj.GroupVersionKind.groupKindString := fun h => hk h.symm
        rw [hb, Bool.false_or]
        simp [hk2]

/-- The number of registrations of one key among calls of `Watch` that all
succeed: one when an object has the key and the tracker did not hold it, none
otherwise. -/
theorem registrations_count (cw : GroupVersionKind → Option Error)
    (hcw : ∀ gvk, cw gvk = none) (k : String) :
    ∀ (objs : List Unstructured) (t : ObjectTracker), t.controller = true →
      ((registrations cw t objs).filter (fun g => g.groupKindString == k)).length =
        if objs.any (fun obj => obj.GroupVersionKind.groupKindString == k)
            && !t.m.contains (.groupKind k) then 1 else 0
  | [], _, _ => by simp [registrations]
  | obj :: rest, t, ht => by
    have hw := Watch_of_success cw hcw t ht obj
    unfold registrations
    by_cases hc : t.m.contains (.groupKind obj.GroupVersionKind.groupKindString) = true
    · rw [if_pos hc] at hw
      rw [hw]
      simp only [Bool.false_eq_true, if_false, List.nil_append]
      rw [registrations_count cw hcw k rest t ht, List.any_cons]
      by_cases hk : obj.GroupVersionKind.groupKindString = k
      · subst hk
        rw [hc]
        simp
      · have hb : (obj.GroupVersionKind.groupKindString == k) = false := by simp [hk]
        rw [hb, Bool.false_or]
    · rw [if_neg hc] at hw
      rw [hw]
      simp only [if_true, List.filter_append, List.length_append]
      rw [registrations_count cw hcw k rest
        { t with m := t.m ++ [.groupKind obj.GroupVersionKind.groupKindString] } ht,
        List.any_cons]
      have hcf : t.m.contains (.groupKind obj.GroupVersionKind.groupKindString) = false := by
        simpa using hc
      have hnm : Key.groupKind obj.GroupVersionKind.groupKindString ∉ t.m := by
        simpa using hc
      by_cases hk : obj.GroupVersionKind.groupKindString = k
      · subst hk
        simp [hnm]
      · have hb : (obj.GroupVersionKind.groupKindString == k) = false := by simp [hk]
        have hk2 : ¬ k = obj.GroupVersionKind.groupKindString := fun h => hk h.symm
        rw [hb, Bool.false_or]
        simp [hk, hk2]

/-- Every registration is for the kind of one of the objects. -/
theorem registrations_mem (cw : GroupVersionKind → Option Error) :
    ∀ (objs : List Unstructured) (t : ObjectTracker),
      ∀ g ∈ registrations cw t objs, ∃ obj ∈ objs, g = obj.GroupVersionKind
  | [], _, g, hg => by simp [registrations] at hg
  | obj :: rest, t, g, hg => by
    unfold registrations at hg
    rcases List.mem_append.mp hg with h | h
    · split_ifs at h
      · exact ⟨obj, List.mem_cons_self _ _, List.mem_singleton.mp h⟩
      · cases h
    · obtain ⟨o, ho, hgo⟩ := registrations_mem cw rest _ g h
      exact ⟨o, List.mem_cons_of_mem _ ho, hgo⟩

/-- Two lists that agree after a separator which occurs in neither head have
the same heads and tails. -/
theorem append_cons_inj {α : Type} (a : α) :
    ∀ (l1 l2 r1 r2 : List α), a ∉ l1 → a ∉ l2 → l1 ++ a :: r1 = l2 ++ a :: r2 →
      l1 = l2 ∧ r1 = r2
  | [], [], _, _, _, _, h => ⟨rfl, List.tail_eq_of_cons_eq h⟩
  | [], y :: l2, _, _, _, h2, h => by
    have := List.head_eq_of_cons_eq h
    exact absurd (this ▸ List.mem_cons_self _ _) h2
  | x :: l1, [], _, _, h1, _, h => by
    have := List.head_eq_of_cons_eq h
    exact absurd (this ▸ List.mem_cons_self _ _) h1
  | x :: l1, y :: l2, r1, r2, h1, h2, h => by
    have hxy := List.head_eq_of_cons_eq h
    have ht := List.tail_eq_of_cons_eq h
    obtain ⟨hl, hr⟩ := append_cons_inj a l1 l2 r1 r2
      (fun hm => h1 (List.mem_cons_of_mem _ hm)) (fun hm => h2 (List.mem_cons_of_mem _ hm)) ht
    exact ⟨by rw [hxy, hl], hr⟩

/-- The string of a group-kind tells the group-kind, for kinds without a
dot. -/
theorem groupKindString_inj (g1 g2 : GroupVersionKind)
    (h1 : '.' ∉ g1.kind.toList) (h2 : '.' ∉ g2.kind.toList)
    (h : g1.groupKindString = g2.groupKindString) :
    g1.group = g2.group ∧ g1.kind = g2.kind := by
  have hempty : ∀ s : String, s.length = 0 → s = "" := by
    intro s hs
    apply String.ext
    exact List.length_eq_zero.mp hs
  have hdata : ∀ k g : String, (k ++ "." ++ g).toList = k.toList ++ '.' :: g.toList := by
    intro k g
    simp [String.toList]
  unfold GroupVersionKind.groupKindString at h
  by_cases e1 : g1.group.length = 0 <;> by_cases e2 : g2.group.length = 0
  · rw [if_pos e1, if_pos e2] at h
    exact ⟨(hempty _ e1).trans (hempty _ e2).symm, h⟩
  · rw [if_pos e1, if_neg e2] at h
    exfalso
    apply h1
    rw [h, hdata]
    simp
  · rw [if_neg e1, if_pos e2] at h
    exfalso
    apply h2
    rw [← h, hdata]
    simp
  · rw [if_neg e1, if_neg e2] at h
    have hl := congrArg String.toList h
    rw [hdata, hdata] at hl
    obtain ⟨hk, hg⟩ := append_cons_inj '.' _ _ _ _ h1 h2 hl
    exact ⟨String.ext hg, String.ext hk⟩

/-- Two tests that agree on the members of a list hold of some member
together. -/
theorem any_congr_mem {α : Type} (p q : α → Bool) :
    ∀ (l : List α), (∀ x ∈ l, p x = q x) → l.any p = l.any q
  | [], _ => rfl
  | x :: rest, h => by
    rw [List.any_cons, List.any_cons, h x (List.mem_cons_self _ _),
      any_congr_mem p q rest (fun y hy => h y (List.mem_cons_of_mem _ hy))]

/-- C22: for every sequence of `Watch` calls made one at a time on one
tracker whose Controller is set, the registration succeeding each time: every
call returns nil, and a call invokes the controller's `Watch` exactly when the
key of its kind was neither held by the tracker nor that of an earlier call;
so each key is registered exactly once, on the first call for it, whichever
object that call was made for.  On a tracker that holds nothing yet, and for
kinds without a dot, the keys tell the group-kinds apart: the controller's
`Watch` is invoked exactly once per distinct group-kind. -/
theorem Watch_registers_once_per_kind (cw : GroupVersionKind → Option Error)
    (t : ObjectTracker) (objs : List Unstructured)
    (hcw : ∀ gvk, cw gvk = none) (ht : t.controller = true) :
    (∀ (pre : List Unstructured) (obj : Unstructured),
      ((trackAll cw t pre).Watch cw obj).err = none ∧
      ((trackAll cw t pre).Watch cw obj).registered =
        (!t.m.contains (.groupKind obj.GroupVersionKind.groupKindString) &&
          !pre.any (fun p =>
            p.GroupVersionKind.groupKindString == obj.GroupVersionKind.groupKindString))) ∧
    (∀ k : String,
      ((registrations cw t objs).filter (fun g => g.groupKindString == k)).length =
        if objs.any (fun obj => obj.GroupVersionKind.groupKindString == k)
            && !t.m.contains (.groupKind k) then 1 else 0) ∧
    (t.m = [] → (∀ obj ∈ objs, '.' ∉ obj.GroupVersionKind.kind.toList) →
      ∀ gk : String × String,
        ((registrations cw t objs).filter (fun g => (g.group, g.kind) == gk)).length =
          if objs.any (fun obj => groupKind obj == gk) then 1 else 0) := by
  refine ⟨?_, fun k => registrations_count cw hcw k objs t ht, ?_⟩
  · intro pre obj
    obtain ⟨hc, hm⟩ := trackAll_of_success cw hcw pre t ht
    rw [Watch_of_success cw hcw (trackAll cw t pre) hc obj, hm]
    cases h1 : t.m.contains (.groupKind obj.GroupVersionKind.groupKindString) <;>
      cases h2 : pre.any (fun p =>
        p.GroupVersionKind.groupKindString == obj.GroupVersionKind.groupKindString) <;>
      simp
  · intro hempty hdots gk
    have hcount := registrations_count cw hcw
      (GroupVersionKind.groupKindString { group := gk.1, kind := gk.2 }) objs t ht
    rw [hempty] at hcount
    simp only [List.contains_nil, Bool.not_false, Bool.and_true] at hcount
    by_cases hgk : '.' ∈ gk.2.toList
    · have hl : (registrations cw t objs).filter (fun g => (g.group, g.kind) == gk) = [] := by
        rw [List.filter_eq_nil_iff]
        intro g hg hgeq
        obtain ⟨obj, hobj, rfl⟩ := registrations_mem cw objs t g hg
        have : (obj.GroupVersionKind.group, obj.GroupVersionKind.kind) = gk := by
          simpa using hgeq
        apply hdots obj hobj
        have h2 : obj.GroupVersionKind.kind = gk.2 := congrArg Prod.snd this
        rw [h2]
        exact hgk
      have hr : objs.any (fun obj => groupKind obj == gk) = false := by
        rw [List.any_eq_false]
        intro obj hobj hgeq
        have : groupKind obj = gk := by simpa using hgeq
        apply hdots obj hobj
        have h2 : obj.GroupVersionKind.kind = gk.2 := congrArg Prod.snd this
        rw [h2]
        exact hgk
      rw [hl, hr]
      rfl
    · have hkey : ∀ g : GroupVersionKind, '.' ∉ g.kind.toList →
          ((g.group, g.kind) == gk) =
            (g.groupKindString ==
              GroupVersionKind.groupKindString { group := gk.1, kind := gk.2 }) := by
        intro g hg
        by_cases he : (g.group, g.kind) = gk
        · subst he
          simp [GroupVersionKind.groupKindString]
        · have hne : g.groupKindString ≠
              GroupVersionKind.groupKindString { group := gk.1, kind := gk.2 } := by
            intro hs
            obtain ⟨h1, h2⟩ := groupKindString_inj g { group := gk.1, kind := gk.2 } hg hgk hs
            exact he (Prod.ext h1 h2)
          simp [he, hne]
      have hl : (registrations cw t objs).filter (fun g => (g.group, g.kind) == gk) =
          (registrations cw t objs).filter (fun g => g.groupKindString ==
            GroupVersionKind.groupKindString { group := gk.1, kind := gk.2 }) := by
        apply List.filter_congr
        intro g hg
        obtain ⟨obj, hobj, rfl⟩ := registrations_mem cw objs t g hg
        exact hkey _ (hdots obj hobj)
      have hr : objs.any (fun obj => groupKind obj == gk) =
          objs.any (fun obj => obj.GroupVersionKind.groupKindString ==
            GroupVersionKind.groupKindString { group := gk.1, kind := gk.2 }) :=
        any_congr_mem _ _ objs (fun obj hobj => hkey _ (hdots obj hobj))
      rw [hl, hr]
      exact hcount

/-- Witness of C22: three calls, two of them for objects of the kind
`GreenTemplate` owned by different Machines; the kind is registered once. -/
theorem Watch_registers_once_per_kind_witness :
    ((registrations (fun _ => none) {}
        [greenTemplate, { greenTemplate with kind := "BlueTemplate" },
          { greenTemplate with name := "other" }]).filter
      (fun g => (g.group, g.kind) == ("green.io", "GreenTemplate"))).length = 1 :=
  ((Watch_registers_once_per_kind (fun _ => none) {}
      [greenTemplate, { greenTemplate with kind := "BlueTemplate" },
        { greenTemplate with name := "other" }] (fun _ => rfl) rfl).2.2 rfl (by decide)
    ("green.io", "GreenTemplate")).trans (by decide)

/-- C23: on a tracker that holds nothing, a `Watch` whose registration fails
returns the wrapped error and leaves the group-kind key stored, since the
rollback deletes the key `obj` and not the string that was stored; the next
`Watch` for an object of the same group-kind then finds the key, returns nil
and does not invoke the controller's `Watch` again. -/
theorem Watch_failure_keeps_kind_registered :
    (ObjectTracker.Watch {} (fun _ => some (.foreign "informer not ready")) greenTemplate).err
      = some (.wrapf (.foreign "informer not ready")
          "failed to add watcher on external object %q" ["green.io/v1, Kind=GreenTemplate"]) ∧
    (ObjectTracker.Watch {} (fun _ => some (.foreign "informer not ready")) greenTemplate).tracker.m
      = [.groupKind "GreenTemplate.green.io"] ∧
    ((ObjectTracker.Watch {} (fun _ => some (.foreign "informer not ready"))
        greenTemplate).tracker.Watch (fun _ => none) { greenTemplate with name := "other" })
      = ⟨{ m := [.groupKind "GreenTemplate.green.io"] }, false, none⟩ := by
  decide

end external
end MachineAPI

/-! ## Theorems: InfrastructureProvider controller -/

namespace MachineAPI
namespace infraprovider

/-- C26 as stated fails: the external object `infra/aws` is found and reports
`status.ready: false`; `Reconcile` writes `Ready = false` with
`r.Status().Update` and returns the empty result and no error: no requeue is
requested. -/
theorem Reconcile_not_ready_requests_no_requeue :
    external.IsReady (external1 false) = .ok false ∧
    (Reconcile (sampleCluster [external1 false]) {} "" "aws").result
      = { requeue := false, requeueAfter := 0 } ∧
    (Reconcile (sampleCluster [external1 false]) {} "" "aws").err = none ∧
    (Reconcile (sampleCluster [external1 false]) {} "" "aws").calls
      = [.getProvider "" "aws",
          .getUnstructured "infrastructure.crit.sh/v1alpha1" "AWSProvider" "infra" "aws",
          .patchUnstructured (external1 false),
          .watch { group := "infrastructure.crit.sh", version := "v1alpha1",
                   kind := "AWSProvider" },
          .statusUpdate { provider1 with status := { ready := false } }] := by
  refine ⟨rfl, ?_, ?_, ?_⟩ <;> decide

/-- C26, amended: when the referenced external resource is not found,
`Reconcile` returns a result requesting a requeue after `externalReadyWait`
and no error, and updates nothing.  When it is found, is not being deleted and
is not ready, `Reconcile` records `Ready = false` on the provider with
`r.Status().Update` and returns the empty result, with no error unless that
update fails: no requeue is requested. -/
theorem Reconcile_requeues_only_when_not_found (w : Cluster) (t : external.ObjectTracker)
    (ns name : String) (ip : InfrastructureProvider)
    (hget : w.getProvider ns name = .ok ip) :
    (∀ err, w.getUnstructured ip.spec.infrastructureRef.apiVersion
        ip.spec.infrastructureRef.kind ip.spec.infrastructureRef.ns
        ip.spec.infrastructureRef.name = .error err →
      IsNotFound (Cause err) = true →
      (Reconcile w t ns name).result = { requeueAfter := w.externalReadyWait } ∧
      (Reconcile w t ns name).err = none ∧
      (Reconcile w t ns name).provider = some ip ∧
      (Reconcile w t ns name).calls =
        [.getProvider ns name,
          .getUnstructured ip.spec.infrastructureRef.apiVersion ip.spec.infrastructureRef.kind
            ip.spec.infrastructureRef.ns ip.spec.infrastructureRef.name]) ∧
    (∀ obj, (reconcileExternal w t ip ip.spec.infrastructureRef).value = .ok obj →
      isZero obj.deletionTimestamp = true →
      external.IsReady obj = .ok false →
      (Reconcile w t ns name).result = {} ∧
      (Reconcile w t ns name).err
        = w.statusUpdate { ip with status := { ip.status with ready := false } } ∧
      (Reconcile w t ns name).provider
        = some { ip with status := { ip.status with ready := false } } ∧
      (Reconcile w t ns name).calls =
        Call.getProvider ns name :: (reconcileExternal w t ip ip.spec.infrastructureRef).calls
          ++ [.statusUpdate { ip with status := { ip.status with ready := false } }]) := by
  constructor
  · intro err hnf hcause
    have hext : reconcileExternal w t ip ip.spec.infrastructureRef =
        ⟨[.getUnstructured ip.spec.infrastructureRef.apiVersion ip.spec.infrastructureRef.kind
            ip.spec.infrastructureRef.ns ip.spec.infrastructureRef.name], t,
          .error (.wrapf (.requeueAfter w.externalReadyWait)
            "could not find %v %q for InfrastructureProvider %q in namespace %q, requeuing"
            [ip.spec.infrastructureRef.GroupVersionKind.string, ip.spec.infrastructureRef.name,
              ip.name, ip.ns])⟩ := by
      unfold reconcileExternal external.Get
      simp only [hnf]
      have : IsNotFound (Cause (Error.wrapf err "failed to retrieve %s external object %q/%q"
          [ip.spec.infrastructureRef.kind, ip.spec.infrastructureRef.ns,
            ip.spec.infrastructureRef.name])) = true := hcause
      rw [if_pos this]
    unfold Reconcile
    simp only [hget, hext]
    exact ⟨rfl, rfl, rfl, rfl⟩
  · intro obj hobj hdel hready
    unfold Reconcile
    simp only [hget, hobj, hdel, hready, Bool.not_true, Bool.false_eq_true, if_false]
    simp

/-- Witness of the amended C26: the store holds the provider `aws` and not the
external object it refers to. -/
theorem Reconcile_requeues_only_when_not_found_witness :
    (Reconcile (sampleCluster []) {} "" "aws").result
      = { requeueAfter := (sampleCluster []).externalReadyWait } ∧
    (Reconcile (sampleCluster []) {} "" "aws").err = none :=
  have h := (Reconcile_requeues_only_when_not_found (sampleCluster []) {} "" "aws" provider1
    rfl).1 (.status "NotFound" "AWSProvider aws not found") rfl rfl
  ⟨h.1, h.2.1⟩

end infraprovider
end MachineAPI

/-! ## Theorems: Node controller -/

namespace MachineAPI
namespace node

/-- The assignment into an association list leaves the value under the key. -/
theorem setEntry_lookup (key value : String) :
    ∀ l : List (String × String), (setEntry key value l).lookup key = some value
  | [] => by simp [setEntry, List.lookup]
  | (k, v) :: rest => by
    unfold setEntry
    split_ifs with h
    · simp [List.lookup]
    · have hne : (key == k) = false := by
        simp only [beq_eq_false_iff_ne, ne_eq]
        exact fun e => h e.symm
      simp only [List.lookup, hne]
      exact setEntry_lookup key value rest

/-- On a Node whose annotations map is not nil, the function handed to
`PatchNode` returns the Node with the owner annotation set to `data`, its
other fields as they were. -/
theorem annotate_of_map (data : String) (n : Node) (l : List (String × String))
    (h : n.annotations = some l) :
    annotate data n = .returned { n with annotations := some (setEntry NodeOwnerLabelName data l) } ∧
    (setEntry NodeOwnerLabelName data l).lookup NodeOwnerLabelName = some data := by
  unfold annotate
  simp only [h]
  exact ⟨trivial, setEntry_lookup _ _ l⟩

/-- A Node that carries the owner annotation causes no request beyond the
fetch. -/
theorem Reconcile_of_owned (w : Cluster) (name : String) (n : Node)
    (hget : w.getNode name = .ok n) (howned : isOwned n = true) :
    Reconcile w name = ⟨[.getNode name], .returned ({}, none)⟩ := by
  unfold Reconcile
  simp only [hget, howned, Bool.not_true, Bool.false_eq_true, if_false]

/-- For a Node without the owner annotation, with the Machines listed:
when a listed Machine has a non-empty ProviderID equal to the Node's, nothing
is created and `PatchNode` is called with the reference of the first such
Machine; otherwise the Machine named after the Node is created in
`kube-system` with the Node's providerID, an already-exists answer being
passed over, and `PatchNode` is called with the reference of that Machine. -/
theorem ensureMachineForNode_of_listed (w : Cluster) (n : Node) (items : List Machine)
    (hlist : w.listMachines = .ok items) :
    (∀ m, items.find? (hasProviderID n) = some m →
      m.spec.providerID = some n.providerID ∧ n.providerID ≠ "" ∧
      ensureMachineForNode w n =
        ⟨.listMachines :: ( setMachineAnnotation w m n.name).calls,
          ( setMachineAnnotation w m n.name).value⟩) ∧
    (items.find? (hasProviderID n) = none →
      (∀ created, w.create (machineFor n) = .ok created →
        ensureMachineForNode w n =
          ⟨[.listMachines, .create (machineFor n)] ++
              ( setMachineAnnotation w created n.name).calls,
            ( setMachineAnnotation w created n.name).value⟩) ∧
      (∀ err, w.create (machineFor n) = .error err → IsAlreadyExists err = true →
        ensureMachineForNode w n =
          ⟨[.listMachines, .create (machineFor n)] ++
              ( setMachineAnnotation w (machineFor n) n.name).calls,
            ( setMachineAnnotation w (machineFor n) n.name).value⟩)) ∧
    (∀ m data, w.marshal (machineReference m) = .ok data → w.newForConfig = none →
      setMachineAnnotation w m n.name =
        ⟨[.newForConfig, .patchNode n.name data], w.patchNode n.name (annotate data)⟩) := by
  refine ⟨?_, ?_, ?_⟩
  · intro m hm
    have hp := List.find?_some hm
    unfold hasProviderID at hp
    refine ⟨?_, ?_, ?_⟩
    · cases hpid : m.spec.providerID with
      | none => simp [hpid] at hp
      | some p =>
        simp only [hpid, Bool.and_eq_true, beq_iff_eq] at hp
        rw [hp.2]
    · cases hpid : m.spec.providerID with
      | none => simp [hpid] at hp
      | some p =>
        simp only [hpid, Bool.and_eq_true, beq_iff_eq, bne_iff_ne, ne_eq] at hp
        rw [← hp.2]
        exact hp.1
    · unfold ensureMachineForNode
      simp only [hlist, hm]
  · intro hnone
    constructor
    · intro created hc
      unfold ensureMachineForNode
      simp only [hlist, hnone, hc]
    · intro err hc hexists
      unfold ensureMachineForNode
      simp only [hlist, hnone, hc, hexists, Bool.not_true, Bool.false_eq_true, if_false]
  · intro m data hdata hconfig
    unfold setMachineAnnotation
    simp only [hdata, hconfig]

/-- C27: the Node `node-1` carries no annotation at all, so its map is nil,
and no Machine has its providerID.  `Reconcile` creates the Machine
`kube-system/node-1` and calls `PatchNode`; the function it hands over
assigns into the nil map and panics, so the Node is not annotated.  On the
same Node with an annotation of the kubelet the function sets the owner
annotation and `Reconcile` returns nil. -/
theorem Reconcile_panics_on_nil_annotations :
    isOwned bare1 = false ∧
    Reconcile (sampleCluster [bare1] []) "node-1"
      = ⟨[.getNode "node-1", .listMachines, .create (machineFor bare1), .newForConfig,
          .patchNode "node-1" "Machine/kube-system/node-1"], .panicked⟩ ∧
    annotate "Machine/kube-system/node-1" bare1 = .panicked ∧
    (Reconcile (sampleCluster [joined1] []) "node-1").outcome = .returned ({}, none) ∧
    annotate "Machine/kube-system/node-1" joined1 = .returned owned1 ∧
    Reconcile (sampleCluster [owned1] []) "node-1"
      = ⟨[.getNode "node-1"], .returned ({}, none)⟩ := by
  decide

end node
end MachineAPI

/-! ## Theorems: CSR approver, Node lookup -/

namespace MachineAPI
namespace csrapprover

/-- C28 as stated fails: the requestor `system:node:node-b` names a Node that
cannot be fetched; `validateCSR` returns the lookup error, and `Reconcile`
returns the empty result and a nil error, without approving. -/
theorem Reconcile_returns_nil_on_node_lookup_error :
    (validateCSR (sampleCluster csrB [machineA] {}) csrB).outcome
      = .returned (some (.status "NotFound" "node not found")) ∧
    (Reconcile (sampleCluster csrB [machineA] {}) "csr-b").outcome
      = .returned ({ requeue := false, requeueAfter := 0 }, none) ∧
    submitsApproval (Reconcile (sampleCluster csrB [machineA] {}) "csr-b") = false := by
  decide

/-- C28, amended: when the Node named by the requestor identity of a pending
node request cannot be fetched, `validateCSR` returns the lookup error after
that one request; `Reconcile` does not return it: it returns a nil error, with
the empty result when the cause of the lookup error is not a retry-after
error, and leaves the request as it was, without approving it. -/
theorem Reconcile_swallows_node_lookup_error (w : Cluster) (req : String)
    (csr : CertificateSigningRequest) (err : Error)
    (hget : w.getCSR req = .ok csr)
    (hnodeid : hasPrefix csr.spec.username "system:node:" = true)
    (hpending : pending csr = true)
    (hname : (trimPrefix csr.spec.username "system:node:").length ≠ 0)
    (hgroups : hasAll csr.spec.groups ["system:nodes", "system:authenticated"] = true)
    (hnode : w.getNode (trimPrefix csr.spec.username "system:node:") = .error err) :
    validateCSR w csr
      = ⟨[.getNode (trimPrefix csr.spec.username "system:node:")], .returned (some err)⟩ ∧
    (Reconcile w req).csr = some csr ∧
    submitsApproval (Reconcile w req) = false ∧
    (Reconcile w req).outcome =
      .returned ({ requeueAfter := (asRequeueAfter (Cause err)).getD 0 }, none) ∧
    (asRequeueAfter (Cause err) = none →
      (Reconcile w req).outcome = .returned ({}, none)) := by
  have hv : validateCSR w csr
      = ⟨[.getNode (trimPrefix csr.spec.username "system:node:")], .returned (some err)⟩ := by
    unfold validateCSR
    simp only [hname, hgroups, hnode, if_false, Bool.not_true, Bool.false_eq_true]
  have hr := Reconcile_of_rejected w req csr err hget hnodeid hpending (by rw [hv])
  refine ⟨hv, hr.1, hr.2.1, hr.2.2.2, ?_⟩
  intro hnone
  rw [hr.2.2.2, hnone]
  rfl

/-- Witness of the amended C28: the request of `system:node:node-b`. -/
theorem Reconcile_swallows_node_lookup_error_witness :
    (Reconcile (sampleCluster csrB [machineA] {}) "csr-b").outcome =
      .returned ({ requeueAfter := (asRequeueAfter
        (Cause (.status "NotFound" "node not found"))).getD 0 }, none) :=
  (Reconcile_swallows_node_lookup_error (sampleCluster csrB [machineA] {}) "csr-b" csrB
    (.status "NotFound" "node not found") rfl (by decide) (by decide) (by decide) (by decide)
    rfl).2.2.2.1

end csrapprover
end MachineAPI

/-! ## Theorems: Machine controller, version and failure -/

namespace MachineAPI
namespace machine

/-- The fetch of the Machine controller is the function `Get` of
`util/external` on the answers of the store. -/
theorem externalGet_value (w : Cluster) (ref : ObjectReference) (ns : String) :
    (externalGet w ref ns).value = external.Get w.getUnstructured ref ns := by
  unfold externalGet external.Get
  split <;> rfl

/-- C29 as stated fails: `w-1` has no NodeRef, the Node `node-w-1` has its
providerID and a kubelet version that does not parse; `reconcileNodeRef` binds
the Machine and sets `Status.Version` to `0.0.0`, the rendering of the zero
`semver.Version`, not to the empty string. -/
theorem reconcileNodeRef_unparsable_version_is_zero :
    (joinedCluster infra1).semverParse (trimPrefix nodeW1.kubeletVersion "v") = none ∧
    (reconcileNodeRef (joinedCluster infra1) pending1).err = none ∧
    (reconcileNodeRef (joinedCluster infra1) pending1).machine.status.nodeRef
      = some { kind := "Node", apiVersion := "v1", name := "node-w-1", ns := "" } ∧
    (reconcileNodeRef (joinedCluster infra1) pending1).machine.status.version
      = some "0.0.0" := by
  decide

/-- C29, amended: when `reconcileNodeRef` binds a Machine to the first listed
Node whose `spec.providerID` equals the Machine's ProviderID, a kubelet
version that does not parse as a v-prefixed semantic version does not abort
the binding: NodeRef is set, nil is returned, and `Status.Version` is set to
`0.0.0`. -/
theorem reconcileNodeRef_unparsable_version (w : Cluster) (m : Machine)
    (providerID : String) (nodes : List Node) (node : Node)
    (href : m.status.nodeRef = none)
    (hpid : m.spec.providerID = some providerID)
    (hlist : w.listNodes = .ok nodes)
    (hfind : nodes.find? (fun node => node.providerID == providerID) = some node)
    (hparse : w.semverParse (trimPrefix node.kubeletVersion "v") = none) :
    reconcileNodeRef w m =
      ⟨[.listNodes],
        { m with status := { m.status with
            nodeRef := some { kind := node.kind, apiVersion := node.apiVersion,
                              name := node.name, ns := node.ns }
            version := some "0.0.0" } },
        none⟩ := by
  unfold reconcileNodeRef
  simp only [href, hpid, hlist, hfind, hparse]

/-- Witness of the amended C29: `w-1` and the Node `node-w-1`. -/
theorem reconcileNodeRef_unparsable_version_witness :
    reconcileNodeRef (joinedCluster infra1) pending1 =
      ⟨[.listNodes],
        { pending1 with status := { pending1.status with
            nodeRef := some { kind := nodeW1.kind, apiVersion := nodeW1.apiVersion,
                              name := nodeW1.name, ns := nodeW1.ns }
            version := some "0.0.0" } },
        none⟩ :=
  reconcileNodeRef_unparsable_version (joinedCluster infra1) pending1 "provider://w-1"
    [nodeW1] nodeW1 rfl rfl rfl rfl rfl

/-- C30: no step of the normal path resets a FailureReason or FailureMessage
that is set, whatever the store answers; so a Machine without deletion
timestamp whose phase is `Failed` with a failure field set still has that
failure field and the phase `Failed` after a normal-path `Reconcile`. -/
theorem ReconcileNormal_keeps_failure (w : Cluster) (t : external.ObjectTracker)
    (m : Machine)
    (hfail : m.status.failureReason ≠ none ∨ m.status.failureMessage ≠ none)
    (hdel : isZero m.deletionTimestamp = true)
    (hphase : m.status.phase = MachineFailed) :
    (∀ (x : Machine) (ref : ObjectReference),
      (x.status.failureReason ≠ none →
        (reconcileExternal w t x ref).machine.status.failureReason ≠ none) ∧
      (x.status.failureMessage ≠ none →
        (reconcileExternal w t x ref).machine.status.failureMessage ≠ none)) ∧
    (∀ x : Machine,
      (x.status.failureReason ≠ none →
        (reconcileInfrastructure w t x).machine.status.failureReason ≠ none) ∧
      (x.status.failureMessage ≠ none →
        (reconcileInfrastructure w t x).machine.status.failureMessage ≠ none)) ∧
    (∀ x : Machine,
      (reconcileNodeRef w x).machine.status.failureReason = x.status.failureReason ∧
      (reconcileNodeRef w x).machine.status.failureMessage = x.status.failureMessage) ∧
    (∀ x : Machine,
      (reconcilePhase x).status.failureReason = x.status.failureReason ∧
      (reconcilePhase x).status.failureMessage = x.status.failureMessage) ∧
    (m.status.failureReason ≠ none →
      (ReconcileNormal w t m).machine.status.failureReason ≠ none) ∧
    (m.status.failureMessage ≠ none →
      (ReconcileNormal w t m).machine.status.failureMessage ≠ none) ∧
    (ReconcileNormal w t m).machine.status.phase = MachineFailed := by
  have hext : ∀ (x : Machine) (ref : ObjectReference),
      (x.status.failureReason ≠ none →
        (reconcileExternal w t x ref).machine.status.failureReason ≠ none) ∧
      (x.status.failureMessage ≠ none →
        (reconcileExternal w t x ref).machine.status.failureMessage ≠ none) := by
    intro x ref
    obtain ⟨⟨r, msg, h, h1, h2⟩, _⟩ := reconcileExternal_frame w t x ref
    rw [h]
    exact ⟨h1, h2⟩
  have hinfra : ∀ x : Machine,
      (x.status.failureReason ≠ none →
        (reconcileInfrastructure w t x).machine.status.failureReason ≠ none) ∧
      (x.status.failureMessage ≠ none →
        (reconcileInfrastructure w t x).machine.status.failureMessage ≠ none) := by
    intro x
    obtain ⟨_, _, _, _, _, _, h, h1, h2⟩ := reconcileInfrastructure_frame w t x
    rw [h]
    exact ⟨h1, h2⟩
  have hnode : ∀ x : Machine,
      (reconcileNodeRef w x).machine.status.failureReason = x.status.failureReason ∧
      (reconcileNodeRef w x).machine.status.failureMessage = x.status.failureMessage := by
    intro x
    obtain ⟨⟨_, _, h⟩, _⟩ := reconcileNodeRef_frame w x
    rw [h]
    exact ⟨rfl, rfl⟩
  have hph : ∀ x : Machine,
      (reconcilePhase x).status.failureReason = x.status.failureReason ∧
      (reconcilePhase x).status.failureMessage = x.status.failureMessage := by
    intro x
    rw [reconcilePhase_frame x]
    exact ⟨rfl, rfl⟩
  refine ⟨hext, hinfra, hnode, hph, ?_⟩
  cases hh : w.newHelperMachine m with
  | some err =>
    have hm : (ReconcileNormal w t m).machine = m := by
      unfold ReconcileNormal
      simp only [hh]
    rw [hm]
    exact ⟨id, id, hphase⟩
  | none =>
    obtain ⟨fs, hfs⟩ := AddFinalizer_frame m MachineFinalizer
    have hmach := ReconcileNormal_machine w t m hh
    have hreason : m.status.failureReason ≠ none →
        (ReconcileNormal w t m).machine.status.failureReason ≠ none := by
      intro h
      rw [hmach, (hph _).1, (hnode _).1]
      exact (hinfra _).1 (by rw [hfs]; exact h)
    have hmessage : m.status.failureMessage ≠ none →
        (ReconcileNormal w t m).machine.status.failureMessage ≠ none := by
      intro h
      rw [hmach, (hph _).2, (hnode _).2]
      exact (hinfra _).2 (by rw [hfs]; exact h)
    refine ⟨hreason, hmessage, ?_⟩
    have hdel2 : isZero (reconcileNodeRef w (reconcileInfrastructure w t
        (AddFinalizer m MachineFinalizer)).machine).machine.deletionTimestamp = true := by
      obtain ⟨⟨_, _, h⟩, _⟩ := reconcileNodeRef_frame w
        (reconcileInfrastructure w t (AddFinalizer m MachineFinalizer)).machine
      obtain ⟨_, _, _, _, _, _, h2, _, _⟩ :=
        reconcileInfrastructure_frame w t (AddFinalizer m MachineFinalizer)
      rw [h, h2, hfs]
      exact hdel
    have hset : ((reconcileNodeRef w (reconcileInfrastructure w t
          (AddFinalizer m MachineFinalizer)).machine).machine.status.failureReason.isSome ||
        (reconcileNodeRef w (reconcileInfrastructure w t
          (AddFinalizer m MachineFinalizer)).machine).machine.status.failureMessage.isSome)
          = true := by
      rw [(hnode _).1, (hnode _).2]
      rcases hfail with h | h
      · have := (hinfra (AddFinalizer m MachineFinalizer)).1 (by rw [hfs]; exact h)
        simp [Option.isSome_iff_ne_none.mpr this]
      · have := (hinfra (AddFinalizer m MachineFinalizer)).2 (by rw [hfs]; exact h)
        simp [Option.isSome_iff_ne_none.mpr this]
    rw [hmach, reconcilePhase_phase, hdel2, hset]
    rfl

/-- Witness of C30: the Machine `w-1` as the reconcile that found its
infrastructure object gone left it, the object being back and ready. -/
theorem ReconcileNormal_keeps_failure_witness :
    (ReconcileNormal (normalCluster (some infra1)) {}
      (ReconcileNormal (normalCluster none) {} running1).machine).machine.status.phase
        = MachineFailed :=
  (ReconcileNormal_keeps_failure (normalCluster (some infra1)) {}
    (ReconcileNormal (normalCluster none) {} running1).machine
    (Or.inl (by decide)) (by decide) (by decide)).2.2.2.2.2.2

end machine
end MachineAPI

/-! ## Theorems: Machine controller, settled Machines -/

namespace MachineAPI
namespace machine

/-- `AddFinalizer` leaves a Machine that has the finalizer as it is. -/
theorem AddFinalizer_of_mem (m : Machine) (finalizer : String)
    (h : m.finalizers.contains finalizer = true) : AddFinalizer m finalizer = m := by
  unfold AddFinalizer
  rw [if_pos h]

/-- `reconcilePhase` leaves a running Machine without failure and without
deletion timestamp as it is. -/
theorem reconcilePhase_settled (m : Machine)
    (hphase : m.status.phase = MachineRunning) (href : m.status.nodeRef ≠ none)
    (hreason : m.status.failureReason = none) (hmessage : m.status.failureMessage = none)
    (hdel : isZero m.deletionTimestamp = true) : reconcilePhase m = m := by
  have hp : (reconcilePhase m).status.phase = MachineRunning := by
    rw [reconcilePhase_phase]
    simp [hdel, hreason, hmessage, Option.isSome_iff_ne_none.mpr href]
  rw [reconcilePhase_frame, hp, ← hphase]

/-- When every request of `reconcileExternal` succeeds and the external
object reports no failure, the Machine is left as it is and the object is
returned. -/
theorem reconcileExternal_settled (w : Cluster) (t : external.ObjectTracker) (m : Machine)
    (ref : ObjectReference) (obj owned : Unstructured)
    (hget : w.getUnstructured ref.apiVersion ref.kind m.ns ref.name = .ok obj)
    (hhelper : w.newHelperUnstructured obj = none)
    (howner : w.setControllerReference m obj = .ok owned)
    (hpatch : w.patchUnstructured obj owned = none)
    (hwatch : (t.Watch w.controllerWatch owned).err = none)
    (hfail : external.FailuresFrom owned = .ok ("", "")) :
    (reconcileExternal w t m ref).machine = m ∧
    (reconcileExternal w t m ref).value = .object owned := by
  unfold reconcileExternal externalGet
  simp only [hget, hhelper, howner, hpatch, hwatch, hfail]
  simp

/-- On a Machine in step with its ready infrastructure object, which reports
no failure, `reconcileInfrastructure` changes nothing and returns nil. -/
theorem reconcileInfrastructure_settled (w : Cluster) (t : external.ObjectTracker)
    (m : Machine) (obj owned : Unstructured) (pid : String)
    (hset : m.spec.infrastructureRef ≠ {})
    (hget : w.getUnstructured m.spec.infrastructureRef.apiVersion
      m.spec.infrastructureRef.kind m.ns m.spec.infrastructureRef.name = .ok obj)
    (hhelper : w.newHelperUnstructured obj = none)
    (howner : w.setControllerReference m obj = .ok owned)
    (hpatch : w.patchUnstructured obj owned = none)
    (hwatch : (t.Watch w.controllerWatch owned).err = none)
    (hfail : external.FailuresFrom owned = .ok ("", ""))
    (hready : m.status.infrastructureReady = true)
    (hisready : external.IsReady owned = .ok true)
    (hpid : owned.specProviderID = .value pid) (hpidne : pid ≠ "")
    (hmpid : m.spec.providerID = some pid)
    (haddr : owned.statusAddresses = .absent ∨
      owned.statusAddresses = .value m.status.addresses)
    (hfd : owned.specFailureDomain = .absent ∨
      ∃ d, owned.specFailureDomain = .value d ∧ m.spec.failureDomain = some d) :
    (reconcileInfrastructure w t m).machine = m ∧
    (reconcileInfrastructure w t m).err = none := by
  obtain ⟨hmach, hval⟩ := reconcileExternal_settled w t m m.spec.infrastructureRef obj owned
    hget hhelper howner hpatch hwatch hfail
  unfold reconcileInfrastructure
  rw [if_neg hset]
  simp only [hval, hmach]
  by_cases hz : isZero owned.deletionTimestamp = true
  · simp only [hz, Bool.not_true, Bool.false_eq_true, if_false, hisready, hpid,
      UnstructuredUnmarshalField, Option.getD_some, hpidne]
    rcases haddr with ha | ha <;> rcases hfd with hf | ⟨d, hf, hmd⟩
    · simp only [ha, hf, ErrUnstructuredFieldNotFound, bne_self_eq_false, Bool.false_eq_true,
        if_false, if_true, and_true]
      rw [← hready, ← hmpid]
    · simp only [ha, hf, ErrUnstructuredFieldNotFound, bne_self_eq_false, Bool.false_eq_true,
        if_false, Option.getD_some, and_true]
      rw [← hready, ← hmpid, ← hmd]
    · simp only [ha, hf, ErrUnstructuredFieldNotFound, if_true, and_true]
      rw [← hready, ← hmpid]
    · simp only [ha, hf, Option.getD_some, and_true]
      rw [← hready, ← hmpid, ← hmd]
  · simp [hz]

/-- C21 as stated fails: `w-1` is settled (not deleting, finalizer, bound
NodeRef, phase `Running`, no failure field, infrastructure ready, ProviderID,
addresses and failure domain those of its ready infrastructure object), but
the object reports `status.failureReason`; one normal-path `Reconcile` against
that store sets FailureReason and the phase `Failed` on the Machine. -/
theorem ReconcileNormal_settled_takes_infrastructure_failure :
    (isZero running1.deletionTimestamp = true ∧
      running1.finalizers.contains MachineFinalizer = true ∧
      running1.status.nodeRef ≠ none ∧ running1.status.phase = MachineRunning ∧
      running1.status.failureReason = none ∧ running1.status.failureMessage = none ∧
      running1.status.infrastructureReady = true ∧
      infra1Failed.specProviderID = .value "provider://w-1" ∧
      running1.spec.providerID = some "provider://w-1" ∧
      infra1Failed.statusAddresses = .absent ∧ running1.status.addresses = [] ∧
      infra1Failed.specFailureDomain = .absent ∧ running1.spec.failureDomain = none) ∧
    external.IsReady infra1Failed = .ok true ∧
    (ReconcileNormal (normalCluster (some infra1Failed)) {} running1).machine.status.failureReason
      = some "CreateError" ∧
    (ReconcileNormal (normalCluster (some infra1Failed)) {} running1).machine.status.phase
      = MachineFailed ∧
    (ReconcileNormal (normalCluster (some infra1Failed)) {} running1).machine ≠ running1 :=
  ⟨by decide, rfl, by decide, by decide, by decide⟩

/-- C21, amended: a Machine without deletion timestamp that has the
finalizer, a bound NodeRef, the phase `Running`, no failure field,
`InfrastructureReady = true`, and the ProviderID, addresses and failure domain
of its ready infrastructure object, which reports no failure reason and no
failure message, is left unchanged in every field by one normal-path
`Reconcile` whose requests succeed: the Machine handed to the patch is the one
the helper was made from, no error is returned and no requeue requested. -/
theorem ReconcileNormal_settled (w : Cluster) (t : external.ObjectTracker) (m : Machine)
    (obj owned : Unstructured) (pid : String)
    (hhelperM : w.newHelperMachine m = none)
    (hdel : isZero m.deletionTimestamp = true)
    (hfinalizer : m.finalizers.contains MachineFinalizer = true)
    (href : m.status.nodeRef ≠ none)
    (hphase : m.status.phase = MachineRunning)
    (hreason : m.status.failureReason = none) (hmessage : m.status.failureMessage = none)
    (hready : m.status.infrastructureReady = true)
    (hset : m.spec.infrastructureRef ≠ {})
    (hget : w.getUnstructured m.spec.infrastructureRef.apiVersion
      m.spec.infrastructureRef.kind m.ns m.spec.infrastructureRef.name = .ok obj)
    (hhelper : w.newHelperUnstructured obj = none)
    (howner : w.setControllerReference m obj = .ok owned)
    (hpatch : w.patchUnstructured obj owned = none)
    (hwatch : (t.Watch w.controllerWatch owned).err = none)
    (hfail : external.FailuresFrom owned = .ok ("", ""))
    (hisready : external.IsReady owned = .ok true)
    (hpid : owned.specProviderID = .value pid) (hpidne : pid ≠ "")
    (hmpid : m.spec.providerID = some pid)
    (haddr : owned.statusAddresses = .absent ∨
      owned.statusAddresses = .value m.status.addresses)
    (hfd : owned.specFailureDomain = .absent ∨
      ∃ d, owned.specFailureDomain = .value d ∧ m.spec.failureDomain = some d)
    (hpatchM : w.patchMachine m m = none) :
    (ReconcileNormal w t m).machine = m ∧
    (ReconcileNormal w t m).result = {} ∧
    (ReconcileNormal w t m).err = none ∧
    (ReconcileNormal w t m).calls.getLast? = some (.patchMachine m) := by
  have hadd := AddFinalizer_of_mem m MachineFinalizer hfinalizer
  obtain ⟨hi1, hi2⟩ := reconcileInfrastructure_settled w t m obj owned pid hset hget hhelper
    howner hpatch hwatch hfail hready hisready hpid hpidne hmpid haddr hfd
  have hnode := (reconcileNodeRef_frame w m).2 href
  have hph := reconcilePhase_settled m hphase href hreason hmessage hdel
  unfold ReconcileNormal
  simp only [hhelperM, hadd, hi1, hi2, hnode, hph]
  simp [parseErrors, NewAggregate, hpatchM]

/-- Witness of the amended C21: the Machine `w-1` and its ready
infrastructure object. -/
theorem ReconcileNormal_settled_witness :
    (ReconcileNormal (normalCluster (some infra1)) {} running1).machine = running1 ∧
    (ReconcileNormal (normalCluster (some infra1)) {} running1).result = {} ∧
    (ReconcileNormal (normalCluster (some infra1)) {} running1).err = none :=
  have h := ReconcileNormal_settled (normalCluster (some infra1)) {} running1 infra1 infra1
    "provider://w-1" rfl rfl (by decide) (by decide) rfl rfl rfl rfl (by decide) rfl rfl rfl rfl
    (by decide) rfl rfl rfl (by decide) rfl (Or.inl rfl) (Or.inl rfl) rfl
  ⟨h.1, h.2.1, h.2.2.1⟩

end machine
end MachineAPI
